import Mathlib

/-! # Attendance application: student identity (UID) scheme and attendance ledger

Shallow embedding of the backend of the attendance application
(`backend/models/Student.js`, `backend/models/Attendance.js`,
`backend/routes/students.js`, `backend/routes/attendance.js`).

Conventions of the embedding

* A collection of the document store is a list of documents in insertion order;
  `findOne` returns the first document that matches.
* JavaScript numbers that hold integers are `Nat` (student fields) or `Int`
  (results of `parseInt`); `Number.prototype.toString` is the plain decimal
  rendering, which is what JavaScript prints for integers below `10^21`.
* Instants are milliseconds since the epoch (`Int`); the server's time zone is a
  fixed offset.
* The clock (current year, current instant) and the identifiers generated for new
  documents are explicit parameters.
-/

namespace AttendanceApp

/-! ## JavaScript string helpers -/

/-- Number.prototype.toString of a non-negative integer: its decimal digits. -/
def numToString (n : Nat) : String := Nat.repr n

/-- String.prototype.slice(start) with a single argument: a negative `start` counts
from the end of the string, and the start index is clamped to the string. -/
def jsSlice (s : String) (start : Int) : String :=
  let len : Int := s.data.length
  let from_ : Int := if start < 0 then max (len + start) 0 else min start len
  ⟨s.data.drop from_.toNat⟩

/-- String.prototype.padStart(targetLength, padChar) for a one-character pad string. -/
def padStart (s : String) (targetLength : Nat) (padChar : Char) : String :=
  ⟨List.replicate (targetLength - s.data.length) padChar ++ s.data⟩

/-- White space in the sense of the regular expression class `\s` and of
String.prototype.trim. -/
def isJsWhitespace (c : Char) : Bool :=
  let n := c.toNat
  n == 0x09 || n == 0x0A || n == 0x0B || n == 0x0C || n == 0x0D || n == 0x20 ||
  n == 0xA0 || n == 0x1680 || (0x2000 ≤ n && n ≤ 0x200A) || n == 0x2028 ||
  n == 0x2029 || n == 0x202F || n == 0x205F || n == 0x3000 || n == 0xFEFF

/-- String.prototype.trim: drops white space at both ends. -/
def jsTrim (s : String) : String :=
  ⟨((s.data.dropWhile isJsWhitespace).reverse.dropWhile isJsWhitespace).reverse⟩

/-- String.prototype.toUpperCase on the letters `a`..`z`; every other character is
kept (the branch codes of the application are ASCII). -/
def toUpperCase (s : String) : String := ⟨s.data.map Char.toUpper⟩

/-! ## Anchored regular expressions

The regular expressions of the application all have the shape
`^ item item ... $` where an item is a character class with a repetition range. -/

/-- One item of an anchored regular expression: a character class repeated between
`lo` and `hi` times. -/
structure ReItem where
  cls : Char → Bool
  lo : Nat
  hi : Nat

/-- Backtracking match of a sequence of items against the whole input. -/
def matchItems : List ReItem → List Char → Bool
  | [], cs => cs.isEmpty
  | item :: rest, cs =>
    (List.range (item.hi - item.lo + 1)).any fun d =>
      let k := item.lo + d
      decide (k ≤ cs.length) && (cs.take k).all item.cls && matchItems rest (cs.drop k)

/-- The class `\d`. -/
def isDigitChar (c : Char) : Bool := '0' ≤ c && c ≤ '9'

/-- The class `[A-Z]`. -/
def isUpperAZ (c : Char) : Bool := 'A' ≤ c && c ≤ 'Z'

/-- The regular expression `^[1-4][A-Z]{2,3}\d{2}\d{2,3}$` of the `uid` validator. -/
def uidRegex : List ReItem :=
  [⟨fun c => '1' ≤ c && c ≤ '4', 1, 1⟩, ⟨isUpperAZ, 2, 3⟩, ⟨isDigitChar, 2, 2⟩,
   ⟨isDigitChar, 2, 3⟩]

/-- The regular expression `^[6-9]\d{9}$` of the phone validators. -/
def phoneRegex : List ReItem :=
  [⟨fun c => '6' ≤ c && c ≤ '9', 1, 1⟩, ⟨isDigitChar, 9, 9⟩]

/-- The validator of the `uid` path of the student schema (Student.js, lines 15-21). -/
def uidValidator (v : String) : Bool := matchItems uidRegex v.data

/-- The validator of the phone paths of the student schema and of the routes. -/
def phoneValidator (v : String) : Bool := matchItems phoneRegex v.data

/-! ## Students -/

/-- The branch enumeration of the schema and of the request validation. -/
def branches : List String := ["CSE", "ECE", "ME", "CE", "IT", "EEE", "AI", "DS"]

/-- A student document. `id` is the `_id` of the document. -/
structure Student where
  id : Nat
  studentName : String
  uid : String
  branch : String
  rollNo : Nat
  studentPhone : String
  parentPhone : String
  year : Nat
  admissionYear : Nat
  isActive : Bool
  deriving DecidableEq, Repr

/-- The static method `Student.generateUID` (Student.js, lines 87-93). -/
def generateUID (year : Nat) (branch : String) (admissionYear rollNo : Nat) : String :=
  let yearCode := numToString year
  let branchCode := branch
  let admissionYearCode := jsSlice (numToString admissionYear) (-2)
  let rollNoStr := padStart (numToString rollNo) 2 '0'
  yearCode ++ branchCode ++ admissionYearCode ++ rollNoStr

/-- The body of a student request (POST /students, PUT /students/:uid). -/
structure StudentBody where
  studentName : String
  branch : String
  rollNo : Nat
  studentPhone : String
  parentPhone : String
  year : Nat
  admissionYear : Nat
  deriving DecidableEq, Repr

/-- The validation chain `validateStudent` (students.js, lines 7-30): the list of
the messages of the checks that fail, in the order of the chain. `currentYear` is
`new Date().getFullYear()`. -/
def validateStudent (currentYear : Nat) (b : StudentBody) : List String :=
  (if 2 ≤ (jsTrim b.studentName).length ∧ (jsTrim b.studentName).length ≤ 50 then []
    else ["Student name must be between 2 and 50 characters"]) ++
  (if b.branch ∈ branches then [] else ["Invalid branch"]) ++
  (if 1 ≤ b.rollNo then [] else ["Roll number must be a positive integer"]) ++
  (if phoneValidator b.studentPhone then []
    else ["Please enter a valid 10-digit student phone number"]) ++
  (if phoneValidator b.parentPhone then []
    else ["Please enter a valid 10-digit parent phone number"]) ++
  (if b.year ∈ [1, 2, 3, 4] then [] else ["Year must be 1, 2, 3, or 4"]) ++
  (if 2020 ≤ b.admissionYear ∧ b.admissionYear ≤ currentYear then []
    else ["Admission year must be between 2020 and current year"])

/-- The request passes `validateStudent`. -/
def validBody (currentYear : Nat) (b : StudentBody) : Prop :=
  validateStudent currentYear b = []

instance (currentYear : Nat) (b : StudentBody) : Decidable (validBody currentYear b) := by
  unfold validBody; infer_instance

/-- The validators of the student schema (Student.js, lines 3-72), run by `save`. -/
def schemaValid (currentYear : Nat) (s : Student) : Bool :=
  (s.studentName != "" && decide (s.studentName.length ≤ 50)) &&
  (s.uid != "" && uidValidator s.uid) &&
  (s.branch != "" && decide (s.branch ∈ branches)) &&
  decide (1 ≤ s.rollNo) &&
  (s.studentPhone != "" && phoneValidator s.studentPhone) &&
  (s.parentPhone != "" && phoneValidator s.parentPhone) &&
  decide (s.year ∈ [1, 2, 3, 4]) &&
  decide (2020 ≤ s.admissionYear ∧ s.admissionYear ≤ currentYear)

/-- Responses of the student routes. -/
inductive StudentResp where
  /-- Status 201, 'Student added successfully'. -/
  | created (data : Student)
  /-- Status 200, 'Student updated successfully'. -/
  | updated (data : Student)
  /-- Status 400 with the array of validation errors. -/
  | validationFailed (errors : List String)
  /-- Status 400 with a message. -/
  | badRequest (message : String)
  /-- Status 404, 'Student not found'. -/
  | notFound
  /-- Status 500, 'Server error'. -/
  | serverError
  deriving DecidableEq, Repr

/-- The HTTP status of a response. -/
def StudentResp.status : StudentResp → Nat
  | .created _ => 201
  | .updated _ => 200
  | .validationFailed _ => 400
  | .badRequest _ => 400
  | .notFound => 404
  | .serverError => 500

/-- The message of the roll-number duplicate check. -/
def duplicateRollNumber : String :=
  "Student with this roll number already exists in this branch and year"

/-- The message of the UID duplicate check. -/
def duplicateUID : String := "Student with this UID already exists"

/-- The query `{ branch, year, rollNo, admissionYear }` of the duplicate check. -/
def sameTuple (b : StudentBody) (s : Student) : Bool :=
  s.branch == b.branch && s.year == b.year && s.rollNo == b.rollNo &&
    s.admissionYear == b.admissionYear

/-- The document built by `new Student(...)`: the schema setters trim the name and
the uid and uppercase the branch; `isActive` takes its default. -/
def newStudent (id : Nat) (uid : String) (b : StudentBody) : Student :=
  { id := id, studentName := jsTrim b.studentName, uid := jsTrim uid,
    branch := toUpperCase b.branch, rollNo := b.rollNo, studentPhone := b.studentPhone,
    parentPhone := b.parentPhone, year := b.year, admissionYear := b.admissionYear,
    isActive := true }

/-- The request body after the sanitizer `trim()` of the validation chain. -/
def sanitize (b : StudentBody) : StudentBody :=
  { b with studentName := jsTrim b.studentName }

/-- Saving a new document with `save`: the schema validators run, then the document is
inserted unless the unique index on `uid` rejects it. `none` is a thrown error. -/
def insertStudent (currentYear : Nat) (db : List Student) (s : Student) :
    Option (List Student) :=
  if !schemaValid currentYear s then none
  else if db.any (fun t => t.uid == s.uid) then none
  else some (db ++ [s])

/-- The handler of POST /students (students.js, lines 35-100). `newId` is the `_id`
given to the new document. Returns the response and the collection afterwards. -/
def postStudent (currentYear newId : Nat) (db : List Student) (body : StudentBody) :
    StudentResp × List Student :=
  let errors := validateStudent currentYear body
  if !errors.isEmpty then (.validationFailed errors, db)
  else
    let b := sanitize body
    match db.find? (sameTuple b) with
    | some _ => (.badRequest duplicateRollNumber, db)
    | none =>
      let uid := generateUID b.year b.branch b.admissionYear b.rollNo
      match db.find? (fun s => s.uid == uid) with
      | some _ => (.badRequest duplicateUID, db)
      | none =>
        let student := newStudent newId uid b
        match insertStudent currentYear db student with
        | none => (.serverError, db)
        | some db1 => (.created student, db1)

/-- Replaces the first document that satisfies `p`: the write of `save` on a document
that was loaded with `findOne`. -/
def replaceFirst (p : Student → Bool) (s1 : Student) : List Student → List Student
  | [] => []
  | s :: rest => if p s then s1 :: rest else s :: replaceFirst p s1 rest

/-- Saving a loaded document `old` with new contents `s1` (`student.save()`): the schema
validators run, and a changed `uid` must not collide in the unique index. `none` is
a thrown error. -/
def saveStudent (currentYear : Nat) (db : List Student) (old s1 : Student) :
    Option (List Student) :=
  if !schemaValid currentYear s1 then none
  else if s1.uid != old.uid && db.any (fun t => t.uid == s1.uid) then none
  else some (replaceFirst (fun t => t.uid == old.uid) s1 db)

/-- The assignments of the update (students.js, lines 467-474) on the loaded document;
the schema setters trim the name and the uid and uppercase the branch. -/
def assignFields (student : Student) (newUID : String) (b : StudentBody) : Student :=
  { student with
    studentName := jsTrim b.studentName, uid := jsTrim newUID,
    branch := toUpperCase b.branch, rollNo := b.rollNo,
    studentPhone := b.studentPhone, parentPhone := b.parentPhone,
    year := b.year, admissionYear := b.admissionYear }

/-- The handler of PUT /students/:uid (students.js, lines 414-491). -/
def putStudent (currentYear : Nat) (db : List Student) (uid : String) (body : StudentBody) :
    StudentResp × List Student :=
  let errors := validateStudent currentYear body
  if !errors.isEmpty then (.validationFailed errors, db)
  else
    let b := sanitize body
    match db.find? (fun s => s.uid == uid) with
    | none => (.notFound, db)
    | some student =>
      match db.find? (fun s => sameTuple b s && s.uid != uid) with
      | some _ => (.badRequest duplicateRollNumber, db)
      | none =>
        let newUID := generateUID b.year b.branch b.admissionYear b.rollNo
        if newUID != uid && (db.find? (fun s => s.uid == newUID)).isSome then
          (.badRequest duplicateUID, db)
        else
          let student1 := assignFields student newUID b
          match saveStudent currentYear db student student1 with
          | none => (.serverError, db)
          | some db1 => (.updated student1, db1)

/-! ## Request values and `parseInt` -/

/-- A value of a request that is a JSON number or a string. -/
inductive ReqVal where
  | num (n : Int)
  | str (s : String)
  deriving DecidableEq, Repr

/-- JavaScript truthiness of a request value. -/
def ReqVal.truthy : ReqVal → Bool
  | .num n => n != 0
  | .str s => s != ""

/-- Truthiness of a value that may be missing (`undefined`). -/
def truthy? : Option ReqVal → Bool
  | none => false
  | some v => v.truthy

/-- The value of a character as a digit in the given radix (10 or 16). -/
def digitValue (radix : Nat) (c : Char) : Option Nat :=
  if '0' ≤ c ∧ c ≤ '9' then some (c.toNat - '0'.toNat)
  else if radix = 16 ∧ 'a' ≤ c ∧ c ≤ 'f' then some (c.toNat - 'a'.toNat + 10)
  else if radix = 16 ∧ 'A' ≤ c ∧ c ≤ 'F' then some (c.toNat - 'A'.toNat + 10)
  else none

/-- Reads the longest run of digits at the start of `cs`; `acc` is the value read so
far (`none` before the first digit). -/
def readDigits (radix : Nat) : List Char → Option Nat → Option Nat
  | [], acc => acc
  | c :: cs, acc =>
    match digitValue radix c with
    | none => acc
    | some d => readDigits radix cs (some (acc.getD 0 * radix + d))

/-- The global function parseInt on a string (no radix argument): leading white space
is skipped, a sign is read, a leading 0x or 0X selects radix 16, and the longest run
of digits is the value. `none` is NaN. -/
def parseIntStr (s : String) : Option Int :=
  let cs := s.data.dropWhile isJsWhitespace
  let (neg, cs) : Bool × List Char :=
    match cs with
    | '-' :: r => (true, r)
    | '+' :: r => (false, r)
    | _ => (false, cs)
  let (radix, cs) : Nat × List Char :=
    match cs with
    | '0' :: 'x' :: r => (16, r)
    | '0' :: 'X' :: r => (16, r)
    | _ => (10, cs)
  match readDigits radix cs none with
  | none => none
  | some v => some (if neg then -(v : Int) else (v : Int))

/-- The global function parseInt on a request value: a number is first converted to
its string. -/
def parseInt : ReqVal → Option Int
  | .num n => some n
  | .str s => parseIntStr s

/-! ## Bulk updates of students -/

/-- The `updateData` of a bulk update: the schema paths it sets. -/
structure StudentUpdate where
  studentName : Option String := none
  uid : Option String := none
  branch : Option String := none
  rollNo : Option Nat := none
  studentPhone : Option String := none
  parentPhone : Option String := none
  year : Option Nat := none
  admissionYear : Option Nat := none
  isActive : Option Bool := none
  deriving DecidableEq, Repr

/-- Applies an update document to one student (`$set` of the given paths, after the
schema setters). -/
def StudentUpdate.apply (u : StudentUpdate) (s : Student) : Student :=
  { s with
    studentName := (u.studentName.map jsTrim).getD s.studentName
    uid := (u.uid.map jsTrim).getD s.uid
    branch := (u.branch.map toUpperCase).getD s.branch
    rollNo := u.rollNo.getD s.rollNo
    studentPhone := u.studentPhone.getD s.studentPhone
    parentPhone := u.parentPhone.getD s.parentPhone
    year := u.year.getD s.year
    admissionYear := u.admissionYear.getD s.admissionYear
    isActive := u.isActive.getD s.isActive }

/-- The loop of `Student.updateMany(query, update)`: the matching documents are updated
one after the other, without schema validation; the unique index on `uid` stops the
operation at the first document whose new uid is already present (the documents
updated before stay updated). Returns the number of documents updated, or `none` for
a thrown error, and the collection afterwards. -/
def updateManyLoop (query : Student → Bool) (u : StudentUpdate) :
    List Student → List Student → Nat → Option Nat × List Student
  | done, [], n => (some n, done)
  | done, s :: rest, n =>
    if query s then
      let s1 := u.apply s
      if s1.uid != s.uid && (done ++ rest).any (fun t => t.uid == s1.uid) then
        (none, done ++ s :: rest)
      else updateManyLoop query u (done ++ [s1]) rest (n + 1)
    else updateManyLoop query u (done ++ [s]) rest n

/-- The model method `Student.updateMany(query, update)`. -/
def updateMany (query : Student → Bool) (u : StudentUpdate) (db : List Student) :
    Option Nat × List Student :=
  updateManyLoop query u [] db 0

/-- Responses of the bulk routes. -/
inductive BulkResp where
  /-- Status 200 with the number of modified documents. -/
  | ok (modifiedCount : Nat)
  /-- Status 500, 'Server error'. -/
  | serverError
  deriving DecidableEq, Repr

/-- The handler of PUT /students/branch/:branch (students.js, lines 278-307). -/
def putByBranch (db : List Student) (branch : String) (year : Option ReqVal)
    (updateData : StudentUpdate) : BulkResp × List Student :=
  let yearQuery : Option (Option Int) :=
    if truthy? year then (year.bind parseInt).map some else some none
  match yearQuery with
  | none => (.serverError, db)
  | some yq =>
    let query := fun (s : Student) =>
      s.branch == toUpperCase branch && s.isActive &&
        (match yq with
          | none => true
          | some y => (s.year : Int) == y)
    match updateMany query updateData db with
    | (none, db1) => (.serverError, db1)
    | (some n, db1) => (.ok n, db1)

/-- The handler of PUT /students/year/:year (students.js, lines 312-341). -/
def putByYear (db : List Student) (year : String) (branch : Option String)
    (updateData : StudentUpdate) : BulkResp × List Student :=
  match parseIntStr year with
  | none => (.serverError, db)
  | some y =>
    let query := fun (s : Student) =>
      (s.year : Int) == y && s.isActive &&
        (match branch with
          | none => true
          | some b => b == "" || s.branch == toUpperCase b)
    match updateMany query updateData db with
    | (none, db1) => (.serverError, db1)
    | (some n, db1) => (.ok n, db1)

/-! ## Attendance ledger -/

/-- An attendance document. Instants (`date`, `createdAt`, `updatedAt`) are milliseconds
since the epoch; `student`, `markedBy` and `updatedBy` are document identifiers. -/
structure Attendance where
  student : Nat
  year : Int
  branch : String
  date : Int
  status : String
  markedBy : Nat
  updatedBy : Option Nat
  notes : Option String
  createdAt : Int
  updatedAt : Int
  deriving DecidableEq, Repr

/-- A date value of a request, by what `new Date(value)` makes of it. -/
inductive DateParam where
  /-- The value is missing or the empty string (falsy); `new Date` gives an invalid date. -/
  | missing
  /-- A non-empty value that `new Date` cannot read (an invalid date). -/
  | invalid
  /-- A value that `new Date` reads as the instant `t`. -/
  | instant (t : Int)
  deriving DecidableEq, Repr

/-- Milliseconds in a day. -/
def msPerDay : Int := 86400000

/-- The call `setHours(0, 0, 0, 0)` on the instant `t`: local midnight of the same local
day, for a server whose local time is UTC plus `tz` milliseconds. -/
def startOfDay (tz : Int) (t : Int) : Int := t - (t + tz) % msPerDay

/-- The instant of `new Date(date)` followed by `setHours(0, 0, 0, 0)`; `none` is an
invalid date. -/
def attendanceDate (tz : Int) : DateParam → Option Int
  | .instant t => some (startOfDay tz t)
  | _ => none

/-- One element of `attendanceData`. -/
structure Entry where
  studentId : Nat
  status : String
  deriving DecidableEq, Repr

/-- The query `{ year, branch, date }` of a cohort. -/
def sameCohort (year : Int) (branch : String) (date : Int) (r : Attendance) : Bool :=
  r.year == year && r.branch == branch && r.date == date

/-- The validators of the attendance schema (Attendance.js, lines 3-44) on a document
that has all its required paths. -/
def attendanceValid (r : Attendance) : Bool :=
  decide (r.year ∈ [1, 2, 3, 4]) && decide (r.branch ∈ branches) &&
  decide (r.status ∈ ["present", "absent"]) &&
  (match r.notes with
    | none => true
    | some n => decide (n.length ≤ 500))

/-- The ordered insert of the driver under the unique index on `(student, date)`: the
documents are inserted one after the other and the first duplicate key stops the
operation; the documents inserted before it stay. Returns whether all documents
were inserted, and the collection afterwards. -/
def insertOrdered : List Attendance → List Attendance → Bool × List Attendance
  | ledger, [] => (true, ledger)
  | ledger, r :: rest =>
    if ledger.any (fun x => x.student == r.student && x.date == r.date) then (false, ledger)
    else insertOrdered (ledger ++ [r]) rest

/-- The model method `Attendance.insertMany(docs)`: all documents are validated against
the schema first and nothing is inserted if one of them fails; then the ordered
insert runs. `none` is a thrown error. -/
def insertMany (ledger : List Attendance) (docs : List Attendance) :
    Option (List Attendance) × List Attendance :=
  if !docs.all attendanceValid then (none, ledger)
  else
    match insertOrdered ledger docs with
    | (true, ledger1) => (some docs, ledger1)
    | (false, ledger1) => (none, ledger1)

/-- The body of POST /attendance/mark. -/
structure MarkBody where
  year : Option ReqVal
  branch : Option String
  date : DateParam
  attendanceData : Option (List Entry)
  deriving DecidableEq, Repr

/-- Responses of POST /attendance/mark. -/
inductive MarkResp where
  /-- Status 201 with the saved documents. -/
  | created (data : List Attendance)
  /-- Status 400 with a message. -/
  | badRequest (message : String)
  /-- Status 500, 'Server error'. -/
  | serverError
  deriving DecidableEq, Repr

/-- The HTTP status of a response. -/
def MarkResp.status : MarkResp → Nat
  | .created _ => 201
  | .badRequest _ => 400
  | .serverError => 500

/-- The message of the check of the required fields. -/
def fieldsRequired : String := "Year, branch, date, and attendance data are required"

/-- The message of the cohort check. -/
def alreadyMarked : String := "Attendance for this date already exists"

/-- The document that the mark operation builds for one entry; the timestamps are set
at the insert. -/
def markRecord (now : Int) (year : Int) (branch : String) (date : Int) (markedBy : Nat)
    (e : Entry) : Attendance :=
  { student := e.studentId, year := year, branch := branch, date := date,
    status := e.status, markedBy := markedBy, updatedBy := none, notes := none,
    createdAt := now, updatedAt := now }

/-- The query `Student.findById(studentId)` finds a document. -/
def studentExists (students : List Student) (studentId : Nat) : Bool :=
  (students.find? (fun s => s.id == studentId)).isSome

/-- The handler of POST /attendance/mark (attendance.js, lines 10-78). `tz` is the time
zone of the server, `now` the instant of the request, `userId` is `req.user.id`.
Returns the response and the ledger afterwards. -/
def markRoute (tz now : Int) (students : List Student) (ledger : List Attendance)
    (body : MarkBody) (userId : Nat) : MarkResp × List Attendance :=
  match body.year, body.branch, body.attendanceData with
  | some year, some branch, some attendanceData =>
    if !year.truthy || branch == "" || body.date == DateParam.missing then
      (.badRequest fieldsRequired, ledger)
    else
      match parseInt year, attendanceDate tz body.date with
      | some y, some d =>
        match ledger.find? (sameCohort y (toUpperCase branch) d) with
        | some _ => (.badRequest alreadyMarked, ledger)
        | none =>
          let attendanceRecords :=
            (attendanceData.filter (fun e => studentExists students e.studentId)).map
              (markRecord now y (toUpperCase branch) d userId)
          match insertMany ledger attendanceRecords with
          | (some saved, ledger1) => (.created saved, ledger1)
          | (none, ledger1) => (.serverError, ledger1)
      | _, _ => (.serverError, ledger)
  | _, _, _ => (.badRequest fieldsRequired, ledger)

/-- Errors thrown by the model methods of the ledger. -/
inductive LedgerError where
  /-- The error 'Attendance for this date already exists'. -/
  | alreadyExists
  /-- Another error of the object mapper or of the store (a cast, validation or
  duplicate-key error). -/
  | storeError
  deriving DecidableEq, Repr

/-- The message of an error. -/
def LedgerError.message : LedgerError → Option String
  | .alreadyExists => some alreadyMarked
  | .storeError => none

/-- The static method `Attendance.markAttendance(year, branch, date, attendanceData,
markedBy)` (Attendance.js, lines 121-147). Returns the inserted documents or the error
thrown, and the ledger afterwards. -/
def markAttendance (tz now : Int) (ledger : List Attendance) (year : ReqVal)
    (branch : String) (date : DateParam) (attendanceData : List Entry) (markedBy : Nat) :
    Except LedgerError (List Attendance) × List Attendance :=
  match parseInt year, attendanceDate tz date with
  | some y, some d =>
    match ledger.find? (sameCohort y (toUpperCase branch) d) with
    | some _ => (.error .alreadyExists, ledger)
    | none =>
      let attendanceRecords :=
        attendanceData.map (markRecord now y (toUpperCase branch) d markedBy)
      match insertMany ledger attendanceRecords with
      | (some saved, ledger1) => (.ok saved, ledger1)
      | (none, ledger1) => (.error .storeError, ledger1)
  | _, _ => (.error .storeError, ledger)

/-! ## Specification-side definitions -/

/-- Decimal digits of a number, most significant first (the characters of its
decimal rendering). -/
def decDigits (n : Nat) : List Char :=
  if n < 10 then [Nat.digitChar n] else decDigits (n / 10) ++ [Nat.digitChar (n % 10)]
decreasing_by omega

/-- Follows the spec (section 4.1): the last two decimal digits of a number, as a
string of two characters. -/
def last2digits (n : Nat) : String :=
  ⟨[Nat.digitChar (n / 10 % 10), Nat.digitChar (n % 10)]⟩

/-- Follows the spec (section 4.1): the decimal rendering left-padded with `0` to at
least two digits; a number of two or more digits is left as it is. -/
def zeroPad2 (n : Nat) : String :=
  if n < 10 then "0" ++ numToString n else numToString n

/-- Follows the spec (section 4.1), the derivation rule
`uid = year ++ branch ++ last2digits(admissionYear) ++ zeroPad2(rollNo)`. -/
def deriveUID (year : Nat) (branch : String) (admissionYear rollNo : Nat) : String :=
  numToString year ++ branch ++ last2digits admissionYear ++ zeroPad2 rollNo

/-- No two students of the store share a uid. -/
def uidsUnique (db : List Student) : Prop := (db.map (fun s => s.uid)).Nodup

/-- Every stored uid is non-empty. -/
def uidsNonEmpty (db : List Student) : Prop := ∀ s ∈ db, s.uid ≠ ""

/-- Every student of the store carries the uid derived from its own fields. -/
def uidsDerived (db : List Student) : Prop :=
  ∀ s ∈ db, s.uid = generateUID s.year s.branch s.admissionYear s.rollNo

/-- The documents that the mark operation creates for the entries that resolve to an
existing student, in the order of the entries. -/
def resolvedEntries (students : List Student) (entries : List Entry) : List Entry :=
  entries.filter (fun e => studentExists students e.studentId)

/-! ## Updating attendance -/

/-- The operation `Attendance.updateOne(filter, update)`: the first document that matches
the filter is updated. Returns `modifiedCount` (1 when the document was changed, 0
when no document matches or the update leaves the document as it was) and the ledger
afterwards. No schema validator runs on an update. -/
def updateOne (filter : Attendance → Bool) (update : Attendance → Attendance) :
    List Attendance → Nat × List Attendance
  | [] => (0, [])
  | r :: rest =>
    if filter r then (if update r = r then 0 else 1, update r :: rest)
    else ((updateOne filter update rest).1, r :: (updateOne filter update rest).2)

/-- The filter `{ student, year, branch, date }` of the update of one entry. -/
def sameRecord (studentId : Nat) (year : Int) (branch : String) (date : Int)
    (r : Attendance) : Bool :=
  r.student == studentId && r.year == year && r.branch == branch && r.date == date

/-- The update document `{ status, updatedBy, updatedAt: new Date() }` applied to a
record. -/
def setStatus (status : String) (updatedBy : Nat) (now : Int) (r : Attendance) : Attendance :=
  { r with status := status, updatedBy := some updatedBy, updatedAt := now }

/-- The updates of the entries, one `updateOne` per entry in the order of the list.
`clock k` is the instant of the call `new Date()` for the entry at position `k`.
Returns the `modifiedCount` of every call and the ledger afterwards. -/
def updateEach (year : Int) (branch : String) (date : Int) (updatedBy : Nat)
    (clock : Nat → Int) : Nat → List Entry → List Attendance → List Nat × List Attendance
  | _, [], ledger => ([], ledger)
  | k, e :: es, ledger =>
    let r := updateOne (sameRecord e.studentId year branch date)
      (setStatus e.status updatedBy (clock k)) ledger
    let rs := updateEach year branch date updatedBy clock (k + 1) es r.2
    (r.1 :: rs.1, rs.2)

/-- Responses of PUT /attendance/:year/:branch/:date. -/
inductive UpdateResp where
  /-- Status 200 with `updatedCount`. -/
  | ok (updatedCount : Nat)
  /-- Status 500, 'Server error'. -/
  | serverError
  deriving DecidableEq, Repr

/-- The handler of PUT /attendance/:year/:branch/:date (attendance.js, lines 113-158).
The path parameters are strings; `attendanceData` is `none` when the body has no such
field (the loop then throws). With no entry no query is sent; otherwise a year that
parseInt cannot read or an invalid date makes the first `updateOne` throw. -/
def updateRoute (tz : Int) (clock : Nat → Int) (ledger : List Attendance)
    (year branch : String) (date : DateParam) (attendanceData : Option (List Entry))
    (userId : Nat) : UpdateResp × List Attendance :=
  match attendanceData with
  | none => (.serverError, ledger)
  | some entries =>
    if entries.isEmpty then (.ok 0, ledger)
    else
      match parseIntStr year, attendanceDate tz date with
      | some y, some d =>
        let r := updateEach y (toUpperCase branch) d userId clock 0 entries ledger
        (.ok (r.1.countP (fun modifiedCount => decide (modifiedCount > 0))), r.2)
      | _, _ => (.serverError, ledger)

/-- The static method `Attendance.updateAttendance(year, branch, date, attendanceData,
updatedBy)` (Attendance.js, lines 150-172): the sum of the `modifiedCount` of the
updates, or the error thrown. -/
def updateAttendance (tz : Int) (clock : Nat → Int) (ledger : List Attendance)
    (year : ReqVal) (branch : String) (date : DateParam) (attendanceData : List Entry)
    (updatedBy : Nat) : Except LedgerError Nat × List Attendance :=
  if attendanceData.isEmpty then (.ok 0, ledger)
  else
    match parseInt year, attendanceDate tz date with
    | some y, some d =>
      let r := updateEach y (toUpperCase branch) d updatedBy clock 0 attendanceData ledger
      (.ok r.1.sum, r.2)
    | _, _ => (.error .storeError, ledger)

/-! ## Queries on the ledger -/

/-- The step `populate('student', ...)`: every record comes with the student document
that its `student` identifier refers to, if there is one. -/
def populate (students : List Student) (rs : List Attendance) :
    List (Attendance × Option Student) :=
  rs.map (fun r => (r, students.find? (fun s => s.id == r.student)))

/-- The date filter `{ $gte: new Date(startDate), $lte: new Date(endDate) }`, which is
added only when both bounds are given (`startDate && endDate`). A bound is `none` when
the parameter is absent or empty, and the instant that `new Date` reads otherwise. -/
def inDateRange (startDate endDate : Option Int) (r : Attendance) : Bool :=
  match startDate, endDate with
  | some s, some e => decide (s ≤ r.date) && decide (r.date ≤ e)
  | _, _ => true

/-- The sort `{ date: -1 }`: newest first; records of the same date keep their order. -/
def sortByDateDesc (rs : List Attendance) : List Attendance :=
  rs.insertionSort (fun a b => b.date ≤ a.date)

/-- The static method `Attendance.getStudentHistory(studentId, startDate, endDate)`
(Attendance.js, lines 95-108); GET /attendance/student/:studentId runs the same query
(attendance.js, lines 227-261). -/
def getStudentHistory (students : List Student) (ledger : List Attendance) (studentId : Nat)
    (startDate endDate : Option Int) : List (Attendance × Option Student) :=
  populate students
    (sortByDateDesc (ledger.filter (fun r => r.student == studentId &&
      inDateRange startDate endDate r)))

/-- Responses of the read routes of the ledger: status 200 with `count` and `data`. -/
structure QueryResp (α : Type) where
  count : Nat
  data : List α

/-- The handler of GET /attendance/student/:studentId. -/
def historyRoute (students : List Student) (ledger : List Attendance) (studentId : Nat)
    (startDate endDate : Option Int) : QueryResp (Attendance × Option Student) :=
  let attendance := getStudentHistory students ledger studentId startDate endDate
  { count := attendance.length, data := attendance }

/-- The order of the sort `{ 'student.branch': 1, 'student.year': 1, 'student.rollNo': 1 }`
of the today query. The sort runs in the store on the stored documents, before
`populate`; there `student` is an identifier, the three paths exist in no document
and every document has the same (null) key, so no document sorts after another. -/
def todaySortLe (_a _b : Attendance) : Bool := true

/-- The static method `Attendance.getTodayAttendance()` (Attendance.js, lines 111-118);
GET /attendance/today runs the same query (attendance.js, lines 266-289). `now` is the
instant of the request. -/
def getTodayAttendance (tz now : Int) (students : List Student) (ledger : List Attendance) :
    List (Attendance × Option Student) :=
  populate students
    ((ledger.filter (fun r => r.date == startOfDay tz now)).insertionSort
      (fun a b => todaySortLe a b = true))

/-- The handler of GET /attendance/today. -/
def todayRoute (tz now : Int) (students : List Student) (ledger : List Attendance) :
    QueryResp (Attendance × Option Student) :=
  let attendance := getTodayAttendance tz now students ledger
  { count := attendance.length, data := attendance }

/-! ## Statistics -/

/-- One element of `statuses` in a row of the statistics. -/
structure StatusCount where
  status : String
  count : Nat
  deriving DecidableEq, Repr

/-- One row of the statistics: `_id` is the date of the group. -/
structure StatRow where
  _id : Int
  statuses : List StatusCount
  totalStudents : Nat
  deriving DecidableEq, Repr

/-- The `$match` stage: year, branch and, when both bounds are given, the date range. An
aggregation pipeline is not cast: a year that parseInt cannot read (`none`) matches no
record. -/
def statsMatch (year : Option Int) (branch : String) (startDate endDate : Option Int)
    (r : Attendance) : Bool :=
  year == some r.year && r.branch == branch && inDateRange startDate endDate r

/-- The first `$group` stage: one group per (date, status) with the number of records.
The store does not specify the order of the groups; the model lists every key once. -/
def groupByDateStatus (rs : List Attendance) : List ((Int × String) × Nat) :=
  (rs.map (fun r => (r.date, r.status))).dedup.map
    (fun k => (k, rs.countP (fun r => (r.date, r.status) = k)))

/-- The second `$group` stage: one row per date, which collects the (status, count)
pairs of the date and sums the counts. -/
def groupByDate (gs : List ((Int × String) × Nat)) : List StatRow :=
  (gs.map (fun g => g.1.1)).dedup.map (fun d =>
    { _id := d
      statuses := (gs.filter (fun g => g.1.1 == d)).map (fun g => ⟨g.1.2, g.2⟩)
      totalStudents := ((gs.filter (fun g => g.1.1 == d)).map (fun g => g.2)).sum })

/-- The pipeline of the statistics: `$match`, the two `$group` stages and the sort
`{ _id: -1 }`. -/
def statisticsPipeline (ledger : List Attendance) (year : Option Int) (branch : String)
    (startDate endDate : Option Int) : List StatRow :=
  (groupByDate (groupByDateStatus
    (ledger.filter (statsMatch year branch startDate endDate)))).insertionSort
    (fun a b => b._id ≤ a._id)

/-- The static method `Attendance.getStatistics(year, branch, startDate, endDate)`
(Attendance.js, lines 54-92). -/
def getStatistics (ledger : List Attendance) (year : ReqVal) (branch : String)
    (startDate endDate : Option Int) : List StatRow :=
  statisticsPipeline ledger (parseInt year) (toUpperCase branch) startDate endDate

/-- The handler of GET /attendance/statistics/:year/:branch (attendance.js, lines
163-213): status 200 with the rows as `data`. -/
def statisticsRoute (ledger : List Attendance) (year branch : String)
    (startDate endDate : Option Int) : List StatRow :=
  statisticsPipeline ledger (parseIntStr year) (toUpperCase branch) startDate endDate

/-! ## Deleting students -/

/-- Responses of DELETE /students/:uid. -/
inductive DeleteResp where
  /-- Status 200, 'Student deleted successfully'. -/
  | ok
  /-- Status 404, 'Student not found'. -/
  | notFound
  deriving DecidableEq, Repr

/-- The handler of DELETE /students/:uid (students.js, lines 496-522): the document found
by its uid is removed from the collection with `findByIdAndDelete`. -/
def deleteStudent (db : List Student) (uid : String) : DeleteResp × List Student :=
  match db.find? (fun s => s.uid == uid) with
  | none => (.notFound, db)
  | some _ => (.ok, db.eraseP (fun s => s.uid == uid))

/-- The query of the bulk routes on a branch: the uppercased branch, active students,
and the year when it is given. -/
def branchQuery (branch : String) (year : Option Int) (s : Student) : Bool :=
  s.branch == toUpperCase branch && s.isActive &&
    (match year with
      | none => true
      | some y => (s.year : Int) == y)

/-- The query of the bulk routes on a year: the year, active students, and the
uppercased branch when it is given. -/
def yearQuery (year : Int) (branch : Option String) (s : Student) : Bool :=
  (s.year : Int) == year && s.isActive &&
    (match branch with
      | none => true
      | some b => b == "" || s.branch == toUpperCase b)

/-- The handler of DELETE /students/branch/:branch (students.js, lines 346-375): the
matching students get `isActive: false`. `year` is the query parameter. -/
def deleteByBranch (db : List Student) (branch : String) (year : Option String) :
    BulkResp × List Student :=
  let yearFilter : Option (Option Int) :=
    match year with
    | none => some none
    | some y => if y == "" then some none else (parseIntStr y).map some
  match yearFilter with
  | none => (.serverError, db)
  | some yq =>
    match updateMany (branchQuery branch yq) { isActive := some false } db with
    | (none, db1) => (.serverError, db1)
    | (some n, db1) => (.ok n, db1)

/-- The handler of DELETE /students/year/:year (students.js, lines 380-409): the matching
students get `isActive: false`. `branch` is the query parameter. -/
def deleteByYear (db : List Student) (year : String) (branch : Option String) :
    BulkResp × List Student :=
  match parseIntStr year with
  | none => (.serverError, db)
  | some y =>
    match updateMany (yearQuery y branch) { isActive := some false } db with
    | (none, db1) => (.serverError, db1)
    | (some n, db1) => (.ok n, db1)

/-- At most one record per (student, date). -/
def onePerStudentDate (ledger : List Attendance) : Prop :=
  ledger.Pairwise (fun a b => ¬ (a.student = b.student ∧ a.date = b.date))

/-- Two records are the same record up to the fields that an update writes: they agree
on everything but `status`, `updatedBy` and `updatedAt`. -/
def sameButStatus (a b : Attendance) : Prop :=
  a.student = b.student ∧ a.year = b.year ∧ a.branch = b.branch ∧ a.date = b.date ∧
    a.markedBy = b.markedBy ∧ a.notes = b.notes ∧ a.createdAt = b.createdAt

/-- The number of positions at which two ledgers differ. -/
def changedRecords : List Attendance → List Attendance → Nat
  | a :: as, b :: bs => (if a = b then 0 else 1) + changedRecords as bs
  | _, _ => 0

/-- A record is either left as it is, or it is a record of a student in `S` that was
rewritten and is still a record of that student. -/
def touchedOnly (S : Nat → Prop) (a b : Attendance) : Prop :=
  a = b ∨ (S a.student ∧ b.student = a.student)

/-- The records that the statistics are about: those with the year and the (uppercased)
branch of the query, within the date range when both bounds are given. -/
def matchingRecords (ledger : List Attendance) (year : Option Int) (branch : String)
    (startDate endDate : Option Int) : List Attendance :=
  ledger.filter (statsMatch year branch startDate endDate)

/-! ## Read routes on students -/

/-- The order of the sort `{ year: 1, branch: 1, rollNo: 1 }` of GET /students. Strings
are compared character by character. -/
def leYearBranchRoll (a b : Student) : Bool :=
  decide (a.year < b.year) ||
    (a.year == b.year &&
      (decide (a.branch.data < b.branch.data) ||
        (a.branch == b.branch && decide (a.rollNo ≤ b.rollNo))))

/-- The order of the sort `{ year: 1, rollNo: 1 }` of GET /students/branch/:branch. -/
def leYearRoll (a b : Student) : Bool :=
  decide (a.year < b.year) || (a.year == b.year && decide (a.rollNo ≤ b.rollNo))

/-- The order of the sort `{ branch: 1, rollNo: 1 }` of GET /students/year/:year. -/
def leBranchRoll (a b : Student) : Bool :=
  decide (a.branch.data < b.branch.data) ||
    (a.branch == b.branch && decide (a.rollNo ≤ b.rollNo))

/-- The order of the sort `{ rollNo: 1 }` of GET /students/attendance/:year/:branch. -/
def leRoll (a b : Student) : Bool := decide (a.rollNo ≤ b.rollNo)

/-- A query parameter that is parsed with parseInt when it is given (`if (year)`): the
outer `none` is the cast error of a value that parseInt cannot read, the inner
`none` is an absent or empty parameter. -/
def optionalInt (v : Option String) : Option (Option Int) :=
  match v with
  | none => some none
  | some y => if y == "" then some none else (parseIntStr y).map some

/-- The query `{ isActive: true }` of GET /students with the optional branch and year. -/
def listQuery (branch : Option String) (year : Option Int) (s : Student) : Bool :=
  s.isActive &&
    (match branch with
      | none => true
      | some b => b == "" || s.branch == toUpperCase b) &&
    (match year with
      | none => true
      | some y => (s.year : Int) == y)

/-- The list that GET /students pages through: the active students that match the
filter, sorted by (year, branch, rollNo). -/
def sortedMatching (db : List Student) (branch : Option String) (year : Option Int) :
    List Student :=
  (db.filter (listQuery branch year)).insertionSort (fun a b => leYearBranchRoll a b = true)

/-- The response of GET /students. `totalPages` is `none` when `Math.ceil(total / limit)`
is not a finite number (limit 0). -/
structure ListResp where
  count : Nat
  total : Nat
  totalPages : Option Nat
  currentPage : Nat
  data : List Student
  deriving DecidableEq, Repr

/-- The handler of GET /students (students.js, lines 556-593). `page` and `limit` are the
query parameters as numbers, `none` when absent (the defaults 1 and 10 apply). `none`
as a result is the answer 500: a year that parseInt cannot read, or a negative skip
(page 0). A limit of 0 means no limit in the store. -/
def listStudents (db : List Student) (branch year : Option String) (page limit : Option Nat) :
    Option ListResp :=
  let page := page.getD 1
  let limit := limit.getD 10
  match optionalInt year with
  | none => none
  | some yq =>
    if page = 0 ∧ 0 < limit then none
    else
      let skipped := (sortedMatching db branch yq).drop ((page - 1) * limit)
      let students := if limit = 0 then skipped else skipped.take limit
      let total := (db.filter (listQuery branch yq)).length
      some
        { count := students.length
          total := total
          totalPages := if limit = 0 then none else some ((total + limit - 1) / limit)
          currentPage := page
          data := students }

/-- The handler of GET /students/branch/:branch (students.js, lines 182-211); `none` is
the answer 500. -/
def studentsByBranch (db : List Student) (branch : String) (year : Option String) :
    Option (QueryResp Student) :=
  match optionalInt year with
  | none => none
  | some yq =>
    let students := (db.filter (branchQuery branch yq)).insertionSort
      (fun a b => leYearRoll a b = true)
    some { count := students.length, data := students }

/-- The handler of GET /students/year/:year (students.js, lines 216-245); `none` is the
answer 500. -/
def studentsByYear (db : List Student) (year : String) (branch : Option String) :
    Option (QueryResp Student) :=
  match parseIntStr year with
  | none => none
  | some y =>
    let students := (db.filter (yearQuery y branch)).insertionSort
      (fun a b => leBranchRoll a b = true)
    some { count := students.length, data := students }

/-- The handler of GET /students/attendance/:year/:branch (students.js, lines 250-273);
`none` is the answer 500. -/
def studentsForAttendance (db : List Student) (year branch : String) :
    Option (QueryResp Student) :=
  match parseIntStr year with
  | none => none
  | some y =>
    let students := (db.filter (fun s =>
      (s.year : Int) == y && s.branch == toUpperCase branch && s.isActive)).insertionSort
      (fun a b => leRoll a b = true)
    some { count := students.length, data := students }

/-- The handler of GET /students/search/:uid (students.js, lines 527-551): the student
found by `findOne({ uid })`, or `none` for the answer 404. -/
def searchStudent (db : List Student) (uid : String) : Option Student :=
  db.find? (fun s => s.uid == uid)

/-- One group of `branchStats`. -/
structure BranchStat where
  _id : String
  count : Nat
  students : List Student
  deriving DecidableEq, Repr

/-- One group of `yearStats`. -/
structure YearStat where
  _id : Nat
  count : Nat
  students : List Student
  deriving DecidableEq, Repr

/-- The data of GET /students/statistics that lists or counts students. -/
structure StudentStatistics where
  totalStudents : Nat
  branchStats : List BranchStat
  yearStats : List YearStat
  deriving DecidableEq, Repr

/-- The handler of GET /students/statistics (students.js, lines 105-177): the groups of
the active students by branch and by year, sorted by the key of the group, and the
number of active students. (`branchYearStats` holds counts of the same groups per
branch and year.) -/
def studentStatistics (db : List Student) : StudentStatistics :=
  let active := db.filter (fun s => s.isActive)
  { totalStudents := active.length
    branchStats :=
      ((active.map (fun s => s.branch)).dedup.map (fun b =>
        ({ _id := b, count := active.countP (fun s => s.branch == b),
           students := active.filter (fun s => s.branch == b) } : BranchStat))).insertionSort
        (fun a b => a._id.data ≤ b._id.data)
    yearStats :=
      ((active.map (fun s => s.year)).dedup.map (fun y =>
        ({ _id := y, count := active.countP (fun s => s.year == y),
           students := active.filter (fun s => s.year == y) } : YearStat))).insertionSort
        (fun a b => a._id ≤ b._id) }

/-! ## Access to per-user reports -/

/-- The authenticated requester that the `protect` step puts in `req.user`. -/
structure Requester where
  id : String
  role : String
  deriving DecidableEq, Repr

/-- Responses of GET /reports/user/:userId and GET /teams/member/:userId. The user type
and the attendance type of these routes are parameters: their models are outside the
files at hand. -/
inductive ReportResp (υ ρ : Type) where
  /-- Status 200 with the user and the attendance data. -/
  | ok (user : υ) (attendance : List ρ)
  /-- Status 403 with a message. -/
  | forbidden (message : String)
  /-- Status 404, 'User not found'. -/
  | notFound
  /-- Status 500, 'Server error'. -/
  | serverError

/-- The HTTP status of a response. -/
def ReportResp.status {υ ρ : Type} : ReportResp υ ρ → Nat
  | .ok _ _ => 200
  | .forbidden _ => 403
  | .notFound => 404
  | .serverError => 500

/-- The check `req.user.role !== 'admin' && req.user.role !== 'manager' &&
req.user.id !== req.params.userId` of both routes. -/
def notAuthorized (requester : Requester) (userId : String) : Bool :=
  requester.role != "admin" && requester.role != "manager" && requester.id != userId

/-- The handler of GET /reports/user/:userId (reports.js, lines 155-200). The queries on
the store are parameters: `findAttendance` is `Attendance.find(...)` of the user in the
date range and `findUser` is `User.findById`; an error is a thrown error. -/
def userReport {υ ρ : Type} (requester : Requester) (userId : String)
    (findAttendance : String → Except Unit (List ρ))
    (findUser : String → Except Unit (Option υ)) : ReportResp υ ρ :=
  if notAuthorized requester userId then .forbidden "Not authorized to access this report"
  else
    match findAttendance userId with
    | .error _ => .serverError
    | .ok attendance =>
      match findUser userId with
      | .error _ => .serverError
      | .ok none => .notFound
      | .ok (some user) => .ok user attendance

/-- The handler of GET /teams/member/:userId (teams.js, lines 130-180): the user is
looked up first, then the attendance. -/
def teamMember {υ ρ : Type} (requester : Requester) (userId : String)
    (findAttendance : String → Except Unit (List ρ))
    (findUser : String → Except Unit (Option υ)) : ReportResp υ ρ :=
  if notAuthorized requester userId then .forbidden "Not authorized to access this member"
  else
    match findUser userId with
    | .error _ => .serverError
    | .ok none => .notFound
    | .ok (some user) =>
      match findAttendance userId with
      | .error _ => .serverError
      | .ok attendance => .ok user attendance

/-! ## The date of the mark page (MarkAttendance.js) -/

/-- Splitting a list of characters at every occurrence of `sep`; `cur` holds the
characters of the current piece, last first. -/
def splitChars (sep : Char) : List Char → List Char → List (List Char)
  | cur, [] => [cur.reverse]
  | cur, c :: cs =>
    if c == sep then cur.reverse :: splitChars sep [] cs else splitChars sep (c :: cur) cs

/-- String.prototype.split(sep) for a separator of one character. -/
def jsSplit (s : String) (sep : Char) : List String :=
  (splitChars sep [] s.data).map (fun cs => ⟨cs⟩)

/-- An element of a template literal: a variable bound by array destructuring is
`undefined` when the array is too short, and prints as `undefined`. -/
def templ (v : Option String) : String := v.getD "undefined"

/-- A calendar day. -/
structure Day where
  year : Nat
  month : Nat
  day : Nat
  deriving DecidableEq, Repr

/-- The default date effect (MarkAttendance.js, lines 30-36): the string that the page
stores in `selectedDate` for today. -/
def defaultSelectedDate (today : Day) : String :=
  let day := padStart (numToString today.day) 2 '0'
  let month := padStart (numToString today.month) 2 '0'
  let year := numToString today.year
  day ++ "/" ++ month ++ "/" ++ year

/-- The function `convertToDisplayDate` (MarkAttendance.js, lines 365-368), which turns
the value of the date input into the string stored in `selectedDate`. -/
def convertToDisplayDate (yyyymmdd : String) : String :=
  let parts := jsSplit yyyymmdd '-'
  templ parts[2]? ++ "/" ++ templ parts[1]? ++ "/" ++ templ parts[0]?

/-- The function `convertToInputDate` (MarkAttendance.js, lines 360-363). -/
def convertToInputDate (ddmmyyyy : String) : String :=
  let parts := jsSplit ddmmyyyy '/'
  templ parts[2]? ++ "-" ++ templ parts[1]? ++ "-" ++ templ parts[0]?

/-- The `date` of the payload built by `handleSaveAttendance` (MarkAttendance.js, lines
97-104) from `selectedDate`. -/
def formattedDate (selectedDate : String) : String :=
  let parts := jsSplit selectedDate '_'
  templ parts[2]? ++ "-" ++ templ parts[1]? ++ "-" ++ templ parts[0]?

/-- The value of the date input (`YYYY-MM-DD`) for a day. -/
def isoDate (d : Day) : String :=
  padStart (numToString d.year) 4 '0' ++ "-" ++ padStart (numToString d.month) 2 '0' ++ "-" ++
    padStart (numToString d.day) 2 '0'

/-! ## Specification-side definitions for validation, pagination and parsing -/

/-- Follows the spec (section 3): a phone number consists of exactly 10 decimal digits,
the first of which is 6, 7, 8 or 9. -/
def isPhone (s : String) : Prop :=
  s.data.length = 10 ∧ (∀ c ∈ s.data, isDigitChar c = true) ∧
    ∃ c rest, s.data = c :: rest ∧ '6' ≤ c ∧ c ≤ '9'

/-- Follows the spec (section 3): the conditions of the data model on the fields of a
student request. -/
def meetsDataModel (currentYear : Nat) (b : StudentBody) : Prop :=
  (2 ≤ (jsTrim b.studentName).length ∧ (jsTrim b.studentName).length ≤ 50) ∧
    b.branch ∈ ["CSE", "ECE", "ME", "CE", "IT", "EEE", "AI", "DS"] ∧
    1 ≤ b.rollNo ∧
    (b.year = 1 ∨ b.year = 2 ∨ b.year = 3 ∨ b.year = 4) ∧
    (2020 ≤ b.admissionYear ∧ b.admissionYear ≤ currentYear) ∧
    isPhone b.studentPhone ∧ isPhone b.parentPhone

/-- The page `page` (counted from 1) of a list, for pages of `limit` elements. -/
def pageOf (l : List Student) (limit page : Nat) : List Student :=
  (l.drop ((page - 1) * limit)).take limit

/-- The number of pages: `ceil(n / limit)`. -/
def pagesOf (n limit : Nat) : Nat := (n + limit - 1) / limit

/-- The number written by a list of decimal digit characters. -/
def digitsValue (cs : List Char) : Nat :=
  cs.foldl (fun acc c => acc * 10 + (c.toNat - '0'.toNat)) 0

/-- The outcome of the mark route and the outcome of the model method are the same
outcome. -/
def sameOutcome : MarkResp → Except LedgerError (List Attendance) → Prop
  | .created saved, .ok saved1 => saved = saved1
  | .badRequest m, .error .alreadyExists => m = alreadyMarked
  | .serverError, .error .storeError => True
  | _, _ => False

end AttendanceApp

/-! # Theorems -/

namespace AttendanceApp

/-! ## Decimal rendering -/

theorem toDigitsCore_eq_decDigits (fuel : Nat) : ∀ (n : Nat) (ds : List Char), n < fuel →
    Nat.toDigitsCore 10 fuel n ds = decDigits n ++ ds := by
  induction fuel with
  | zero => intro n ds h; omega
  | succ f ih =>
    intro n ds h
    rw [decDigits]
    simp only [Nat.toDigitsCore]
    by_cases h10 : n < 10
    · have h0 : n / 10 = 0 := by omega
      have hm : n % 10 = n := by omega
      simp [h10, h0, hm]
    · have h0 : n / 10 ≠ 0 := by omega
      simp only [h0, h10, if_false]
      rw [ih (n / 10) _ (by omega)]
      simp

theorem numToString_data (n : Nat) : (numToString n).data = decDigits n := by
  simp [numToString, Nat.repr, Nat.toDigits, toDigitsCore_eq_decDigits (n + 1) n [] (by omega),
    List.asString]

theorem decDigits_snoc (n : Nat) :
    ∃ front, decDigits n = front ++ [Nat.digitChar (n % 10)] := by
  rw [decDigits]
  by_cases h : n < 10
  · refine ⟨[], ?_⟩
    have hm : n % 10 = n := by omega
    simp [h, hm]
  · exact ⟨decDigits (n / 10), by simp [h]⟩

theorem decDigits_snoc2 (n : Nat) (h : 10 ≤ n) :
    ∃ front, decDigits n = front ++ [Nat.digitChar (n / 10 % 10), Nat.digitChar (n % 10)] := by
  obtain ⟨front, hf⟩ := decDigits_snoc (n / 10)
  refine ⟨front, ?_⟩
  rw [decDigits]
  have h10 : ¬ n < 10 := by omega
  simp [h10, hf]

theorem decDigits_length_lt (n : Nat) (h : n < 10) : (decDigits n).length = 1 := by
  rw [decDigits]; simp [h]

theorem decDigits_length_ge (n : Nat) (h : 10 ≤ n) : 2 ≤ (decDigits n).length := by
  obtain ⟨front, hf⟩ := decDigits_snoc2 n h
  rw [hf]; simp

theorem decDigits_cons (n : Nat) :
    ∃ k tail, k < 10 ∧ decDigits n = Nat.digitChar k :: tail := by
  induction n using Nat.strong_induction_on with
  | _ n ih =>
    rw [decDigits]
    by_cases h : n < 10
    · exact ⟨n, [], h, by simp [h]⟩
    · obtain ⟨k, tail, hk, ht⟩ := ih (n / 10) (by omega)
      exact ⟨k, tail ++ [Nat.digitChar (n % 10)], hk, by simp [h, ht]⟩

theorem digitChar_not_whitespace (k : Nat) (h : k < 10) :
    isJsWhitespace (Nat.digitChar k) = false := by
  interval_cases k <;> decide

/-! ## The shape of a generated uid -/

theorem jsSlice_last2 (front : List Char) (a b : Char) :
    jsSlice ⟨front ++ [a, b]⟩ (-2) = ⟨[a, b]⟩ := by
  simp only [jsSlice, List.length_append, List.length_cons, List.length_nil]
  have h1 : ((-2 : Int) < 0) := by decide
  simp only [h1, if_true]
  have h2 : (max ((↑(front.length + (0 + 1 + 1)) : Int) + -2) 0).toNat = front.length := by
    omega
  rw [h2]
  simp

theorem jsSlice_numToString (n : Nat) (h : 10 ≤ n) :
    jsSlice (numToString n) (-2) = last2digits n := by
  obtain ⟨front, hf⟩ := decDigits_snoc2 n h
  have hd : numToString n = ⟨front ++ [Nat.digitChar (n / 10 % 10), Nat.digitChar (n % 10)]⟩ := by
    apply String.ext; rw [numToString_data, hf]
  rw [hd, jsSlice_last2]; rfl

theorem padStart_numToString (n : Nat) : padStart (numToString n) 2 '0' = zeroPad2 n := by
  unfold padStart zeroPad2
  rw [numToString_data]
  by_cases h : n < 10
  · rw [decDigits_length_lt n h]
    simp only [h, if_true]
    apply String.ext
    simp [numToString_data]
  · have hl := decDigits_length_ge n (by omega)
    have h0 : 2 - (decDigits n).length = 0 := by omega
    simp only [h, if_false, h0]
    apply String.ext
    simp [numToString_data]

theorem generateUID_eq_deriveUID (year : Nat) (branch : String) (admissionYear rollNo : Nat)
    (h : 10 ≤ admissionYear) :
    generateUID year branch admissionYear rollNo = deriveUID year branch admissionYear rollNo := by
  unfold generateUID deriveUID
  simp only [jsSlice_numToString admissionYear h, padStart_numToString]

theorem jsTrim_eq_self (l : List Char) (a z : Char) (t t1 : List Char)
    (h1 : l = a :: t) (h2 : l = t1 ++ [z]) (ha : isJsWhitespace a = false)
    (hz : isJsWhitespace z = false) : jsTrim ⟨l⟩ = ⟨l⟩ := by
  unfold jsTrim
  apply String.ext
  simp only
  have e1 : List.dropWhile isJsWhitespace l = l := by
    rw [h1]; simp [List.dropWhile, ha]
  rw [e1]
  have e2 : l.reverse = z :: t1.reverse := by rw [h2]; simp
  rw [e2]
  simp only [List.dropWhile, hz]
  rw [← e2]; simp

theorem generateUID_data (year : Nat) (branch : String) (admissionYear rollNo : Nat) :
    ∃ k tail front, k < 10 ∧
      (generateUID year branch admissionYear rollNo).data = Nat.digitChar k :: tail ∧
      (generateUID year branch admissionYear rollNo).data =
        front ++ [Nat.digitChar (rollNo % 10)] := by
  obtain ⟨k, tail, hk, ht⟩ := decDigits_cons year
  obtain ⟨front, hf⟩ := decDigits_snoc rollNo
  refine ⟨k, tail ++ branch.data ++ (jsSlice (numToString admissionYear) (-2)).data ++
      (padStart (numToString rollNo) 2 '0').data,
    (numToString year).data ++ branch.data ++ (jsSlice (numToString admissionYear) (-2)).data ++
      List.replicate (2 - (numToString rollNo).data.length) '0' ++ front, hk, ?_, ?_⟩
  · simp [generateUID, String.data_append, numToString_data, ht]
  · simp [generateUID, String.data_append, padStart, numToString_data, hf]

theorem jsTrim_generateUID (year : Nat) (branch : String) (admissionYear rollNo : Nat) :
    jsTrim (generateUID year branch admissionYear rollNo) =
      generateUID year branch admissionYear rollNo := by
  obtain ⟨k, tail, front, hk, h1, h2⟩ := generateUID_data year branch admissionYear rollNo
  exact jsTrim_eq_self _ _ _ tail front h1 h2 (digitChar_not_whitespace k hk)
    (digitChar_not_whitespace _ (Nat.mod_lt _ (by decide)))

theorem generateUID_ne_empty (year : Nat) (branch : String) (admissionYear rollNo : Nat) :
    generateUID year branch admissionYear rollNo ≠ "" := by
  obtain ⟨k, tail, front, _, h1, _⟩ := generateUID_data year branch admissionYear rollNo
  intro h
  rw [h] at h1
  simp at h1

theorem generateUID_congr_mod (year : Nat) (branch : String) (ay1 ay2 rollNo : Nat)
    (h1 : 10 ≤ ay1) (h2 : 10 ≤ ay2) (h : ay1 % 100 = ay2 % 100) :
    generateUID year branch ay1 rollNo = generateUID year branch ay2 rollNo := by
  rw [generateUID_eq_deriveUID _ _ _ _ h1, generateUID_eq_deriveUID _ _ _ _ h2]
  unfold deriveUID last2digits
  have e1 : ay1 / 10 % 10 = ay2 / 10 % 10 := by omega
  have e2 : ay1 % 10 = ay2 % 10 := by omega
  rw [e1, e2]

theorem toUpperCase_of_mem_branches (b : String) (h : b ∈ branches) : toUpperCase b = b := by
  simp only [branches, List.mem_cons, List.mem_singleton, List.not_mem_nil, or_false] at h
  rcases h with rfl | rfl | rfl | rfl | rfl | rfl | rfl | rfl <;> decide

/-! ## Registration and rename of students -/

theorem validBody_iff (cy : Nat) (b : StudentBody) :
    validBody cy b ↔
      (2 ≤ (jsTrim b.studentName).length ∧ (jsTrim b.studentName).length ≤ 50) ∧
      b.branch ∈ branches ∧ 1 ≤ b.rollNo ∧ phoneValidator b.studentPhone = true ∧
      phoneValidator b.parentPhone = true ∧ b.year ∈ [1, 2, 3, 4] ∧
      (2020 ≤ b.admissionYear ∧ b.admissionYear ≤ cy) := by
  unfold validBody validateStudent
  simp only [List.append_eq_nil, ite_eq_left_iff, List.cons_ne_nil, imp_false, not_not]
  tauto

theorem postStudent_invalid (cy newId : Nat) (db : List Student) (b : StudentBody)
    (h : validateStudent cy b ≠ []) :
    postStudent cy newId db b = (.validationFailed (validateStudent cy b), db) := by
  unfold postStudent
  simp [h]

theorem postStudent_valid (cy newId : Nat) (db : List Student) (b : StudentBody)
    (h : validBody cy b) :
    postStudent cy newId db b =
      match db.find? (sameTuple (sanitize b)) with
      | some _ => (.badRequest duplicateRollNumber, db)
      | none =>
        match db.find? (fun s => s.uid == generateUID b.year b.branch b.admissionYear b.rollNo) with
        | some _ => (.badRequest duplicateUID, db)
        | none =>
          match insertStudent cy db
            (newStudent newId (generateUID b.year b.branch b.admissionYear b.rollNo) (sanitize b)) with
          | none => (.serverError, db)
          | some db1 =>
            (.created (newStudent newId (generateUID b.year b.branch b.admissionYear b.rollNo)
              (sanitize b)), db1) := by
  unfold validBody at h
  unfold postStudent
  simp [h, sanitize]

theorem postStudent_created (cy newId : Nat) (db : List Student) (b : StudentBody) (s : Student)
    (h : (postStudent cy newId db b).1 = .created s) :
    validBody cy b ∧ db.find? (sameTuple (sanitize b)) = none ∧
      s = newStudent newId (generateUID b.year b.branch b.admissionYear b.rollNo) (sanitize b) ∧
      schemaValid cy s = true ∧ (postStudent cy newId db b).2 = db ++ [s] := by
  by_cases hv : validBody cy b
  · rw [postStudent_valid cy newId db b hv] at h ⊢
    refine ⟨hv, ?_⟩
    cases h1 : db.find? (sameTuple (sanitize b)) with
    | some x => simp [h1] at h
    | none =>
      simp only [h1] at h ⊢
      cases h2 : db.find? (fun s => s.uid == generateUID b.year b.branch b.admissionYear b.rollNo) with
      | some x => simp [h2] at h
      | none =>
        simp only [h2] at h ⊢
        cases h3 : insertStudent cy db
            (newStudent newId (generateUID b.year b.branch b.admissionYear b.rollNo) (sanitize b)) with
        | none => simp [h3] at h
        | some db1 =>
          simp only [h3] at h ⊢
          have hs : newStudent newId (generateUID b.year b.branch b.admissionYear b.rollNo)
              (sanitize b) = s := by simpa using h
          rw [hs] at h3 ⊢
          unfold insertStudent at h3
          by_cases hsv : schemaValid cy s = true
          · simp only [hsv, Bool.not_true, Bool.false_eq_true, if_false] at h3
            by_cases hany : (db.any fun t => t.uid == s.uid) = true
            · simp [hany] at h3
            · simp [hany] at h3
              exact ⟨trivial, rfl, hsv, h3.symm⟩
          · simp [hsv] at h3
  · rw [postStudent_invalid cy newId db b hv] at h
    simp at h

theorem sameTuple_sanitize (b : StudentBody) (s : Student) :
    sameTuple (sanitize b) s = sameTuple b s := rfl

theorem postStudent_dup_roll (cy newId : Nat) (db : List Student) (b : StudentBody)
    (hv : validBody cy b) (s : Student) (hs : s ∈ db) (ht : sameTuple b s = true) :
    postStudent cy newId db b = (.badRequest duplicateRollNumber, db) := by
  rw [postStudent_valid cy newId db b hv]
  cases h1 : db.find? (sameTuple (sanitize b)) with
  | some x => rfl
  | none =>
    rw [List.find?_eq_none] at h1
    have := h1 s hs
    rw [sameTuple_sanitize] at this
    exact absurd ht this

theorem postStudent_dup_uid (cy newId : Nat) (db : List Student) (b : StudentBody)
    (hv : validBody cy b) (hno : ∀ t ∈ db, sameTuple b t = false) (s : Student) (hs : s ∈ db)
    (hu : s.uid = generateUID b.year b.branch b.admissionYear b.rollNo) :
    postStudent cy newId db b = (.badRequest duplicateUID, db) := by
  rw [postStudent_valid cy newId db b hv]
  have h1 : db.find? (sameTuple (sanitize b)) = none := by
    rw [List.find?_eq_none]
    intro t ht
    rw [sameTuple_sanitize, hno t ht]; simp
  simp only [h1]
  cases h2 : db.find? (fun s => s.uid == generateUID b.year b.branch b.admissionYear b.rollNo) with
  | some x => rfl
  | none =>
    rw [List.find?_eq_none] at h2
    have := h2 s hs
    simp [hu] at this

/-- C1 (defect): a request that passes `validateStudent` can carry a roll number of four
digits. For year 1, branch CSE, admission year 2024 and roll number 1000 the string
returned by `generateUID` is `1CSE241000`, which the uid validator of the schema
rejects, so the registration ends with status 500 and nothing is stored. -/
theorem generateUID_roll_1000_rejected :
    validBody 2026 ⟨"Asha Rao", "CSE", 1000, "9876543210", "9876543211", 1, 2024⟩ ∧
    generateUID 1 "CSE" 2024 1000 = "1CSE241000" ∧
    uidValidator (generateUID 1 "CSE" 2024 1000) = false ∧
    postStudent 2026 1 [] ⟨"Asha Rao", "CSE", 1000, "9876543210", "9876543211", 1, 2024⟩ =
      (.serverError, []) := by
  decide

/-- C2: for every year, branch, admission year of at least two decimal digits and roll
number, `generateUID` returns the decimal year, then the branch, then the last two
decimal digits of the admission year, then the roll number padded with `0` to at
least two digits; in particular `generateUID(1, "CSE", 2024, 10)` is `1CSE2410` and
`generateUID(3, "ECE", 2022, 7)` is `3ECE2207`. -/
theorem generateUID_concatenation (year : Nat) (branch : String) (admissionYear rollNo : Nat)
    (h : 10 ≤ admissionYear) :
    generateUID year branch admissionYear rollNo =
        numToString year ++ branch ++ last2digits admissionYear ++ zeroPad2 rollNo ∧
      generateUID 1 "CSE" 2024 10 = "1CSE2410" ∧
      generateUID 3 "ECE" 2022 7 = "3ECE2207" :=
  ⟨generateUID_eq_deriveUID year branch admissionYear rollNo h, by decide, by decide⟩

/-- Witness of C2 at year 2, branch IT, admission year 2021 and roll number 5. -/
theorem generateUID_concatenation_witness :
    10 ≤ 2021 ∧ generateUID 2 "IT" 2021 5 = "2" ++ "IT" ++ "21" ++ "05" :=
  ⟨by decide, (generateUID_concatenation 2 "IT" 2021 5 (by decide)).1.trans (by decide)⟩

/-- C3 (counterexample): with the current year 2026, after the student with admission
year 2024 has been registered, the registration of the same fields with admission
year 2124 is answered by the validation error of the admission year, not by the
duplicate-UID message. -/
theorem post_2124_fails_validation :
    (postStudent 2026 1 [] ⟨"Asha Rao", "CSE", 10, "9876543210", "9876543211", 1, 2024⟩).1 =
      .created ⟨1, "Asha Rao", "1CSE2410", "CSE", 10, "9876543210", "9876543211", 1, 2024, true⟩ ∧
    postStudent 2026 2
        (postStudent 2026 1 [] ⟨"Asha Rao", "CSE", 10, "9876543210", "9876543211", 1, 2024⟩).2
        ⟨"Asha Rao", "CSE", 10, "9876543210", "9876543211", 1, 2124⟩ =
      (.validationFailed ["Admission year must be between 2020 and current year"],
        [⟨1, "Asha Rao", "1CSE2410", "CSE", 10, "9876543210", "9876543211", 1, 2024, true⟩]) ∧
    (postStudent 2026 2
        (postStudent 2026 1 [] ⟨"Asha Rao", "CSE", 10, "9876543210", "9876543211", 1, 2024⟩).2
        ⟨"Asha Rao", "CSE", 10, "9876543210", "9876543211", 1, 2124⟩).1 ≠
      .badRequest duplicateUID := by
  decide

/-- C3 (amended): take two admission years with the same last two digits and otherwise
identical fields, and let the first be registered through POST /students. If the
second admission year passes validation as well (it lies between 2020 and the current
year) and no stored student already has its (branch, year, rollNo, admissionYear), the
second registration fails with 'Student with this UID already exists' (400) and stores
nothing. If the second admission year does not pass validation (as 2124 does not before the
year 2124), the second registration fails with the validation error (400) and stores
nothing. -/
theorem post_same_last_two_digits (cy id1 id2 : Nat) (db : List Student) (b : StudentBody)
    (ay2 : Nat) (s : Student)
    (hmod : b.admissionYear % 100 = ay2 % 100) (hne : b.admissionYear ≠ ay2)
    (h1 : (postStudent cy id1 db b).1 = .created s) :
    (2020 ≤ ay2 ∧ ay2 ≤ cy →
      (∀ t ∈ db, sameTuple { b with admissionYear := ay2 } t = false) →
      postStudent cy id2 (postStudent cy id1 db b).2 { b with admissionYear := ay2 } =
        (.badRequest duplicateUID, (postStudent cy id1 db b).2)) ∧
    (¬ (2020 ≤ ay2 ∧ ay2 ≤ cy) →
      postStudent cy id2 (postStudent cy id1 db b).2 { b with admissionYear := ay2 } =
        (.validationFailed ["Admission year must be between 2020 and current year"],
          (postStudent cy id1 db b).2)) := by
  obtain ⟨hv, _, hs, _, hdb⟩ := postStudent_created cy id1 db b s h1
  have hv1 := (validBody_iff cy b).1 hv
  constructor
  · intro hle hno
    have hv2 : validBody cy { b with admissionYear := ay2 } := by
      rw [validBody_iff]
      exact ⟨hv1.1, hv1.2.1, hv1.2.2.1, hv1.2.2.2.1, hv1.2.2.2.2.1, hv1.2.2.2.2.2.1, hle⟩
    rw [hdb]
    apply postStudent_dup_uid cy id2 (db ++ [s]) _ hv2 _ s (by simp)
    · show s.uid = generateUID b.year b.branch ay2 b.rollNo
      rw [hs]
      show jsTrim (generateUID b.year b.branch b.admissionYear b.rollNo) = _
      rw [jsTrim_generateUID]
      exact generateUID_congr_mod _ _ _ _ _ (by omega) (by omega) hmod
    · intro t ht
      rcases List.mem_append.1 ht with ht | ht
      · exact hno t ht
      · rw [List.mem_singleton] at ht
        subst ht
        rw [hs]
        simp [sameTuple, newStudent, sanitize, hne]
  · intro hnot
    have hval : validateStudent cy { b with admissionYear := ay2 } =
        ["Admission year must be between 2020 and current year"] := by
      unfold validateStudent
      simp [hv1.1, hv1.2.1, hv1.2.2.1, hv1.2.2.2.1, hv1.2.2.2.2.1, hv1.2.2.2.2.2.1, hnot]
    rw [postStudent_invalid cy id2 _ _ (by rw [hval]; simp), hval]

/-- Witness of C3 (amended) at the current year 2130 with the admission years 2024 and
2124. -/
theorem post_same_last_two_digits_witness :
    postStudent 2130 2
        (postStudent 2130 1 [] ⟨"Asha Rao", "CSE", 10, "9876543210", "9876543211", 1, 2024⟩).2
        ⟨"Asha Rao", "CSE", 10, "9876543210", "9876543211", 1, 2124⟩ =
      (.badRequest duplicateUID,
        (postStudent 2130 1 [] ⟨"Asha Rao", "CSE", 10, "9876543210", "9876543211", 1, 2024⟩).2) :=
  (post_same_last_two_digits 2130 1 2 []
    ⟨"Asha Rao", "CSE", 10, "9876543210", "9876543211", 1, 2024⟩ 2124
    ⟨1, "Asha Rao", "1CSE2410", "CSE", 10, "9876543210", "9876543211", 1, 2024, true⟩
    (by decide) (by decide) (by decide)).1 (by decide) (by simp)

/-- C4: for every store and every request that passes validation, if an active student
already has the same (branch, year, rollNo, admissionYear), POST /students answers 400
with 'Student with this roll number already exists in this branch and year' and leaves
the store unchanged; hence, after a registration that succeeded, a second valid
request with the same (branch, year, rollNo, admissionYear) fails this way. -/
theorem post_duplicate_roll_number (cy newId : Nat) (db : List Student) (b : StudentBody)
    (hv : validBody cy b) :
    ((∃ s ∈ db, s.isActive = true ∧ s.branch = b.branch ∧ s.year = b.year ∧
        s.rollNo = b.rollNo ∧ s.admissionYear = b.admissionYear) →
      postStudent cy newId db b = (.badRequest duplicateRollNumber, db) ∧
        (postStudent cy newId db b).1.status = 400) ∧
    (∀ (id2 : Nat) (b2 : StudentBody) (s : Student), validBody cy b2 →
      b2.branch = b.branch → b2.year = b.year → b2.rollNo = b.rollNo →
      b2.admissionYear = b.admissionYear → (postStudent cy newId db b).1 = .created s →
      postStudent cy id2 (postStudent cy newId db b).2 b2 =
        (.badRequest duplicateRollNumber, (postStudent cy newId db b).2)) := by
  constructor
  · rintro ⟨s, hs, _, h1, h2, h3, h4⟩
    have h := postStudent_dup_roll cy newId db b hv s hs (by simp [sameTuple, h1, h2, h3, h4])
    rw [h]
    exact ⟨rfl, rfl⟩
  · intro id2 b2 s hv2 e1 e2 e3 e4 hc
    obtain ⟨_, _, hs, _, hdb⟩ := postStudent_created cy newId db b s hc
    rw [hdb]
    apply postStudent_dup_roll cy id2 (db ++ [s]) b2 hv2 s (by simp)
    have hb := toUpperCase_of_mem_branches b.branch ((validBody_iff cy b).1 hv).2.1
    rw [hs]
    simp [sameTuple, newStudent, sanitize, e1, e2, e3, e4, hb]

/-- Witness of C4: an active student with roll number 10 of first-year CSE admitted in
2024 is stored; a valid request with the same tuple is rejected. -/
theorem post_duplicate_roll_number_witness :
    postStudent 2026 2
        [⟨1, "Asha Rao", "1CSE2410", "CSE", 10, "9876543210", "9876543211", 1, 2024, true⟩]
        ⟨"Ravi Kumar", "CSE", 10, "9876543212", "9876543213", 1, 2024⟩ =
      (.badRequest duplicateRollNumber,
        [⟨1, "Asha Rao", "1CSE2410", "CSE", 10, "9876543210", "9876543211", 1, 2024, true⟩]) :=
  ((post_duplicate_roll_number 2026 2
    [⟨1, "Asha Rao", "1CSE2410", "CSE", 10, "9876543210", "9876543211", 1, 2024, true⟩]
    ⟨"Ravi Kumar", "CSE", 10, "9876543212", "9876543213", 1, 2024⟩ (by decide)).1
    ⟨_, List.mem_singleton.2 rfl, rfl, rfl, rfl, rfl, rfl⟩).1

/-- C5 (defect): the student `1CSE2410` exists, the new fields pass validation, no other
student has the new (branch, year, rollNo, admissionYear) and no student has the
re-derived uid, yet PUT /students/1CSE2410 does not succeed: with the roll number 1000
the re-derived uid `1CSE241000` fails the uid validator of the schema at `save`, and
the answer is status 500 with the store unchanged. -/
theorem put_roll_1000_server_error :
    validBody 2026 ⟨"Asha Rao", "CSE", 1000, "9876543210", "9876543211", 1, 2024⟩ ∧
    List.find?
        (fun (s : Student) => sameTuple ⟨"Asha Rao", "CSE", 1000, "9876543210", "9876543211", 1, 2024⟩ s &&
          s.uid != "1CSE2410")
        [⟨1, "Asha Rao", "1CSE2410", "CSE", 10, "9876543210", "9876543211", 1, 2024, true⟩] =
      none ∧
    List.find? (fun (s : Student) => s.uid == generateUID 1 "CSE" 2024 1000)
        [⟨1, "Asha Rao", "1CSE2410", "CSE", 10, "9876543210", "9876543211", 1, 2024, true⟩] =
      none ∧
    putStudent 2026
        [⟨1, "Asha Rao", "1CSE2410", "CSE", 10, "9876543210", "9876543211", 1, 2024, true⟩]
        "1CSE2410" ⟨"Asha Rao", "CSE", 1000, "9876543210", "9876543211", 1, 2024⟩ =
      (.serverError,
        [⟨1, "Asha Rao", "1CSE2410", "CSE", 10, "9876543210", "9876543211", 1, 2024, true⟩]) := by
  decide

/-- C7 (defect): the bulk update PUT /students/branch/CSE with `updateData = { year: 2 }`
changes the year of the matching students and leaves their uid as it was: a store in
which every uid is the one derived from the fields is turned into a store in which
the student `1CSE2410` has year 2, whose derived uid is `2CSE2410`. -/
theorem bulk_update_keeps_stale_uid :
    uidsDerived
      [⟨1, "Asha Rao", "1CSE2410", "CSE", 10, "9876543210", "9876543211", 1, 2024, true⟩] ∧
    putByBranch
        [⟨1, "Asha Rao", "1CSE2410", "CSE", 10, "9876543210", "9876543211", 1, 2024, true⟩]
        "CSE" none { year := some 2 } =
      (.ok 1,
        [⟨1, "Asha Rao", "1CSE2410", "CSE", 10, "9876543210", "9876543211", 2, 2024, true⟩]) ∧
    generateUID 2 "CSE" 2024 10 = "2CSE2410" ∧
    ¬ uidsDerived
      (putByBranch
        [⟨1, "Asha Rao", "1CSE2410", "CSE", 10, "9876543210", "9876543211", 1, 2024, true⟩]
        "CSE" none { year := some 2 }).2 := by
  refine ⟨?_, by decide, by decide, ?_⟩
  · intro s hs
    rw [List.mem_singleton] at hs
    subst hs
    decide
  · intro h
    have h2 := h ⟨1, "Asha Rao", "1CSE2410", "CSE", 10, "9876543210", "9876543211", 2, 2024, true⟩
      (by decide)
    revert h2
    decide

/-! ## Uniqueness of the uid -/

theorem postStudent_store (cy newId : Nat) (db : List Student) (b : StudentBody) :
    (postStudent cy newId db b).2 = db ∨
      ∃ s, s.uid = generateUID b.year b.branch b.admissionYear b.rollNo ∧
        (∀ t ∈ db, t.uid ≠ s.uid) ∧ (postStudent cy newId db b).2 = db ++ [s] := by
  by_cases hv : validBody cy b
  · rw [postStudent_valid cy newId db b hv]
    cases h1 : db.find? (sameTuple (sanitize b)) with
    | some x => exact Or.inl rfl
    | none =>
      cases h2 : db.find?
          (fun s => s.uid == generateUID b.year b.branch b.admissionYear b.rollNo) with
      | some x => exact Or.inl rfl
      | none =>
        cases h3 : insertStudent cy db
            (newStudent newId (generateUID b.year b.branch b.admissionYear b.rollNo)
              (sanitize b)) with
        | none => exact Or.inl rfl
        | some db1 =>
          right
          refine ⟨newStudent newId (generateUID b.year b.branch b.admissionYear b.rollNo)
            (sanitize b), ?_, ?_, ?_⟩
          · exact jsTrim_generateUID _ _ _ _
          · intro t ht
            rw [List.find?_eq_none] at h2
            have := h2 t ht
            show t.uid ≠ jsTrim (generateUID b.year b.branch b.admissionYear b.rollNo)
            rw [jsTrim_generateUID]
            simpa using this
          · unfold insertStudent at h3
            split at h3
            · simp at h3
            · split at h3
              · simp at h3
              · simpa using h3.symm
  · rw [postStudent_invalid cy newId db b hv]
    exact Or.inl rfl

theorem putStudent_invalid (cy : Nat) (db : List Student) (uid : String) (b : StudentBody)
    (h : validateStudent cy b ≠ []) :
    putStudent cy db uid b = (.validationFailed (validateStudent cy b), db) := by
  unfold putStudent
  simp [h]

theorem putStudent_valid (cy : Nat) (db : List Student) (uid : String) (b : StudentBody)
    (h : validBody cy b) :
    putStudent cy db uid b =
      match db.find? (fun s => s.uid == uid) with
      | none => (.notFound, db)
      | some student =>
        match db.find? (fun s => sameTuple b s && s.uid != uid) with
        | some _ => (.badRequest duplicateRollNumber, db)
        | none =>
          if generateUID b.year b.branch b.admissionYear b.rollNo != uid &&
              (db.find? (fun s =>
                s.uid == generateUID b.year b.branch b.admissionYear b.rollNo)).isSome then
            (.badRequest duplicateUID, db)
          else
            match saveStudent cy db student
              (assignFields student (generateUID b.year b.branch b.admissionYear b.rollNo)
                (sanitize b)) with
            | none => (.serverError, db)
            | some db1 =>
              (.updated (assignFields student
                (generateUID b.year b.branch b.admissionYear b.rollNo) (sanitize b)), db1) := by
  unfold validBody at h
  unfold putStudent
  simp only [h, List.isEmpty_nil, Bool.not_true, Bool.false_eq_true, if_false]
  rfl

theorem saveStudent_some (cy : Nat) (db db1 : List Student) (old s1 : Student)
    (h : saveStudent cy db old s1 = some db1) :
    schemaValid cy s1 = true ∧ db1 = replaceFirst (fun t => t.uid == old.uid) s1 db := by
  unfold saveStudent at h
  split at h
  · simp at h
  · rename_i hsv
    split at h
    · simp at h
    · simp only [Option.some.injEq] at h
      exact ⟨by simpa using hsv, h.symm⟩

theorem putStudent_store (cy : Nat) (db : List Student) (uid : String) (b : StudentBody) :
    (putStudent cy db uid b).2 = db ∨
      ∃ s1, s1.uid = generateUID b.year b.branch b.admissionYear b.rollNo ∧
        (s1.uid = uid ∨ ∀ t ∈ db, t.uid ≠ s1.uid) ∧
        (putStudent cy db uid b).2 = replaceFirst (fun t => t.uid == uid) s1 db := by
  by_cases hv : validBody cy b
  · rw [putStudent_valid cy db uid b hv]
    cases h0 : db.find? (fun s => s.uid == uid) with
    | none => exact Or.inl rfl
    | some student =>
      have hu : student.uid = uid := by
        have := List.find?_some h0
        simpa using this
      cases h1 : db.find? (fun s => sameTuple b s && s.uid != uid) with
      | some x => exact Or.inl rfl
      | none =>
        simp only
        split
        · exact Or.inl rfl
        · rename_i hcond
          cases h3 : saveStudent cy db student
              (assignFields student (generateUID b.year b.branch b.admissionYear b.rollNo)
                (sanitize b)) with
          | none => exact Or.inl rfl
          | some db1 =>
            right
            obtain ⟨_, hdb⟩ := saveStudent_some _ _ _ _ _ h3
            refine ⟨assignFields student (generateUID b.year b.branch b.admissionYear b.rollNo)
              (sanitize b), ?_, ?_, ?_⟩
            rotate_left 2
            · rw [hdb, hu]
            · exact jsTrim_generateUID _ _ _ _
            · show jsTrim (generateUID b.year b.branch b.admissionYear b.rollNo) = uid ∨ _
              rw [jsTrim_generateUID]
              by_cases he : generateUID b.year b.branch b.admissionYear b.rollNo = uid
              · exact Or.inl he
              · right
                intro t ht
                have hne : (generateUID b.year b.branch b.admissionYear b.rollNo != uid) = true := by
                  simpa using he
                rw [hne, Bool.true_and] at hcond
                cases hf : db.find? (fun s =>
                    s.uid == generateUID b.year b.branch b.admissionYear b.rollNo) with
                | some x => rw [hf] at hcond; simp at hcond
                | none =>
                  rw [List.find?_eq_none] at hf
                  have := hf t ht
                  show t.uid ≠ jsTrim _
                  rw [jsTrim_generateUID]
                  simpa using this
  · rw [putStudent_invalid cy db uid b hv]
    exact Or.inl rfl

theorem mem_replaceFirst (p : Student → Bool) (s1 : Student) (db : List Student) (t : Student)
    (h : t ∈ replaceFirst p s1 db) : t ∈ db ∨ t = s1 := by
  induction db with
  | nil => simp [replaceFirst] at h
  | cons s rest ih =>
    unfold replaceFirst at h
    split at h
    · rcases List.mem_cons.1 h with h | h
      · exact Or.inr h
      · exact Or.inl (List.mem_cons_of_mem _ h)
    · rcases List.mem_cons.1 h with h | h
      · exact Or.inl (h ▸ List.mem_cons_self _ _)
      · rcases ih h with h | h
        · exact Or.inl (List.mem_cons_of_mem _ h)
        · exact Or.inr h

theorem uidsUnique_replaceFirst (uid : String) (s1 : Student) (db : List Student)
    (hU : uidsUnique db) (h : s1.uid = uid ∨ ∀ t ∈ db, t.uid ≠ s1.uid) :
    uidsUnique (replaceFirst (fun t => t.uid == uid) s1 db) := by
  induction db with
  | nil => simpa [replaceFirst] using hU
  | cons s rest ih =>
    unfold uidsUnique at hU ih ⊢
    rw [List.map_cons, List.nodup_cons] at hU
    unfold replaceFirst
    by_cases hp : s.uid = uid
    · simp only [hp, beq_self_eq_true, if_true, List.map_cons, List.nodup_cons]
      refine ⟨?_, hU.2⟩
      rcases h with h | h
      · rw [h, ← hp]; exact hU.1
      · intro hmem
        obtain ⟨t, ht, hte⟩ := List.mem_map.1 hmem
        exact h t (List.mem_cons_of_mem _ ht) hte
    · have hp2 : (s.uid == uid) = false := by simpa using hp
      simp only [hp2, Bool.false_eq_true, if_false, List.map_cons, List.nodup_cons]
      refine ⟨?_, ih hU.2 ?_⟩
      · intro hmem
        obtain ⟨t, ht, hte⟩ := List.mem_map.1 hmem
        rcases mem_replaceFirst _ _ _ _ ht with ht | ht
        · exact hU.1 (List.mem_map.2 ⟨t, ht, hte⟩)
        · rcases h with h | h
          · apply hp; rw [← hte, ht, h]
          · apply h s (List.mem_cons_self _ _); rw [← hte, ht]
      · rcases h with h | h
        · exact Or.inl h
        · exact Or.inr (fun t ht => h t (List.mem_cons_of_mem _ ht))

/-- C6: uniqueness of the uid is an invariant of registration and rename. For every store
in which no two students (active or not) share a uid, the store after any
POST /students and after any PUT /students/:uid, successful or failed, has no two
students sharing a uid; and no operation stores an empty uid: if every stored uid was
non-empty before, every stored uid is non-empty afterwards. -/
theorem uid_unique_invariant (cy : Nat) (db : List Student) (hU : uidsUnique db) :
    (∀ (newId : Nat) (body : StudentBody),
      uidsUnique (postStudent cy newId db body).2 ∧
        (uidsNonEmpty db → uidsNonEmpty (postStudent cy newId db body).2)) ∧
    (∀ (uid : String) (body : StudentBody),
      uidsUnique (putStudent cy db uid body).2 ∧
        (uidsNonEmpty db → uidsNonEmpty (putStudent cy db uid body).2)) := by
  constructor
  · intro newId body
    rcases postStudent_store cy newId db body with h | ⟨s, hs, hfresh, h⟩
    · rw [h]; exact ⟨hU, id⟩
    · rw [h]
      constructor
      · unfold uidsUnique at hU ⊢
        rw [List.map_append, List.nodup_append]
        refine ⟨hU, by simp, ?_⟩
        intro u hu1 hu2
        obtain ⟨t, ht, hte⟩ := List.mem_map.1 hu1
        simp only [List.map_cons, List.map_nil, List.mem_singleton] at hu2
        exact hfresh t ht (hte.trans hu2)
      · intro hN t ht
        rcases List.mem_append.1 ht with ht | ht
        · exact hN t ht
        · rw [List.mem_singleton] at ht
          rw [ht, hs]
          exact generateUID_ne_empty _ _ _ _
  · intro uid body
    rcases putStudent_store cy db uid body with h | ⟨s1, hs, hfresh, h⟩
    · rw [h]; exact ⟨hU, id⟩
    · rw [h]
      constructor
      · exact uidsUnique_replaceFirst uid s1 db hU hfresh
      · intro hN t ht
        rcases mem_replaceFirst _ _ _ _ ht with ht | ht
        · exact hN t ht
        · rw [ht, hs]
          exact generateUID_ne_empty _ _ _ _

/-- Witness of C6: the store that holds the student `1CSE2410`, after the registration of
roll number 11 and after the rename of `1CSE2410` to roll number 12. -/
theorem uid_unique_invariant_witness :
    uidsUnique
      (postStudent 2026 2
        [⟨1, "Asha Rao", "1CSE2410", "CSE", 10, "9876543210", "9876543211", 1, 2024, true⟩]
        ⟨"Ravi Kumar", "CSE", 11, "9876543212", "9876543213", 1, 2024⟩).2 ∧
    uidsUnique
      (putStudent 2026
        [⟨1, "Asha Rao", "1CSE2410", "CSE", 10, "9876543210", "9876543211", 1, 2024, true⟩]
        "1CSE2410" ⟨"Asha Rao", "CSE", 12, "9876543210", "9876543211", 1, 2024⟩).2 :=
  ⟨((uid_unique_invariant 2026
      [⟨1, "Asha Rao", "1CSE2410", "CSE", 10, "9876543210", "9876543211", 1, 2024, true⟩]
      (by unfold uidsUnique; decide)).1 2
      ⟨"Ravi Kumar", "CSE", 11, "9876543212", "9876543213", 1, 2024⟩).1,
   ((uid_unique_invariant 2026
      [⟨1, "Asha Rao", "1CSE2410", "CSE", 10, "9876543210", "9876543211", 1, 2024, true⟩]
      (by unfold uidsUnique; decide)).2 "1CSE2410"
      ⟨"Asha Rao", "CSE", 12, "9876543210", "9876543211", 1, 2024⟩).1⟩

/-! ## Marking attendance -/

theorem insertOrdered_true (docs : List Attendance) : ∀ (ledger ledger1 : List Attendance),
    insertOrdered ledger docs = (true, ledger1) → ledger1 = ledger ++ docs := by
  induction docs with
  | nil => intro ledger ledger1 h; simp [insertOrdered] at h; simp [h]
  | cons r rest ih =>
    intro ledger ledger1 h
    unfold insertOrdered at h
    split at h
    · simp at h
    · have := ih _ _ h
      simpa using this

theorem insertOrdered_ok (docs : List Attendance) : ∀ (ledger : List Attendance),
    docs.Pairwise (fun a b => ¬ (a.student = b.student ∧ a.date = b.date)) →
    (∀ d ∈ docs, ∀ r ∈ ledger, ¬ (r.student = d.student ∧ r.date = d.date)) →
    insertOrdered ledger docs = (true, ledger ++ docs) := by
  induction docs with
  | nil => intro ledger _ _; simp [insertOrdered]
  | cons d rest ih =>
    intro ledger hp hl
    rw [List.pairwise_cons] at hp
    unfold insertOrdered
    have hany : (ledger.any fun x => x.student == d.student && x.date == d.date) = false := by
      rw [List.any_eq_false]
      intro r hr
      have := hl d (List.mem_cons_self _ _) r hr
      simpa using this
    simp only [hany, Bool.false_eq_true, if_false]
    rw [ih (ledger ++ [d]) hp.2]
    · simp
    · intro d1 hd1 r hr
      rcases List.mem_append.1 hr with hr | hr
      · exact hl d1 (List.mem_cons_of_mem _ hd1) r hr
      · rw [List.mem_singleton] at hr
        rw [hr]
        exact hp.1 d1 hd1

theorem truthy_of_parseInt (yr : ReqVal) (y : Int) (h : parseInt yr = some y) (hy : y ≠ 0) :
    yr.truthy = true := by
  cases yr with
  | num n =>
    simp only [parseInt, Option.some.injEq] at h
    simp [ReqVal.truthy, h, hy]
  | str s =>
    simp only [ReqVal.truthy, bne_iff_ne, ne_eq]
    intro hs
    have hnone : parseInt (.str "") = none := by decide
    rw [hs, hnone] at h
    simp at h

theorem branch_ne_empty (br : String) (h : toUpperCase br ∈ branches) : br ≠ "" := by
  intro hb
  rw [hb] at h
  revert h
  decide

theorem year_ne_zero (y : Int) (h : y ∈ [(1 : Int), 2, 3, 4]) : y ≠ 0 := by
  intro h0
  rw [h0] at h
  revert h
  decide

theorem markRoute_marked (tz now : Int) (students : List Student) (ledger : List Attendance)
    (yr : ReqVal) (br : String) (date : DateParam) (es : List Entry) (userId : Nat)
    (y d : Int) (r : Attendance) (hy : parseInt yr = some y) (ht : yr.truthy = true)
    (hb : br ≠ "")
    (hd : attendanceDate tz date = some d) (hr : r ∈ ledger)
    (hc : sameCohort y (toUpperCase br) d r = true) :
    markRoute tz now students ledger ⟨some yr, some br, date, some es⟩ userId =
      (.badRequest alreadyMarked, ledger) := by
  have hdm : date ≠ DateParam.missing := by
    intro h; rw [h] at hd; simp [attendanceDate] at hd
  have hb2 : (br == "") = false := by simpa using hb
  have hd2 : (date == DateParam.missing) = false := by simpa using hdm
  unfold markRoute
  simp only [ht, hb2, hd2, Bool.not_true, Bool.or_self, Bool.false_eq_true, if_false, hy, hd]
  cases hf : ledger.find? (sameCohort y (toUpperCase br) d) with
  | some x => rfl
  | none =>
    rw [List.find?_eq_none] at hf
    exact absurd hc (hf r hr)

theorem markRoute_fresh (tz now : Int) (students : List Student) (ledger : List Attendance)
    (yr : ReqVal) (br : String) (t : Int) (es : List Entry) (userId : Nat) (y : Int)
    (hy : parseInt yr = some y) (ht : yr.truthy = true) (hb : br ≠ "")
    (hnone : ∀ r ∈ ledger, sameCohort y (toUpperCase br) (startOfDay tz t) r = false) :
    markRoute tz now students ledger ⟨some yr, some br, .instant t, some es⟩ userId =
      match insertMany ledger ((resolvedEntries students es).map
          (markRecord now y (toUpperCase br) (startOfDay tz t) userId)) with
      | (some saved, ledger1) => (.created saved, ledger1)
      | (none, ledger1) => (.serverError, ledger1) := by
  have hb2 : (br == "") = false := by simpa using hb
  have hd2 : (DateParam.instant t == DateParam.missing) = false := by
    simp
  have hf : ledger.find? (sameCohort y (toUpperCase br) (startOfDay tz t)) = none := by
    rw [List.find?_eq_none]
    intro r hr
    rw [hnone r hr]; simp
  unfold markRoute
  simp only [ht, hb2, hd2, Bool.not_true, Bool.or_self, Bool.false_eq_true, if_false, hy,
    attendanceDate, hf]
  rfl

/-- C8: for every ledger that already holds a record with year = parseInt(year),
branch = uppercase(branch) and date = the requested date truncated to midnight (the
year and the branch of a stored record being values of the schema: 1 to 4 and a
branch code), and for every entries list and actor, POST /attendance/mark
answers 400 with 'Attendance for this date already exists' and the model method
`Attendance.markAttendance` throws the error with that message; in both cases the
ledger is unchanged, so no record is created for any student. -/
theorem mark_rejected_when_cohort_marked (tz now : Int) (students : List Student)
    (ledger : List Attendance) (yr : ReqVal) (br : String) (date : DateParam)
    (es : List Entry) (userId : Nat) (r : Attendance)
    (hr : r ∈ ledger) (hyear : r.year ∈ [(1 : Int), 2, 3, 4]) (hbranch : r.branch ∈ branches)
    (hy : parseInt yr = some r.year) (hb : toUpperCase br = r.branch)
    (hd : attendanceDate tz date = some r.date) :
    markRoute tz now students ledger ⟨some yr, some br, date, some es⟩ userId =
        (.badRequest alreadyMarked, ledger) ∧
      markAttendance tz now ledger yr br date es userId = (.error .alreadyExists, ledger) ∧
      LedgerError.alreadyExists.message = some "Attendance for this date already exists" ∧
      alreadyMarked = "Attendance for this date already exists" := by
  have hv : r.year ∈ [(1 : Int), 2, 3, 4] ∧ r.branch ∈ branches := ⟨hyear, hbranch⟩
  have hc : sameCohort r.year (toUpperCase br) r.date r = true := by
    simp [sameCohort, hb]
  refine ⟨?_, ?_, rfl, rfl⟩
  · exact markRoute_marked tz now students ledger yr br date es userId r.year r.date r hy
      (truthy_of_parseInt yr r.year hy (year_ne_zero _ hv.1)) (branch_ne_empty br (hb ▸ hv.2))
      hd hr hc
  · unfold markAttendance
    simp only [hy, hd]
    cases hf : ledger.find? (sameCohort r.year (toUpperCase br) r.date) with
    | some x => rfl
    | none =>
      rw [List.find?_eq_none] at hf
      exact absurd hc (hf r hr)

/-- Witness of C8: the ledger holds a record of first-year CSE for the day that starts at
the instant 0 (UTC); a mark request for year 1, branch `cse` and an instant of that
day is rejected. -/
theorem mark_rejected_when_cohort_marked_witness :
    markRoute 0 7200000 []
        [⟨1, 1, "CSE", 0, "present", 9, none, none, 3600000, 3600000⟩]
        ⟨some (.num 1), some "cse", .instant 5000, some [⟨2, "absent"⟩]⟩ 9 =
      (.badRequest alreadyMarked,
        [⟨1, 1, "CSE", 0, "present", 9, none, none, 3600000, 3600000⟩]) :=
  (mark_rejected_when_cohort_marked 0 7200000 []
    [⟨1, 1, "CSE", 0, "present", 9, none, none, 3600000, 3600000⟩]
    (.num 1) "cse" (.instant 5000) [⟨2, "absent"⟩] 9
    ⟨1, 1, "CSE", 0, "present", 9, none, none, 3600000, 3600000⟩
    (List.mem_singleton.2 rfl) (by decide) (by decide) (by decide) (by decide) (by decide)).1

/-- C9 (counterexample): a first mark request with an empty entries list succeeds and
creates no record; the second request for the same (year, branch, date) is then not
rejected: it succeeds and creates a record. -/
theorem mark_twice_second_succeeds :
    markRoute 0 7200000
        [⟨1, "Asha Rao", "1CSE2410", "CSE", 10, "9876543210", "9876543211", 1, 2024, true⟩]
        [] ⟨some (.num 1), some "CSE", .instant 5000, some []⟩ 9 = (.created [], []) ∧
    markRoute 0 7300000
        [⟨1, "Asha Rao", "1CSE2410", "CSE", 10, "9876543210", "9876543211", 1, 2024, true⟩]
        (markRoute 0 7200000
          [⟨1, "Asha Rao", "1CSE2410", "CSE", 10, "9876543210", "9876543211", 1, 2024, true⟩]
          [] ⟨some (.num 1), some "CSE", .instant 5000, some []⟩ 9).2
        ⟨some (.num 1), some "CSE", .instant 5000, some [⟨1, "present"⟩]⟩ 9 =
      (.created [⟨1, 1, "CSE", 0, "present", 9, none, none, 7300000, 7300000⟩],
        [⟨1, 1, "CSE", 0, "present", 9, none, none, 7300000, 7300000⟩]) := by
  decide

theorem insertMany_some (ledger docs saved ledger1 : List Attendance)
    (h : insertMany ledger docs = (some saved, ledger1)) :
    saved = docs ∧ ledger1 = ledger ++ docs := by
  unfold insertMany at h
  by_cases hv : docs.all attendanceValid = true
  · simp only [hv, Bool.not_true, Bool.false_eq_true, if_false] at h
    cases hio : insertOrdered ledger docs with
    | mk ok l1 =>
      cases ok with
      | false => simp [hio] at h
      | true =>
        simp only [hio, Prod.mk.injEq, Option.some.injEq] at h
        exact ⟨h.1.symm, h.2 ▸ insertOrdered_true _ _ _ hio⟩
  · simp [hv] at h

theorem markRoute_created (tz now : Int) (students : List Student)
    (ledger ledger1 saved : List Attendance) (body : MarkBody) (userId : Nat)
    (h : markRoute tz now students ledger body userId = (.created saved, ledger1)) :
    ∃ yr br es y d, body.year = some yr ∧ body.branch = some br ∧
      body.attendanceData = some es ∧ yr.truthy = true ∧ br ≠ "" ∧ parseInt yr = some y ∧
      attendanceDate tz body.date = some d ∧
      saved = (resolvedEntries students es).map (markRecord now y (toUpperCase br) d userId) ∧
      ledger1 = ledger ++ saved := by
  obtain ⟨y1, b1, d1, a1⟩ := body
  cases y1 with
  | none => simp [markRoute] at h
  | some yr =>
    cases b1 with
    | none => simp [markRoute] at h
    | some br =>
      cases a1 with
      | none => simp [markRoute] at h
      | some es =>
        refine ⟨yr, br, es, ?_⟩
        by_cases ht : yr.truthy = true
        swap
        · simp [markRoute, ht] at h
        by_cases hb : br = ""
        · simp [markRoute, hb] at h
        by_cases hd : d1 = DateParam.missing
        · simp [markRoute, hd] at h
        cases hp : parseInt yr with
        | none => simp [markRoute, ht, hb, hd, hp] at h
        | some y =>
          cases hdt : attendanceDate tz d1 with
          | none => simp [markRoute, ht, hb, hd, hp, hdt] at h
          | some d =>
            refine ⟨y, d, rfl, rfl, rfl, ht, hb, rfl, rfl, ?_⟩
            cases hf : ledger.find? (sameCohort y (toUpperCase br) d) with
            | some x => simp [markRoute, ht, hb, hd, hp, hdt, hf] at h
            | none =>
              cases him : insertMany ledger ((resolvedEntries students es).map
                  (markRecord now y (toUpperCase br) d userId)) with
              | mk res l1 =>
                cases res with
                | none =>
                  simp [markRoute, ht, hb, hd, hp, hdt, hf] at h
                  unfold resolvedEntries at him
                  rw [him] at h
                  simp at h
                | some sv =>
                  obtain ⟨hs, hl⟩ := insertMany_some _ _ _ _ him
                  simp [markRoute, ht, hb, hd, hp, hdt, hf] at h
                  unfold resolvedEntries at him
                  rw [him] at h
                  simp only [Prod.mk.injEq, MarkResp.created.injEq] at h
                  rw [← h.1, ← h.2, hl, hs]
                  exact ⟨rfl, rfl⟩

/-- C9 (amended): when a first mark request succeeds and creates at least one record, a
second mark request for the same (year, branch, date), with any entries list and any
actor, answers 400 with 'Attendance for this date already exists' and leaves the
ledger unchanged (it creates zero records). -/
theorem mark_twice_rejected (tz now1 now2 : Int) (students1 students2 : List Student)
    (ledger ledger1 saved : List Attendance) (body1 body2 : MarkBody) (es2 : List Entry)
    (user1 user2 : Nat)
    (h1 : markRoute tz now1 students1 ledger body1 user1 = (.created saved, ledger1))
    (hne : saved ≠ [])
    (hy : body2.year = body1.year) (hb : body2.branch = body1.branch)
    (hd : body2.date = body1.date) (he : body2.attendanceData = some es2) :
    markRoute tz now2 students2 ledger1 body2 user2 = (.badRequest alreadyMarked, ledger1) := by
  obtain ⟨yr, br, es, y, d, e1, e2, _, ht, hbr, hp, hdt, hs, hl⟩ :=
    markRoute_created tz now1 students1 ledger ledger1 saved body1 user1 h1
  obtain ⟨y2, b2, d2, a2⟩ := body2
  simp only at hy hb hd he
  rw [hy, hb, hd, he, e1, e2]
  cases hsv : saved with
  | nil => exact absurd hsv hne
  | cons r0 rest =>
    have hmem : r0 ∈ (resolvedEntries students1 es).map
        (markRecord now1 y (toUpperCase br) d user1) := by
      rw [← hs, hsv]; exact List.mem_cons_self _ _
    obtain ⟨e0, _, he0⟩ := List.mem_map.1 hmem
    have hc : sameCohort y (toUpperCase br) d r0 = true := by
      rw [← he0]; simp [sameCohort, markRecord]
    apply markRoute_marked tz now2 students2 ledger1 yr br body1.date es2 user2 y d r0 hp ht hbr hdt
    · rw [hl, hsv]; simp
    · exact hc

/-- Witness of C9 (amended): the first request marks the student 1 of first-year CSE;
the second request for the same cohort and day is rejected. -/
theorem mark_twice_rejected_witness :
    markRoute 0 7300000 []
        [⟨1, 1, "CSE", 0, "absent", 9, none, none, 7200000, 7200000⟩]
        ⟨some (.num 1), some "CSE", .instant 5000, some [⟨1, "present"⟩]⟩ 8 =
      (.badRequest alreadyMarked,
        [⟨1, 1, "CSE", 0, "absent", 9, none, none, 7200000, 7200000⟩]) :=
  mark_twice_rejected 0 7200000 7300000
    [⟨1, "Asha Rao", "1CSE2410", "CSE", 10, "9876543210", "9876543211", 1, 2024, true⟩] [] []
    [⟨1, 1, "CSE", 0, "absent", 9, none, none, 7200000, 7200000⟩]
    [⟨1, 1, "CSE", 0, "absent", 9, none, none, 7200000, 7200000⟩]
    ⟨some (.num 1), some "CSE", .instant 5000, some [⟨1, "absent"⟩]⟩
    ⟨some (.num 1), some "CSE", .instant 5000, some [⟨1, "present"⟩]⟩ [⟨1, "present"⟩] 9 8
    (by decide) (by simp) rfl rfl rfl rfl

/-- C10 (counterexample): no record exists for the cohort and the only entry names an
existing student, but its status is not one of the schema; the request does not
succeed: it ends with status 500 and nothing is added to the ledger. -/
theorem mark_invalid_status_fails :
    markRoute 0 7200000
        [⟨1, "Asha Rao", "1CSE2410", "CSE", 10, "9876543210", "9876543211", 1, 2024, true⟩]
        [] ⟨some (.num 1), some "CSE", .instant 5000, some [⟨1, "late"⟩]⟩ 9 =
      (.serverError, []) ∧
    (markRoute 0 7200000
        [⟨1, "Asha Rao", "1CSE2410", "CSE", 10, "9876543210", "9876543211", 1, 2024, true⟩]
        [] ⟨some (.num 1), some "CSE", .instant 5000, some [⟨1, "late"⟩]⟩ 9).1.status ≠ 201 := by
  decide

/-- C10 (amended): let no record exist for the requested (year, branch, date), let
parseInt(year) be one of 1, 2, 3, 4 and uppercase(branch) one of the branch codes, and
let the entries whose studentId resolves to an existing student have a status
`present` or `absent`, name pairwise different students, and name no student who
already has a record on that date. Then POST /attendance/mark succeeds (201) and the
ledger afterwards is the ledger before followed by exactly one record for each
resolving entry, in the order of the entries, and nothing for the other entries; each
created record has student = the entry's studentId, year = parseInt(year),
branch = uppercase(branch), date = the requested date truncated to midnight,
status = the entry's status and markedBy = the acting user. -/
theorem mark_creates_records (tz now : Int) (students : List Student)
    (ledger : List Attendance) (yr : ReqVal) (br : String) (t : Int) (es : List Entry)
    (userId : Nat) (y : Int)
    (hy : parseInt yr = some y) (hy4 : y ∈ [(1 : Int), 2, 3, 4])
    (hb : toUpperCase br ∈ branches)
    (hnone : ∀ r ∈ ledger, ¬ (r.year = y ∧ r.branch = toUpperCase br ∧ r.date = startOfDay tz t))
    (hstatus : ∀ e ∈ resolvedEntries students es, e.status = "present" ∨ e.status = "absent")
    (hdistinct : ((resolvedEntries students es).map (fun e => e.studentId)).Nodup)
    (hfree : ∀ e ∈ resolvedEntries students es, ∀ r ∈ ledger,
      ¬ (r.student = e.studentId ∧ r.date = startOfDay tz t)) :
    markRoute tz now students ledger ⟨some yr, some br, .instant t, some es⟩ userId =
        (.created ((resolvedEntries students es).map fun e =>
            { student := e.studentId, year := y, branch := toUpperCase br,
              date := startOfDay tz t, status := e.status, markedBy := userId,
              updatedBy := none, notes := none, createdAt := now, updatedAt := now }),
          ledger ++ (resolvedEntries students es).map fun e =>
            { student := e.studentId, year := y, branch := toUpperCase br,
              date := startOfDay tz t, status := e.status, markedBy := userId,
              updatedBy := none, notes := none, createdAt := now, updatedAt := now }) ∧
      (markRoute tz now students ledger ⟨some yr, some br, .instant t, some es⟩
        userId).1.status = 201 ∧
      resolvedEntries students es =
        es.filter (fun e => (students.find? (fun s => s.id == e.studentId)).isSome) := by
  have hfresh : ∀ r ∈ ledger, sameCohort y (toUpperCase br) (startOfDay tz t) r = false := by
    intro r hr
    have := hnone r hr
    simp only [sameCohort]
    by_contra hcon
    simp only [Bool.not_eq_false, Bool.and_eq_true, beq_iff_eq] at hcon
    exact this ⟨hcon.1.1, hcon.1.2, hcon.2⟩
  have hroute := markRoute_fresh tz now students ledger yr br t es userId y hy
    (truthy_of_parseInt yr y hy (year_ne_zero y hy4)) (branch_ne_empty br hb) hfresh
  have hvalid : ((resolvedEntries students es).map
      (markRecord now y (toUpperCase br) (startOfDay tz t) userId)).all attendanceValid = true := by
    rw [List.all_eq_true]
    intro r hr
    obtain ⟨e, he, hre⟩ := List.mem_map.1 hr
    rw [← hre]
    have hst := hstatus e he
    simp only [attendanceValid, markRecord, Bool.and_eq_true, decide_eq_true_eq, and_true]
    refine ⟨⟨hy4, hb⟩, ?_⟩
    rcases hst with h | h <;> simp [h]
  have hins : insertOrdered ledger ((resolvedEntries students es).map
      (markRecord now y (toUpperCase br) (startOfDay tz t) userId)) =
      (true, ledger ++ (resolvedEntries students es).map
        (markRecord now y (toUpperCase br) (startOfDay tz t) userId)) := by
    apply insertOrdered_ok
    · rw [List.pairwise_map]
      unfold List.Nodup at hdistinct
      rw [List.pairwise_map] at hdistinct
      exact hdistinct.imp (fun hab hcon => hab hcon.1)
    · intro d hd r hr
      obtain ⟨e, he, hde⟩ := List.mem_map.1 hd
      rw [← hde]
      exact hfree e he r hr
  have hmany : insertMany ledger ((resolvedEntries students es).map
      (markRecord now y (toUpperCase br) (startOfDay tz t) userId)) =
      (some ((resolvedEntries students es).map
        (markRecord now y (toUpperCase br) (startOfDay tz t) userId)),
       ledger ++ (resolvedEntries students es).map
        (markRecord now y (toUpperCase br) (startOfDay tz t) userId)) := by
    unfold insertMany
    simp only [hvalid, Bool.not_true, Bool.false_eq_true, if_false, hins]
  rw [hroute, hmany]
  exact ⟨rfl, rfl, rfl⟩

/-- Witness of C10 (amended): two entries, the first for the stored student 1, the second
for the unknown identifier 5; exactly one record is added. -/
theorem mark_creates_records_witness :
    markRoute 0 7200000
        [⟨1, "Asha Rao", "1CSE2410", "CSE", 10, "9876543210", "9876543211", 1, 2024, true⟩]
        [⟨4, 2, "ECE", 0, "present", 9, none, none, 3600000, 3600000⟩]
        ⟨some (.str "1"), some "cse", .instant 5000, some [⟨1, "present"⟩, ⟨5, "absent"⟩]⟩ 9 =
      (.created [⟨1, 1, "CSE", 0, "present", 9, none, none, 7200000, 7200000⟩],
        [⟨4, 2, "ECE", 0, "present", 9, none, none, 3600000, 3600000⟩,
         ⟨1, 1, "CSE", 0, "present", 9, none, none, 7200000, 7200000⟩]) :=
  (mark_creates_records 0 7200000
    [⟨1, "Asha Rao", "1CSE2410", "CSE", 10, "9876543210", "9876543211", 1, 2024, true⟩]
    [⟨4, 2, "ECE", 0, "present", 9, none, none, 3600000, 3600000⟩]
    (.str "1") "cse" 5000 [⟨1, "present"⟩, ⟨5, "absent"⟩] 9 1
    (by decide) (by decide) (by decide) (by decide) (by decide) (by decide) (by decide)).1

/-! ## The uid validator on generated uids -/

theorem matchItems_cons_append (item : ReItem) (rest : List ReItem) (pre suf : List Char)
    (hlo : item.lo ≤ pre.length) (hhi : pre.length ≤ item.hi)
    (hall : pre.all item.cls = true) (hrest : matchItems rest suf = true) :
    matchItems (item :: rest) (pre ++ suf) = true := by
  unfold matchItems
  rw [List.any_eq_true]
  refine ⟨pre.length - item.lo, ?_, ?_⟩
  · rw [List.mem_range]; omega
  · have hk : item.lo + (pre.length - item.lo) = pre.length := by omega
    simp only [hk, List.length_append, Nat.le_add_right, decide_True, Bool.true_and,
      List.take_left', List.drop_left', hall, hrest, Bool.and_self]

theorem digitChar_isDigit (k : Nat) (h : k < 10) : isDigitChar (Nat.digitChar k) = true := by
  interval_cases k <;> decide

theorem decDigits_all_digit (n : Nat) : (decDigits n).all isDigitChar = true := by
  induction n using Nat.strong_induction_on with
  | _ n ih =>
    rw [decDigits]
    by_cases h : n < 10
    · simp [h, digitChar_isDigit n h]
    · simp only [h, if_false, List.all_append, ih (n / 10) (by omega), Bool.true_and,
        List.all_cons, List.all_nil, Bool.and_true]
      exact digitChar_isDigit _ (Nat.mod_lt _ (by decide))

theorem decDigits_length_le3 (n : Nat) (h : n ≤ 999) : (decDigits n).length ≤ 3 := by
  rw [decDigits]
  by_cases h1 : n < 10
  · simp [h1]
  · rw [decDigits]
    by_cases h2 : n / 10 < 10
    · simp [h1, h2]
    · have h3 : n / 10 / 10 < 10 := by omega
      rw [decDigits]
      simp [h1, h2, h3]

theorem zeroPad2_shape (n : Nat) (h : n ≤ 999) :
    (2 ≤ (zeroPad2 n).data.length ∧ (zeroPad2 n).data.length ≤ 3) ∧
      (zeroPad2 n).data.all isDigitChar = true := by
  unfold zeroPad2
  by_cases h1 : n < 10
  · simp only [h1, if_true, String.data_append, numToString_data, List.length_append,
      decDigits_length_lt n h1, List.all_append, decDigits_all_digit]
    exact ⟨by decide, by decide⟩
  · simp only [h1, if_false, numToString_data, decDigits_all_digit, and_true]
    exact ⟨decDigits_length_ge n (by omega), decDigits_length_le3 n h⟩

theorem branch_shape (b : String) (h : b ∈ branches) :
    (2 ≤ b.data.length ∧ b.data.length ≤ 3) ∧ b.data.all isUpperAZ = true := by
  simp only [branches, List.mem_cons, List.mem_singleton, List.not_mem_nil, or_false] at h
  rcases h with rfl | rfl | rfl | rfl | rfl | rfl | rfl | rfl <;> decide

theorem year_shape (y : Nat) (h : y ∈ [1, 2, 3, 4]) :
    (numToString y).data.length = 1 ∧
      (numToString y).data.all (fun c => '1' ≤ c && c ≤ '4') = true := by
  simp only [List.mem_cons, List.mem_singleton, List.not_mem_nil, or_false] at h
  rcases h with rfl | rfl | rfl | rfl <;> decide

/-- The uid validator accepts the uid generated for a year from 1 to 4, a branch code, an
admission year of at least two digits and a roll number of at most three digits. -/
theorem uidValidator_generateUID (year : Nat) (branch : String) (admissionYear rollNo : Nat)
    (hy : year ∈ [1, 2, 3, 4]) (hb : branch ∈ branches) (ha : 10 ≤ admissionYear)
    (hr : rollNo ≤ 999) :
    uidValidator (generateUID year branch admissionYear rollNo) = true := by
  rw [generateUID_eq_deriveUID _ _ _ _ ha]
  unfold uidValidator deriveUID uidRegex
  have hys := year_shape year hy
  have hbs := branch_shape branch hb
  have hzs := zeroPad2_shape rollNo hr
  simp only [String.data_append, List.append_assoc]
  apply matchItems_cons_append _ _ _ _ (by simp [hys.1]) (by simp [hys.1]) hys.2
  apply matchItems_cons_append _ _ _ _ hbs.1.1 hbs.1.2 hbs.2
  apply matchItems_cons_append _ _ _ _ (by simp [last2digits]) (by simp [last2digits])
  · simp only [last2digits, List.all_cons, List.all_nil, Bool.and_true, Bool.and_eq_true]
    exact ⟨digitChar_isDigit _ (Nat.mod_lt _ (by decide)),
      digitChar_isDigit _ (Nat.mod_lt _ (by decide))⟩
  · rw [← List.append_nil (zeroPad2 rollNo).data]
    exact matchItems_cons_append _ _ _ _ hzs.1.1 hzs.1.2 hzs.2 rfl

/-! ## Successful registration and rename -/

theorem jsTrim_data (s : String) :
    (jsTrim s).data = List.rdropWhile isJsWhitespace (s.data.dropWhile isJsWhitespace) := rfl

theorem dropWhile_head_not (p : Char → Bool) (a : Char) (t : List Char) :
    ∀ (l : List Char), l.dropWhile p = a :: t → p a = false := by
  intro l
  induction l with
  | nil => intro h; simp at h
  | cons c cs ih =>
    intro h
    by_cases hc : p c = true
    · rw [List.dropWhile_cons_of_pos hc] at h
      exact ih h
    · rw [List.dropWhile_cons_of_neg hc] at h
      simp only [List.cons.injEq] at h
      rw [← h.1]
      simpa using hc

theorem jsTrim_idem (s : String) : jsTrim (jsTrim s) = jsTrim s := by
  apply String.ext
  rw [jsTrim_data (jsTrim s), jsTrim_data s]
  have h1 : List.dropWhile isJsWhitespace
      (List.rdropWhile isJsWhitespace (s.data.dropWhile isJsWhitespace)) =
      List.rdropWhile isJsWhitespace (s.data.dropWhile isJsWhitespace) := by
    have hpre : List.rdropWhile isJsWhitespace (s.data.dropWhile isJsWhitespace) <+:
        s.data.dropWhile isJsWhitespace := List.rdropWhile_prefix _ _
    obtain ⟨suf, hsuf⟩ := hpre
    cases hx : List.rdropWhile isJsWhitespace (s.data.dropWhile isJsWhitespace) with
    | nil => rfl
    | cons a t =>
      rw [hx] at hsuf
      have hna := dropWhile_head_not isJsWhitespace a (t ++ suf) s.data hsuf.symm
      rw [List.dropWhile_cons_of_neg (by simp [hna])]
  rw [h1, List.rdropWhile_idempotent]

theorem schemaValid_of_validBody (cy : Nat) (b : StudentBody) (id : Nat) (isActive : Bool)
    (hv : validBody cy b) (hr : b.rollNo ≤ 999) :
    schemaValid cy
      { id := id, studentName := jsTrim (sanitize b).studentName,
        uid := jsTrim (generateUID b.year b.branch b.admissionYear b.rollNo),
        branch := toUpperCase b.branch, rollNo := b.rollNo, studentPhone := b.studentPhone,
        parentPhone := b.parentPhone, year := b.year, admissionYear := b.admissionYear,
        isActive := isActive } = true := by
  obtain ⟨hname, hbranch, hroll, hsp, hpp, hyear, hay⟩ := (validBody_iff cy b).1 hv
  have hname2 : jsTrim (sanitize b).studentName = jsTrim b.studentName := jsTrim_idem _
  have hne : ∀ (s : String), 0 < s.length → (s != "") = true := by
    intro s hs
    rw [bne_iff_ne]
    intro h; rw [h] at hs; simp at hs
  have hphone : ∀ (s : String), phoneValidator s = true → (s != "") = true := by
    intro s hs
    rw [bne_iff_ne]
    intro h; rw [h] at hs; revert hs; decide
  have hbne : (b.branch != "") = true := by
    rw [bne_iff_ne]
    intro h; rw [h] at hbranch; revert hbranch; decide
  unfold schemaValid
  simp only [hname2, jsTrim_generateUID, toUpperCase_of_mem_branches b.branch hbranch,
    hne (jsTrim b.studentName) (by omega), hname.2, hbranch, hroll, hsp, hpp, hyear, hay,
    hphone _ hsp, hphone _ hpp, hbne, decide_True, Bool.and_self, Bool.true_and, and_self,
    uidValidator_generateUID b.year b.branch b.admissionYear b.rollNo hyear hbranch (by omega) hr,
    Bool.and_true, bne_iff_ne, ne_eq]
  exact generateUID_ne_empty _ _ _ _

/-- Registration succeeds for a valid request with a roll number of at most three digits
when neither duplicate check finds a student: the new student is appended to the
store with the derived uid. -/
theorem postStudent_succeeds (cy newId : Nat) (db : List Student) (b : StudentBody)
    (hv : validBody cy b) (hr : b.rollNo ≤ 999)
    (h1 : ∀ t ∈ db, sameTuple b t = false)
    (h2 : ∀ t ∈ db, t.uid ≠ generateUID b.year b.branch b.admissionYear b.rollNo) :
    postStudent cy newId db b =
      (.created (newStudent newId (generateUID b.year b.branch b.admissionYear b.rollNo)
          (sanitize b)),
        db ++ [newStudent newId (generateUID b.year b.branch b.admissionYear b.rollNo)
          (sanitize b)]) := by
  rw [postStudent_valid cy newId db b hv]
  have e1 : db.find? (sameTuple (sanitize b)) = none := by
    rw [List.find?_eq_none]; intro t ht; rw [sameTuple_sanitize, h1 t ht]; simp
  have e2 : db.find? (fun s => s.uid == generateUID b.year b.branch b.admissionYear b.rollNo) =
      none := by
    rw [List.find?_eq_none]; intro t ht; simpa using h2 t ht
  have e3 : insertStudent cy db (newStudent newId
      (generateUID b.year b.branch b.admissionYear b.rollNo) (sanitize b)) =
      some (db ++ [newStudent newId (generateUID b.year b.branch b.admissionYear b.rollNo)
        (sanitize b)]) := by
    unfold insertStudent
    have hs := schemaValid_of_validBody cy b newId true hv hr
    have hany : (db.any fun t => t.uid == (newStudent newId
        (generateUID b.year b.branch b.admissionYear b.rollNo) (sanitize b)).uid) = false := by
      rw [List.any_eq_false]
      intro t ht
      show ¬ (t.uid == jsTrim (generateUID b.year b.branch b.admissionYear b.rollNo)) = true
      rw [jsTrim_generateUID]
      simpa using h2 t ht
    have hs2 : schemaValid cy (newStudent newId
        (generateUID b.year b.branch b.admissionYear b.rollNo) (sanitize b)) = true := hs
    simp only [hs2, hany, Bool.not_true, Bool.false_eq_true, if_false]
  simp only [e1, e2, e3]

/-- The rename succeeds for a valid request with a roll number of at most three digits
when the student exists and neither duplicate check finds another student: the
loaded document is replaced by the document with the new fields and the re-derived
uid. -/
theorem putStudent_succeeds (cy : Nat) (db : List Student) (uid : String) (b : StudentBody)
    (student : Student) (hv : validBody cy b) (hr : b.rollNo ≤ 999)
    (h0 : db.find? (fun s => s.uid == uid) = some student)
    (h1 : ∀ t ∈ db, t.uid ≠ uid → sameTuple b t = false)
    (h2 : generateUID b.year b.branch b.admissionYear b.rollNo ≠ uid →
      ∀ t ∈ db, t.uid ≠ generateUID b.year b.branch b.admissionYear b.rollNo) :
    putStudent cy db uid b =
      (.updated (assignFields student (generateUID b.year b.branch b.admissionYear b.rollNo)
          (sanitize b)),
        replaceFirst (fun t => t.uid == uid)
          (assignFields student (generateUID b.year b.branch b.admissionYear b.rollNo)
            (sanitize b)) db) := by
  rw [putStudent_valid cy db uid b hv]
  have hu : student.uid = uid := by
    have := List.find?_some h0
    simpa using this
  have e1 : db.find? (fun s => sameTuple b s && s.uid != uid) = none := by
    rw [List.find?_eq_none]
    intro t ht
    by_cases htu : t.uid = uid
    · simp [htu]
    · simp [h1 t ht htu]
  have e2 : (generateUID b.year b.branch b.admissionYear b.rollNo != uid &&
      (db.find? (fun s =>
        s.uid == generateUID b.year b.branch b.admissionYear b.rollNo)).isSome) = false := by
    by_cases he : generateUID b.year b.branch b.admissionYear b.rollNo = uid
    · simp [he]
    · have : db.find? (fun s =>
          s.uid == generateUID b.year b.branch b.admissionYear b.rollNo) = none := by
        rw [List.find?_eq_none]; intro t ht; simpa using h2 he t ht
      simp [this]
  have e3 : saveStudent cy db student
      (assignFields student (generateUID b.year b.branch b.admissionYear b.rollNo)
        (sanitize b)) =
      some (replaceFirst (fun t => t.uid == uid)
        (assignFields student (generateUID b.year b.branch b.admissionYear b.rollNo)
          (sanitize b)) db) := by
    unfold saveStudent
    have hs : schemaValid cy (assignFields student
        (generateUID b.year b.branch b.admissionYear b.rollNo) (sanitize b)) = true :=
      schemaValid_of_validBody cy b student.id student.isActive hv hr
    have hidx : ((assignFields student (generateUID b.year b.branch b.admissionYear b.rollNo)
        (sanitize b)).uid != student.uid &&
        db.any (fun t => t.uid == (assignFields student
          (generateUID b.year b.branch b.admissionYear b.rollNo) (sanitize b)).uid)) = false := by
      show ((jsTrim (generateUID b.year b.branch b.admissionYear b.rollNo) != student.uid) &&
        db.any (fun t => t.uid ==
          jsTrim (generateUID b.year b.branch b.admissionYear b.rollNo))) = false
      rw [jsTrim_generateUID, hu]
      by_cases he : generateUID b.year b.branch b.admissionYear b.rollNo = uid
      · simp [he]
      · have : db.any (fun t =>
            t.uid == generateUID b.year b.branch b.admissionYear b.rollNo) = false := by
          rw [List.any_eq_false]; intro t ht; simpa using h2 he t ht
        simp [this]
    rw [hu] at hidx
    simp only [hs, hidx, Bool.not_true, Bool.false_eq_true, if_false, hu]
  simp only [h0, e1, e2, e3, Bool.false_eq_true, if_false]

/-! ## Registration and rename keep the uid derived from the fields -/

theorem postStudent_store_valid (cy newId : Nat) (db : List Student) (b : StudentBody) :
    (postStudent cy newId db b).2 = db ∨
      (validBody cy b ∧ (postStudent cy newId db b).2 =
        db ++ [newStudent newId (generateUID b.year b.branch b.admissionYear b.rollNo)
          (sanitize b)]) := by
  by_cases hv : validBody cy b
  · rw [postStudent_valid cy newId db b hv]
    cases h1 : db.find? (sameTuple (sanitize b)) with
    | some x => exact Or.inl rfl
    | none =>
      cases h2 : db.find?
          (fun s => s.uid == generateUID b.year b.branch b.admissionYear b.rollNo) with
      | some x => exact Or.inl rfl
      | none =>
        cases h3 : insertStudent cy db
            (newStudent newId (generateUID b.year b.branch b.admissionYear b.rollNo)
              (sanitize b)) with
        | none => exact Or.inl rfl
        | some db1 =>
          right
          refine ⟨hv, ?_⟩
          unfold insertStudent at h3
          split at h3
          · simp at h3
          · split at h3
            · simp at h3
            · simpa using h3.symm
  · rw [postStudent_invalid cy newId db b hv]
    exact Or.inl rfl

theorem putStudent_store_valid (cy : Nat) (db : List Student) (uid : String) (b : StudentBody) :
    (putStudent cy db uid b).2 = db ∨
      ∃ student, validBody cy b ∧ (putStudent cy db uid b).2 =
        replaceFirst (fun t => t.uid == uid)
          (assignFields student (generateUID b.year b.branch b.admissionYear b.rollNo)
            (sanitize b)) db := by
  by_cases hv : validBody cy b
  · rw [putStudent_valid cy db uid b hv]
    cases h0 : db.find? (fun s => s.uid == uid) with
    | none => exact Or.inl rfl
    | some student =>
      have hu : student.uid = uid := by
        have := List.find?_some h0
        simpa using this
      cases h1 : db.find? (fun s => sameTuple b s && s.uid != uid) with
      | some x => exact Or.inl rfl
      | none =>
        simp only
        split
        · exact Or.inl rfl
        · cases h3 : saveStudent cy db student
              (assignFields student (generateUID b.year b.branch b.admissionYear b.rollNo)
                (sanitize b)) with
          | none => exact Or.inl rfl
          | some db1 =>
            right
            obtain ⟨_, hdb⟩ := saveStudent_some _ _ _ _ _ h3
            exact ⟨student, hv, by rw [hdb, hu]⟩
  · rw [putStudent_invalid cy db uid b hv]
    exact Or.inl rfl

/-- Registration and rename re-derive the uid: in a store in which every student carries
the uid derived from its fields, this still holds after POST /students and after
PUT /students/:uid. -/
theorem uidsDerived_post_put (cy : Nat) (db : List Student) (h : uidsDerived db) :
    (∀ (newId : Nat) (body : StudentBody), uidsDerived (postStudent cy newId db body).2) ∧
    (∀ (uid : String) (body : StudentBody), uidsDerived (putStudent cy db uid body).2) := by
  constructor
  · intro newId b
    rcases postStudent_store_valid cy newId db b with e | ⟨hv, e⟩
    · rw [e]; exact h
    · rw [e]
      intro t ht
      rcases List.mem_append.1 ht with ht | ht
      · exact h t ht
      · rw [List.mem_singleton] at ht
        rw [ht]
        show jsTrim (generateUID b.year b.branch b.admissionYear b.rollNo) =
          generateUID b.year (toUpperCase b.branch) b.admissionYear b.rollNo
        rw [jsTrim_generateUID, toUpperCase_of_mem_branches _ ((validBody_iff cy b).1 hv).2.1]
  · intro uid b
    rcases putStudent_store_valid cy db uid b with e | ⟨student, hv, e⟩
    · rw [e]; exact h
    · rw [e]
      intro t ht
      rcases mem_replaceFirst _ _ _ _ ht with ht | ht
      · exact h t ht
      · rw [ht]
        show jsTrim (generateUID b.year b.branch b.admissionYear b.rollNo) =
          generateUID b.year (toUpperCase b.branch) b.admissionYear b.rollNo
        rw [jsTrim_generateUID, toUpperCase_of_mem_branches _ ((validBody_iff cy b).1 hv).2.1]

/-! ## The ledger keeps one record per student and date -/

theorem insertOrdered_onePerStudentDate (docs : List Attendance) :
    ∀ (ledger : List Attendance), onePerStudentDate ledger →
      onePerStudentDate (insertOrdered ledger docs).2 := by
  induction docs with
  | nil => intro ledger h; simpa [insertOrdered] using h
  | cons r rest ih =>
    intro ledger h
    unfold insertOrdered
    split
    · exact h
    · rename_i hany
      apply ih
      unfold onePerStudentDate at h ⊢
      rw [List.pairwise_append]
      refine ⟨h, List.pairwise_singleton _ _, ?_⟩
      intro a ha b hb
      rw [List.mem_singleton] at hb
      subst hb
      have hf : (ledger.any fun x => x.student == b.student && x.date == b.date) = false := by
        simpa using hany
      rw [List.any_eq_false] at hf
      simpa using hf a ha

theorem insertMany_onePerStudentDate (ledger docs : List Attendance)
    (h : onePerStudentDate ledger) : onePerStudentDate (insertMany ledger docs).2 := by
  unfold insertMany
  split
  · exact h
  · have := insertOrdered_onePerStudentDate docs ledger h
    cases hio : insertOrdered ledger docs with
    | mk ok l1 =>
      rw [hio] at this
      cases ok <;> exact this

theorem markRoute_ledger (tz now : Int) (students : List Student) (ledger : List Attendance)
    (body : MarkBody) (userId : Nat) :
    (markRoute tz now students ledger body userId).2 = ledger ∨
      ∃ docs, (markRoute tz now students ledger body userId).2 = (insertMany ledger docs).2 := by
  obtain ⟨y1, b1, d1, a1⟩ := body
  cases y1 with
  | none => left; simp [markRoute]
  | some yr =>
    cases b1 with
    | none => left; simp [markRoute]
    | some br =>
      cases a1 with
      | none => left; simp [markRoute]
      | some es =>
        unfold markRoute
        simp only
        split
        · exact Or.inl rfl
        · cases hp : parseInt yr with
          | none => exact Or.inl rfl
          | some y =>
            cases hdt : attendanceDate tz d1 with
            | none => exact Or.inl rfl
            | some d =>
              simp only
              cases hf : ledger.find? (sameCohort y (toUpperCase br) d) with
              | some x => exact Or.inl rfl
              | none =>
                right
                refine ⟨List.map (markRecord now y (toUpperCase br) d userId)
                  (List.filter (fun e => studentExists students e.studentId) es), ?_⟩
                simp only
                cases him : insertMany ledger (List.map (markRecord now y (toUpperCase br) d userId)
                  (List.filter (fun e => studentExists students e.studentId) es)) with
                | mk res l1 => cases res <;> rfl

theorem sameButStatus_refl (a : Attendance) : sameButStatus a a :=
  ⟨rfl, rfl, rfl, rfl, rfl, rfl, rfl⟩

theorem sameButStatus_trans {a b c : Attendance} (h1 : sameButStatus a b)
    (h2 : sameButStatus b c) : sameButStatus a c :=
  ⟨h1.1.trans h2.1, h1.2.1.trans h2.2.1, h1.2.2.1.trans h2.2.2.1,
    h1.2.2.2.1.trans h2.2.2.2.1, h1.2.2.2.2.1.trans h2.2.2.2.2.1,
    h1.2.2.2.2.2.1.trans h2.2.2.2.2.2.1, h1.2.2.2.2.2.2.trans h2.2.2.2.2.2.2⟩

theorem forall₂_sameButStatus_refl (l : List Attendance) : List.Forall₂ sameButStatus l l := by
  induction l with
  | nil => exact List.Forall₂.nil
  | cons a t ih => exact List.Forall₂.cons (sameButStatus_refl a) ih

theorem forall₂_sameButStatus_trans : ∀ {l1 l2 l3 : List Attendance},
    List.Forall₂ sameButStatus l1 l2 → List.Forall₂ sameButStatus l2 l3 →
    List.Forall₂ sameButStatus l1 l3 := by
  intro l1 l2 l3 h12
  induction h12 generalizing l3 with
  | nil => intro h; cases h; exact List.Forall₂.nil
  | cons hab _ ih =>
    intro h
    cases h with
    | cons hbc hrest => exact List.Forall₂.cons (sameButStatus_trans hab hbc) (ih hrest)

theorem updateOne_sameButStatus (filter : Attendance → Bool) (status : String)
    (updatedBy : Nat) (now : Int) (l : List Attendance) :
    List.Forall₂ sameButStatus l (updateOne filter (setStatus status updatedBy now) l).2 := by
  induction l with
  | nil => exact List.Forall₂.nil
  | cons r rest ih =>
    unfold updateOne
    split
    · exact List.Forall₂.cons ⟨rfl, rfl, rfl, rfl, rfl, rfl, rfl⟩
        (forall₂_sameButStatus_refl rest)
    · exact List.Forall₂.cons (sameButStatus_refl r) ih

theorem updateEach_sameButStatus (y : Int) (b : String) (d : Int) (user : Nat)
    (clock : Nat → Int) (es : List Entry) :
    ∀ (k : Nat) (l : List Attendance),
      List.Forall₂ sameButStatus l (updateEach y b d user clock k es l).2 := by
  induction es with
  | nil => intro k l; exact forall₂_sameButStatus_refl l
  | cons e es ih =>
    intro k l
    unfold updateEach
    exact forall₂_sameButStatus_trans (updateOne_sameButStatus _ _ _ _ l) (ih (k + 1) _)

theorem updateRoute_sameButStatus (tz : Int) (clock : Nat → Int) (ledger : List Attendance)
    (year branch : String) (date : DateParam) (data : Option (List Entry)) (userId : Nat) :
    List.Forall₂ sameButStatus ledger
      (updateRoute tz clock ledger year branch date data userId).2 := by
  unfold updateRoute
  cases data with
  | none => exact forall₂_sameButStatus_refl ledger
  | some entries =>
    simp only
    split
    · exact forall₂_sameButStatus_refl ledger
    · cases parseIntStr year with
      | none => exact forall₂_sameButStatus_refl ledger
      | some y =>
        cases attendanceDate tz date with
        | none => exact forall₂_sameButStatus_refl ledger
        | some d => exact updateEach_sameButStatus _ _ _ _ _ entries 0 ledger

theorem updateAttendance_sameButStatus (tz : Int) (clock : Nat → Int)
    (ledger : List Attendance) (year : ReqVal) (branch : String) (date : DateParam)
    (data : List Entry) (userId : Nat) :
    List.Forall₂ sameButStatus ledger
      (updateAttendance tz clock ledger year branch date data userId).2 := by
  unfold updateAttendance
  split
  · exact forall₂_sameButStatus_refl ledger
  · cases parseInt year with
    | none => exact forall₂_sameButStatus_refl ledger
    | some y =>
      cases attendanceDate tz date with
      | none => exact forall₂_sameButStatus_refl ledger
      | some d => exact updateEach_sameButStatus _ _ _ _ _ data 0 ledger

theorem onePerStudentDate_of_sameButStatus {l1 l2 : List Attendance}
    (h : List.Forall₂ sameButStatus l1 l2) (h1 : onePerStudentDate l1) :
    onePerStudentDate l2 := by
  unfold onePerStudentDate at h1 ⊢
  induction h with
  | nil => exact List.Pairwise.nil
  | @cons a b t1 t2 hab hrest ih =>
    rw [List.pairwise_cons] at h1 ⊢
    refine ⟨?_, ih h1.2⟩
    intro c hc
    obtain ⟨c0, hc0, hcc⟩ : ∃ c0, c0 ∈ t1 ∧ sameButStatus c0 c := by
      clear ih h1
      induction hrest with
      | nil => simp at hc
      | @cons x y u v hxy _ ih2 =>
        rcases List.mem_cons.1 hc with h | h
        · exact ⟨x, List.mem_cons_self _ _, h ▸ hxy⟩
        · obtain ⟨c0, h0, h1⟩ := ih2 h
          exact ⟨c0, List.mem_cons_of_mem _ h0, h1⟩
    intro hcon
    apply h1.1 c0 hc0
    exact ⟨hab.1.trans (hcon.1.trans hcc.1.symm),
      hab.2.2.2.1.trans (hcon.2.trans hcc.2.2.2.1.symm)⟩

/-- C11: at most one record per (student, date) is an invariant of the ledger operations.
For every ledger with at most one record per (student, date), every student store and
every request (any year, branch, date and entries list, also one that names a student
twice or a student already marked that day under another cohort), the ledger after
POST /attendance/mark and after PUT /attendance/:year/:branch/:date still has at most
one record per (student, date). -/
theorem ledger_one_per_student_date (tz now : Int) (clock : Nat → Int)
    (students : List Student) (ledger : List Attendance) (h : onePerStudentDate ledger) :
    (∀ (body : MarkBody) (userId : Nat),
      onePerStudentDate (markRoute tz now students ledger body userId).2) ∧
    (∀ (year branch : String) (date : DateParam) (data : Option (List Entry)) (userId : Nat),
      onePerStudentDate (updateRoute tz clock ledger year branch date data userId).2) := by
  constructor
  · intro body userId
    rcases markRoute_ledger tz now students ledger body userId with e | ⟨docs, e⟩
    · rw [e]; exact h
    · rw [e]; exact insertMany_onePerStudentDate ledger docs h
  · intro year branch date data userId
    exact onePerStudentDate_of_sameButStatus
      (updateRoute_sameButStatus tz clock ledger year branch date data userId) h

/-- Witness of C11: the student 1 is already marked for the day that starts at 0 in
the cohort of second-year ECE; a mark request for first-year CSE names the student 1
twice. The request fails and the ledger still has one record per (student, date). -/
theorem ledger_one_per_student_date_witness :
    onePerStudentDate
      (markRoute 0 7200000
        [⟨1, "Asha Rao", "1CSE2410", "CSE", 10, "9876543210", "9876543211", 1, 2024, true⟩]
        [⟨1, 2, "ECE", 0, "present", 9, none, none, 3600000, 3600000⟩]
        ⟨some (.num 1), some "CSE", .instant 5000,
          some [⟨1, "present"⟩, ⟨1, "absent"⟩]⟩ 9).2 :=
  (ledger_one_per_student_date 0 7200000 (fun _ => 0)
    [⟨1, "Asha Rao", "1CSE2410", "CSE", 10, "9876543210", "9876543211", 1, 2024, true⟩]
    [⟨1, 2, "ECE", 0, "present", 9, none, none, 3600000, 3600000⟩]
    (List.pairwise_singleton _ _)).1
    ⟨some (.num 1), some "CSE", .instant 5000, some [⟨1, "present"⟩, ⟨1, "absent"⟩]⟩ 9

/-! ## The cohort of a created record -/

/-- C12 (counterexample): the student 1 is in first-year CSE; a mark request for year 2
and branch ECE that names this student succeeds and creates a record with year 2 and
branch ECE, which are not the year and the branch of the student. -/
theorem mark_record_not_student_cohort :
    markRoute 0 7200000
        [⟨1, "Asha Rao", "1CSE2410", "CSE", 10, "9876543210", "9876543211", 1, 2024, true⟩]
        [] ⟨some (.num 2), some "ECE", .instant 5000, some [⟨1, "present"⟩]⟩ 9 =
      (.created [⟨1, 2, "ECE", 0, "present", 9, none, none, 7200000, 7200000⟩],
        [⟨1, 2, "ECE", 0, "present", 9, none, none, 7200000, 7200000⟩]) ∧
    List.find? (fun s => s.id == 1)
        [(⟨1, "Asha Rao", "1CSE2410", "CSE", 10, "9876543210", "9876543211", 1, 2024, true⟩ :
          Student)] =
      some ⟨1, "Asha Rao", "1CSE2410", "CSE", 10, "9876543210", "9876543211", 1, 2024, true⟩ := by
  decide

/-- C12 (amended): every attendance record created by a successful POST /attendance/mark
carries the cohort of the request: its year is parseInt(year) and its branch is
uppercase(branch) of the request, and its student is an existing student. (They are the
year and the branch of that student when the request names the student's cohort.) -/
theorem mark_records_carry_request_cohort (tz now : Int) (students : List Student)
    (ledger ledger1 saved : List Attendance) (body : MarkBody) (userId : Nat)
    (h : markRoute tz now students ledger body userId = (.created saved, ledger1)) :
    ∃ yr br y, body.year = some yr ∧ body.branch = some br ∧ parseInt yr = some y ∧
      ∀ r ∈ saved, r.year = y ∧ r.branch = toUpperCase br ∧
        (∃ s ∈ students, s.id = r.student) ∧
        (∀ s ∈ students, s.id = r.student → (s.year : Int) = y → s.branch = toUpperCase br →
          r.year = s.year ∧ r.branch = s.branch) := by
  obtain ⟨yr, br, es, y, d, e1, e2, _, _, _, hp, _, hs, _⟩ :=
    markRoute_created tz now students ledger ledger1 saved body userId h
  refine ⟨yr, br, y, e1, e2, hp, ?_⟩
  intro r hr
  rw [hs] at hr
  obtain ⟨e, he, hre⟩ := List.mem_map.1 hr
  have hex : studentExists students e.studentId = true := by
    unfold resolvedEntries at he
    exact (List.mem_filter.1 he).2
  have hst : ∃ s ∈ students, s.id = r.student := by
    unfold studentExists at hex
    rw [Option.isSome_iff_exists] at hex
    obtain ⟨s, hs2⟩ := hex
    refine ⟨s, List.mem_of_find?_eq_some hs2, ?_⟩
    have := List.find?_some hs2
    rw [← hre]
    simpa [markRecord] using this
  rw [← hre] at hst ⊢
  refine ⟨rfl, rfl, hst, ?_⟩
  intro s _ _ hy hb
  exact ⟨hy.symm, hb.symm⟩

/-- Witness of C12 (amended): a mark request for first-year CSE that names the student
1. -/
theorem mark_records_carry_request_cohort_witness :
    ∃ yr br y, (some (ReqVal.num 1)) = some yr ∧ (some "cse") = some br ∧
      parseInt yr = some y ∧
      ∀ r ∈ [(⟨1, 1, "CSE", 0, "present", 9, none, none, 7200000, 7200000⟩ : Attendance)],
        r.year = y ∧ r.branch = toUpperCase br ∧
        (∃ s ∈ [(⟨1, "Asha Rao", "1CSE2410", "CSE", 10, "9876543210", "9876543211", 1, 2024,
          true⟩ : Student)], s.id = r.student) ∧
        (∀ s ∈ [(⟨1, "Asha Rao", "1CSE2410", "CSE", 10, "9876543210", "9876543211", 1, 2024,
          true⟩ : Student)], s.id = r.student → (s.year : Int) = y →
          s.branch = toUpperCase br → r.year = s.year ∧ r.branch = s.branch) :=
  mark_records_carry_request_cohort 0 7200000
    [⟨1, "Asha Rao", "1CSE2410", "CSE", 10, "9876543210", "9876543211", 1, 2024, true⟩]
    [] [⟨1, 1, "CSE", 0, "present", 9, none, none, 7200000, 7200000⟩]
    [⟨1, 1, "CSE", 0, "present", 9, none, none, 7200000, 7200000⟩]
    ⟨some (.num 1), some "cse", .instant 5000, some [⟨1, "present"⟩]⟩ 9 (by decide)

/-! ## The update never creates or deletes a record -/

theorem updateOne_no_match (filter : Attendance → Bool) (update : Attendance → Attendance)
    (l : List Attendance) (h : ∀ r ∈ l, filter r = false) :
    updateOne filter update l = (0, l) := by
  induction l with
  | nil => rfl
  | cons r rest ih =>
    unfold updateOne
    have hr := h r (List.mem_cons_self _ _)
    simp only [hr, Bool.false_eq_true, if_false]
    rw [ih (fun x hx => h x (List.mem_cons_of_mem _ hx))]

/-- C13: the update operation never creates or deletes a record. For every ledger, every
(year, branch, date), entries list and actor, the ledger after
PUT /attendance/:year/:branch/:date and after `Attendance.updateAttendance` has the
same records in the same places, each with unchanged student, year, branch, date and
markedBy (and notes and creation time): only status, updatedBy and the update
timestamp can differ. An entry for which no record with its (studentId, year, branch,
date) exists changes nothing: its `updateOne` modifies no document and returns the
ledger as it was. -/
theorem update_never_creates_or_deletes (tz : Int) (clock : Nat → Int)
    (ledger : List Attendance) :
    (∀ (year branch : String) (date : DateParam) (data : Option (List Entry)) (userId : Nat),
      List.Forall₂ sameButStatus ledger
          (updateRoute tz clock ledger year branch date data userId).2 ∧
        (updateRoute tz clock ledger year branch date data userId).2.length = ledger.length) ∧
    (∀ (year : ReqVal) (branch : String) (date : DateParam) (data : List Entry) (userId : Nat),
      List.Forall₂ sameButStatus ledger
          (updateAttendance tz clock ledger year branch date data userId).2 ∧
        (updateAttendance tz clock ledger year branch date data userId).2.length =
          ledger.length) ∧
    (∀ (e : Entry) (y : Int) (b : String) (d : Int) (userId : Nat) (now : Int),
      (∀ r ∈ ledger, ¬ (r.student = e.studentId ∧ r.year = y ∧ r.branch = b ∧ r.date = d)) →
      updateOne (sameRecord e.studentId y b d) (setStatus e.status userId now) ledger =
        (0, ledger)) := by
  refine ⟨?_, ?_, ?_⟩
  · intro year branch date data userId
    have h := updateRoute_sameButStatus tz clock ledger year branch date data userId
    exact ⟨h, h.length_eq.symm⟩
  · intro year branch date data userId
    have h := updateAttendance_sameButStatus tz clock ledger year branch date data userId
    exact ⟨h, h.length_eq.symm⟩
  · intro e y b d userId now hno
    apply updateOne_no_match
    intro r hr
    have := hno r hr
    simp only [sameRecord]
    by_contra hcon
    simp only [Bool.not_eq_false, Bool.and_eq_true, beq_iff_eq] at hcon
    exact this ⟨hcon.1.1.1, hcon.1.1.2, hcon.1.2, hcon.2⟩

/-! ## The count of the update -/

theorem changedRecords_self (l : List Attendance) : changedRecords l l = 0 := by
  induction l with
  | nil => rfl
  | cons a t ih => simp [changedRecords, ih]

theorem updateOne_changed (sid : Nat) (y : Int) (b : String) (d : Int) (status : String)
    (user : Nat) (now : Int) (l : List Attendance) :
    (updateOne (sameRecord sid y b d) (setStatus status user now) l).1 =
        changedRecords l (updateOne (sameRecord sid y b d) (setStatus status user now) l).2 ∧
      List.Forall₂ (touchedOnly (fun s => s = sid)) l
        (updateOne (sameRecord sid y b d) (setStatus status user now) l).2 ∧
      (updateOne (sameRecord sid y b d) (setStatus status user now) l).1 ≤ 1 := by
  induction l with
  | nil => exact ⟨rfl, List.Forall₂.nil, by simp [updateOne]⟩
  | cons r rest ih =>
    unfold updateOne
    by_cases hf : sameRecord sid y b d r = true
    · simp only [hf, if_true, changedRecords, changedRecords_self, Nat.add_zero]
      refine ⟨?_, ?_, ?_⟩
      · by_cases he : setStatus status user now r = r
        · simp [he]
        · have he2 : ¬ r = setStatus status user now r := fun h => he h.symm
          simp [he, he2]
      · refine List.Forall₂.cons (Or.inr ⟨?_, rfl⟩) ?_
        · simp only [sameRecord, Bool.and_eq_true, beq_iff_eq] at hf
          exact hf.1.1.1
        · clear ih
          induction rest with
          | nil => exact List.Forall₂.nil
          | cons a t ih2 => exact List.Forall₂.cons (Or.inl rfl) ih2
      · split <;> omega
    · simp only [hf, Bool.false_eq_true, if_false, changedRecords, if_true, Nat.zero_add]
      exact ⟨ih.1, List.Forall₂.cons (Or.inl rfl) ih.2.1, ih.2.2⟩

theorem changedRecords_compose (sid : Nat) (S : Nat → Prop) (hS : ¬ S sid) :
    ∀ (l0 l1 l2 : List Attendance),
      List.Forall₂ (touchedOnly (fun s => s = sid)) l0 l1 →
      List.Forall₂ (touchedOnly S) l1 l2 →
      changedRecords l0 l2 = changedRecords l0 l1 + changedRecords l1 l2 ∧
        List.Forall₂ (touchedOnly (fun s => s = sid ∨ S s)) l0 l2 := by
  intro l0 l1 l2 h01
  induction h01 generalizing l2 with
  | nil => intro h; cases h; exact ⟨rfl, List.Forall₂.nil⟩
  | @cons a b t0 t1 hab _ ih =>
    intro h
    cases h with
    | @cons _ c _ t2 hbc hrest =>
      obtain ⟨ih1, ih2⟩ := ih t2 hrest
      simp only [changedRecords]
      rcases hab with hab | ⟨ha, hba⟩
      · subst hab
        refine ⟨by simp [ih1]; omega, List.Forall₂.cons ?_ ih2⟩
        rcases hbc with hbc | ⟨hb, hcb⟩
        · exact Or.inl hbc
        · exact Or.inr ⟨Or.inr hb, hcb⟩
      · have hbc2 : b = c := by
          rcases hbc with hbc | ⟨hb, _⟩
          · exact hbc
          · exfalso; apply hS; rw [← ha, ← hba]; exact hb
        subst hbc2
        refine ⟨by simp [ih1]; omega, List.Forall₂.cons (Or.inr ⟨Or.inl ha, hba⟩) ih2⟩

theorem updateEach_changed (y : Int) (b : String) (d : Int) (user : Nat) (clock : Nat → Int)
    (es : List Entry) :
    ∀ (k : Nat) (l : List Attendance), (es.map (fun e => e.studentId)).Nodup →
      (updateEach y b d user clock k es l).1.sum =
          changedRecords l (updateEach y b d user clock k es l).2 ∧
        List.Forall₂ (touchedOnly (fun s => s ∈ es.map (fun e => e.studentId))) l
          (updateEach y b d user clock k es l).2 ∧
        (∀ m ∈ (updateEach y b d user clock k es l).1, m ≤ 1) := by
  induction es with
  | nil =>
    intro k l _
    refine ⟨by simp [updateEach, changedRecords_self], ?_, by simp [updateEach]⟩
    simp only [updateEach]
    clear k
    induction l with
    | nil => exact List.Forall₂.nil
    | cons a t ih => exact List.Forall₂.cons (Or.inl rfl) ih
  | cons e es ih =>
    intro k l hnd
    rw [List.map_cons, List.nodup_cons] at hnd
    obtain ⟨h1, h2, h3⟩ := updateOne_changed e.studentId y b d e.status user (clock k) l
    obtain ⟨i1, i2, i3⟩ := ih (k + 1)
      (updateOne (sameRecord e.studentId y b d) (setStatus e.status user (clock k)) l).2 hnd.2
    obtain ⟨c1, c2⟩ := changedRecords_compose e.studentId
      (fun s => s ∈ es.map (fun e => e.studentId)) hnd.1 _ _ _ h2 i2
    unfold updateEach
    simp only [List.sum_cons, List.map_cons, List.mem_cons]
    refine ⟨by rw [c1, h1, i1], c2, ?_⟩
    intro m hm
    rcases hm with hm | hm
    · rw [hm]; exact h3
    · exact i3 m hm

theorem countP_pos_eq_sum (ms : List Nat) (h : ∀ m ∈ ms, m ≤ 1) :
    ms.countP (fun m => decide (m > 0)) = ms.sum := by
  induction ms with
  | nil => rfl
  | cons m t ih =>
    have hm := h m (List.mem_cons_self _ _)
    rw [List.countP_cons, List.sum_cons, ih (fun x hx => h x (List.mem_cons_of_mem _ hx))]
    have : m = 0 ∨ m = 1 := by omega
    rcases this with h0 | h1
    · subst h0; simp
    · subst h1; simp; omega

/-- C14 (counterexample): the ledger holds one record, of the student 1 with status
`absent`; the update names the student 1 twice, first with `present`, then with
`absent`. One record of the ledger is modified, and the count returned by the route and
by the model method is 2. -/
theorem update_count_counts_entries :
    updateRoute 0 (fun k => 7200000 + k)
        [⟨1, 1, "CSE", 0, "absent", 9, none, none, 3600000, 3600000⟩]
        "1" "CSE" (.instant 5000) (some [⟨1, "present"⟩, ⟨1, "absent"⟩]) 8 =
      (.ok 2, [⟨1, 1, "CSE", 0, "absent", 9, some 8, none, 3600000, 7200001⟩]) ∧
    updateAttendance 0 (fun k => 7200000 + k)
        [⟨1, 1, "CSE", 0, "absent", 9, none, none, 3600000, 3600000⟩]
        (.num 1) "CSE" (.instant 5000) [⟨1, "present"⟩, ⟨1, "absent"⟩] 8 =
      (.ok 2, [⟨1, 1, "CSE", 0, "absent", 9, some 8, none, 3600000, 7200001⟩]) ∧
    changedRecords [⟨1, 1, "CSE", 0, "absent", 9, none, none, 3600000, 3600000⟩]
      [⟨1, 1, "CSE", 0, "absent", 9, some 8, none, 3600000, 7200001⟩] = 1 :=
  ⟨by decide, rfl, by decide⟩

/-- C14 (amended): for every ledger and every entries list that names pairwise different
students, the count returned by the update operation (`updatedCount` of
PUT /attendance/:year/:branch/:date, and the result of `Attendance.updateAttendance`)
equals the number of ledger records that the call modified. (In general the count is
the number of entries whose update modified a record, so a student named twice can be
counted twice.) -/
theorem update_count_distinct_students (tz : Int) (clock : Nat → Int)
    (ledger : List Attendance) (entries : List Entry) (userId : Nat)
    (hd : (entries.map (fun e => e.studentId)).Nodup) :
    (∀ (year branch : String) (date : DateParam) (n : Nat) (ledger1 : List Attendance),
      updateRoute tz clock ledger year branch date (some entries) userId = (.ok n, ledger1) →
      n = changedRecords ledger ledger1) ∧
    (∀ (year : ReqVal) (branch : String) (date : DateParam) (n : Nat)
      (ledger1 : List Attendance),
      updateAttendance tz clock ledger year branch date entries userId = (.ok n, ledger1) →
      n = changedRecords ledger ledger1) := by
  constructor
  · intro year branch date n ledger1 h
    unfold updateRoute at h
    simp only at h
    split at h
    · simp only [Prod.mk.injEq, UpdateResp.ok.injEq] at h
      rw [← h.1, ← h.2, changedRecords_self]
    · cases hp : parseIntStr year with
      | none => simp [hp] at h
      | some y =>
        cases hdt : attendanceDate tz date with
        | none => simp [hp, hdt] at h
        | some d =>
          simp only [hp, hdt, Prod.mk.injEq, UpdateResp.ok.injEq] at h
          obtain ⟨e1, e2, e3⟩ := updateEach_changed y (toUpperCase branch) d userId clock
            entries 0 ledger hd
          rw [← h.1, ← h.2, countP_pos_eq_sum _ e3, e1]
  · intro year branch date n ledger1 h
    unfold updateAttendance at h
    split at h
    · simp only [Prod.mk.injEq, Except.ok.injEq] at h
      rw [← h.1, ← h.2, changedRecords_self]
    · cases hp : parseInt year with
      | none => simp [hp] at h
      | some y =>
        cases hdt : attendanceDate tz date with
        | none => simp [hp, hdt] at h
        | some d =>
          simp only [hp, hdt, Prod.mk.injEq, Except.ok.injEq] at h
          obtain ⟨e1, _, _⟩ := updateEach_changed y (toUpperCase branch) d userId clock
            entries 0 ledger hd
          rw [← h.1, ← h.2, e1]

/-- Witness of C14 (amended): an update that names the students 1 and 2 once each; the
record of the student 1 is modified and the student 2 has no record. -/
theorem update_count_distinct_students_witness :
    (1 : Nat) = changedRecords
      [⟨1, 1, "CSE", 0, "absent", 9, none, none, 3600000, 3600000⟩]
      [⟨1, 1, "CSE", 0, "present", 9, some 8, none, 3600000, 7200000⟩] :=
  (update_count_distinct_students 0 (fun k => 7200000 + k)
    [⟨1, 1, "CSE", 0, "absent", 9, none, none, 3600000, 3600000⟩]
    [⟨1, "present"⟩, ⟨2, "present"⟩] 8 (by decide)).1 "1" "cse" (.instant 5000) 1
    [⟨1, 1, "CSE", 0, "present", 9, some 8, none, 3600000, 7200000⟩] (by decide)

/-! ## Mark, update, history -/

theorem populate_map_fst (students : List Student) (rs : List Attendance) :
    (populate students rs).map Prod.fst = rs := by
  simp [populate, List.map_map, Function.comp_def]

theorem filter_updateOne_other (p q : Attendance → Bool) (f : Attendance → Attendance)
    (h : ∀ r, p r = true → q r = false ∧ q (f r) = false) (l : List Attendance) :
    (updateOne p f l).2.filter q = l.filter q := by
  induction l with
  | nil => rfl
  | cons a t ih =>
    unfold updateOne
    by_cases hp : p a = true
    · obtain ⟨h1, h2⟩ := h a hp
      simp [hp, List.filter_cons, h1, h2]
    · simp only [hp, Bool.false_eq_true, if_false, List.filter_cons, ih]

theorem filter_updateOne_same (p q : Attendance → Bool) (f : Attendance → Attendance)
    (hpq : ∀ r, p r = true → q r = true) (hq : ∀ r, q (f r) = q r) (r0 : Attendance)
    (hp0 : p r0 = true) (l : List Attendance) (hl : l.filter q = [r0]) :
    (updateOne p f l).2.filter q = [f r0] := by
  induction l with
  | nil => simp at hl
  | cons a t ih =>
    unfold updateOne
    by_cases hp : p a = true
    · have hqa := hpq a hp
      rw [List.filter_cons, if_pos hqa] at hl
      simp only [List.cons.injEq] at hl
      obtain ⟨ha, ht⟩ := hl
      subst ha
      simp only [hp, if_true, List.filter_cons, hq, hqa, ht]
    · simp only [hp, Bool.false_eq_true, if_false]
      by_cases hqa : q a = true
      · rw [List.filter_cons, if_pos hqa] at hl
        simp only [List.cons.injEq] at hl
        rw [hl.1] at hp
        exact absurd hp0 hp
      · rw [List.filter_cons, if_neg hqa] at hl
        rw [List.filter_cons, if_neg hqa]
        exact ih hl

theorem updateEach_status (sid : Nat) (y : Int) (b : String) (d : Int) (user : Nat)
    (clock : Nat → Int) (es : List Entry) :
    ∀ (k : Nat) (l : List Attendance) (r : Attendance),
      l.filter (fun x => x.student == sid && x.date == d) = [r] →
      sameRecord sid y b d r = true →
      ∃ r1, (updateEach y b d user clock k es l).2.filter
            (fun x => x.student == sid && x.date == d) = [r1] ∧
        sameRecord sid y b d r1 = true ∧
        r1.status = es.foldl (fun st e => if e.studentId = sid then e.status else st)
          r.status := by
  induction es with
  | nil => intro k l r hl hr; exact ⟨r, hl, hr, rfl⟩
  | cons e es ih =>
    intro k l r hl hr
    unfold updateEach
    simp only [List.foldl_cons]
    by_cases he : e.studentId = sid
    · have h1 := filter_updateOne_same (sameRecord e.studentId y b d)
        (fun x => x.student == sid && x.date == d) (setStatus e.status user (clock k))
        (by
          intro x hx
          simp only [sameRecord, Bool.and_eq_true, beq_iff_eq] at hx
          simp [hx.1.1.1, hx.2, he])
        (by intro x; rfl) r (by rw [he]; exact hr) l hl
      obtain ⟨r1, g1, g2, g3⟩ := ih (k + 1) _ (setStatus e.status user (clock k) r) h1
        (by simpa [sameRecord, setStatus] using hr)
      refine ⟨r1, g1, g2, ?_⟩
      rw [g3]
      simp [he, setStatus]
    · have h1 := filter_updateOne_other (sameRecord e.studentId y b d)
        (fun x => x.student == sid && x.date == d) (setStatus e.status user (clock k))
        (by
          intro x hx
          simp only [sameRecord, Bool.and_eq_true, beq_iff_eq] at hx
          have hne : ¬ x.student = sid := by rw [hx.1.1.1]; exact he
          simp [setStatus, hne]) l
      obtain ⟨r1, g1, g2, g3⟩ := ih (k + 1)
        (updateOne (sameRecord e.studentId y b d) (setStatus e.status user (clock k)) l).2 r
        (by rw [h1]; exact hl) hr
      refine ⟨r1, g1, g2, ?_⟩
      rw [g3]
      simp [he]

theorem foldl_last_status (sid : Nat) (st : String) (pre post : List Entry) (s0 : String)
    (hpost : ∀ e ∈ post, e.studentId ≠ sid) :
    (pre ++ ⟨sid, st⟩ :: post).foldl
      (fun acc e => if e.studentId = sid then e.status else acc) s0 = st := by
  rw [List.foldl_append, List.foldl_cons]
  simp only [if_true]
  induction post with
  | nil => rfl
  | cons e t ih =>
    rw [List.foldl_cons]
    have := hpost e (List.mem_cons_self _ _)
    simp only [this, if_false]
    exact ih (fun x hx => hpost x (List.mem_cons_of_mem _ hx))

theorem updateRoute_ledger (tz : Int) (clock : Nat → Int) (ledger : List Attendance)
    (year branch : String) (date : DateParam) (entries : List Entry) (userId : Nat)
    (y d : Int) (hy : parseIntStr year = some y) (hd : attendanceDate tz date = some d) :
    (updateRoute tz clock ledger year branch date (some entries) userId).2 =
      (updateEach y (toUpperCase branch) d userId clock 0 entries ledger).2 := by
  unfold updateRoute
  simp only [hy, hd]
  split
  · rename_i he
    have : entries = [] := by simpa using he
    subst this
    rfl
  · rfl

/-- C15 (counterexample): the student 1 is marked `absent`; the update for the same
cohort and day has the entries (1, `present`) and then (1, `absent`), so it contains
(1, `present`); the history of the student 1 has one record for the day, and its
status is `absent`. -/
theorem history_after_update_last_entry_wins :
    (markRoute 0 7200000
        [⟨1, "Asha Rao", "1CSE2410", "CSE", 10, "9876543210", "9876543211", 1, 2024, true⟩]
        [] ⟨some (.num 1), some "CSE", .instant 5000, some [⟨1, "absent"⟩]⟩ 9).1 =
      .created [⟨1, 1, "CSE", 0, "absent", 9, none, none, 7200000, 7200000⟩] ∧
    ((historyRoute
        [⟨1, "Asha Rao", "1CSE2410", "CSE", 10, "9876543210", "9876543211", 1, 2024, true⟩]
        (updateRoute 0 (fun k => 7300000 + k)
          (markRoute 0 7200000
            [⟨1, "Asha Rao", "1CSE2410", "CSE", 10, "9876543210", "9876543211", 1, 2024, true⟩]
            [] ⟨some (.num 1), some "CSE", .instant 5000, some [⟨1, "absent"⟩]⟩ 9).2
          "1" "CSE" (.instant 5000) (some [⟨1, "present"⟩, ⟨1, "absent"⟩]) 8).2
        1 none none).data.map Prod.fst) =
      [⟨1, 1, "CSE", 0, "absent", 9, some 8, none, 7200000, 7300001⟩] := by
  decide

/-- C15 (amended): let s be an existing student with no prior record on the date, and let
a mark request whose entries name s once, with status `absent`, succeed. After an
update for the same (year, branch, date) in which the last entry that names s is
(s, `present`), the history of s (GET /attendance/student/:studentId) contains exactly
one record for that date and its status is `present`. -/
theorem history_after_mark_and_update (tz now : Int) (clock : Nat → Int)
    (students students2 : List Student) (ledger ledger1 saved : List Attendance)
    (sid : Nat) (yr : ReqVal) (br : String) (date1 date2 : DateParam) (es : List Entry)
    (user1 user2 : Nat) (year2 branch2 : String) (pre post : List Entry) (y d : Int)
    (hs : ∃ st ∈ students, st.id = sid)
    (hprior : ∀ r ∈ ledger, ¬ (r.student = sid ∧ r.date = d))
    (hes : es.filter (fun e => e.studentId == sid) = [⟨sid, "absent"⟩])
    (hy : parseInt yr = some y) (hd : attendanceDate tz date1 = some d)
    (hmark : markRoute tz now students ledger ⟨some yr, some br, date1, some es⟩ user1 =
      (.created saved, ledger1))
    (hy2 : parseIntStr year2 = some y) (hb2 : toUpperCase branch2 = toUpperCase br)
    (hd2 : attendanceDate tz date2 = some d)
    (hpost : ∀ e ∈ post, e.studentId ≠ sid) :
    ∃ r, ((historyRoute students2
          (updateRoute tz clock ledger1 year2 branch2 date2
            (some (pre ++ ⟨sid, "present"⟩ :: post)) user2).2
          sid none none).data.map Prod.fst).filter (fun x => x.date == d) = [r] ∧
      r.status = "present" := by
  obtain ⟨yr1, br1, es1, y1, d1, e1, e2, e3, _, _, hp, hdt, hsaved, hl1⟩ :=
    markRoute_created tz now students ledger ledger1 saved _ user1 hmark
  simp only [Option.some.injEq] at e1 e2 e3
  subst e1 e2 e3
  simp only at hdt
  rw [hy] at hp
  rw [hd] at hdt
  simp only [Option.some.injEq] at hp hdt
  subst hp hdt
  -- the ledger after the mark has exactly one record of the student on the day
  have hexists : studentExists students sid = true := by
    obtain ⟨st, hst, hid⟩ := hs
    unfold studentExists
    cases hf : students.find? (fun s => s.id == sid) with
    | some x => rfl
    | none =>
      rw [List.find?_eq_none] at hf
      have := hf st hst
      simp [hid] at this
  have hres : (resolvedEntries students es).filter (fun e => e.studentId == sid) =
      [⟨sid, "absent"⟩] := by
    unfold resolvedEntries
    rw [List.filter_filter]
    rw [← hes]
    apply List.filter_congr
    intro e _
    by_cases he : e.studentId = sid
    · simp [he, hexists]
    · simp [he]
  have hq0 : ledger.filter (fun x => x.student == sid && x.date == d) = [] := by
    rw [List.filter_eq_nil_iff]
    intro r hr
    have := hprior r hr
    simpa using this
  have hq1 : ledger1.filter (fun x => x.student == sid && x.date == d) =
      [markRecord now y (toUpperCase br) d user1 ⟨sid, "absent"⟩] := by
    rw [hl1, List.filter_append, hq0, List.nil_append, hsaved, List.filter_map]
    have hc : List.filter ((fun x => x.student == sid && x.date == d) ∘
        markRecord now y (toUpperCase br) d user1) (resolvedEntries students es) =
        List.filter (fun e => e.studentId == sid) (resolvedEntries students es) := by
      apply List.filter_congr
      intro e _
      simp [markRecord]
    rw [hc, hres]
    rfl
  have hr0 : sameRecord sid y (toUpperCase br) d
      (markRecord now y (toUpperCase br) d user1 ⟨sid, "absent"⟩) = true := by
    simp [sameRecord, markRecord]
  obtain ⟨r1, g1, _, g3⟩ := updateEach_status sid y (toUpperCase br) d user2 clock
    (pre ++ ⟨sid, "present"⟩ :: post) 0 ledger1 _ hq1 hr0
  rw [foldl_last_status sid "present" pre post _ hpost] at g3
  refine ⟨r1, ?_, g3⟩
  rw [updateRoute_ledger tz clock ledger1 year2 branch2 date2 _ user2 y d hy2 hd2, hb2]
  unfold historyRoute getStudentHistory
  simp only [populate_map_fst]
  have hperm : List.Perm ((sortByDateDesc (List.filter (fun r => r.student == sid &&
      inDateRange none none r)
      (updateEach y (toUpperCase br) d user2 clock 0 (pre ++ ⟨sid, "present"⟩ :: post)
        ledger1).2)).filter (fun x => x.date == d)) [r1] := by
    rw [← g1]
    unfold sortByDateDesc
    refine ((List.perm_insertionSort _ _).filter _).trans ?_
    rw [List.filter_filter]
    apply List.Perm.of_eq
    apply List.filter_congr
    intro x _
    simp [inDateRange, Bool.and_comm]
  exact List.perm_singleton.1 hperm

/-- Witness of C15 (amended): the student 1 is marked `absent` in first-year CSE; the
update names the student 1 twice and ends with (1, `present`). -/
theorem history_after_mark_and_update_witness :
    ∃ r, ((historyRoute []
          (updateRoute 0 (fun k => 7300000 + k)
            [⟨1, 1, "CSE", 0, "absent", 9, none, none, 7200000, 7200000⟩]
            "1" "cse" (.instant 6000)
            (some ([⟨1, "absent"⟩] ++ ⟨1, "present"⟩ :: [⟨2, "absent"⟩])) 8).2
          1 none none).data.map Prod.fst).filter (fun x => x.date == 0) = [r] ∧
      r.status = "present" :=
  history_after_mark_and_update 0 7200000 (fun k => 7300000 + k)
    [⟨1, "Asha Rao", "1CSE2410", "CSE", 10, "9876543210", "9876543211", 1, 2024, true⟩] []
    [] [⟨1, 1, "CSE", 0, "absent", 9, none, none, 7200000, 7200000⟩]
    [⟨1, 1, "CSE", 0, "absent", 9, none, none, 7200000, 7200000⟩]
    1 (.num 1) "CSE" (.instant 5000) (.instant 6000) [⟨1, "absent"⟩] 9 8 "1" "cse"
    [⟨1, "absent"⟩] [⟨2, "absent"⟩] 1 0
    ⟨_, List.mem_singleton.2 rfl, rfl⟩ (by simp) (by decide) (by decide) (by decide)
    (by decide) (by decide) (by decide) (by decide) (by decide)

/-! ## Statistics -/

theorem groupByDate_ids (gs : List ((Int × String) × Nat)) :
    (groupByDate gs).map (fun row => row._id) = (gs.map (fun g => g.1.1)).dedup := by
  unfold groupByDate
  rw [List.map_map]
  exact List.map_id _

theorem groupByDateStatus_dates (rs : List Attendance) (d : Int) :
    d ∈ (groupByDateStatus rs).map (fun g => g.1.1) ↔ ∃ r ∈ rs, r.date = d := by
  unfold groupByDateStatus
  simp only [List.map_map, List.mem_map, List.mem_dedup, Function.comp_apply]
  constructor
  · rintro ⟨k, ⟨r, hr, hk⟩, hd⟩
    exact ⟨r, hr, by rw [← hd, ← hk]⟩
  · rintro ⟨r, hr, hd⟩
    exact ⟨(r.date, r.status), ⟨r, hr, rfl⟩, hd⟩

theorem pipeline_perm (ledger : List Attendance) (year : Option Int) (branch : String)
    (sd ed : Option Int) :
    List.Perm (statisticsPipeline ledger year branch sd ed)
      (groupByDate (groupByDateStatus (matchingRecords ledger year branch sd ed))) :=
  List.perm_insertionSort _ _

theorem pipeline_ids_mem (ledger : List Attendance) (year : Option Int) (branch : String)
    (sd ed : Option Int) (d : Int) :
    d ∈ (statisticsPipeline ledger year branch sd ed).map (fun row => row._id) ↔
      ∃ r ∈ matchingRecords ledger year branch sd ed, r.date = d := by
  rw [((pipeline_perm ledger year branch sd ed).map _).mem_iff, groupByDate_ids,
    List.mem_dedup, groupByDateStatus_dates]

theorem pipeline_ids_nodup (ledger : List Attendance) (year : Option Int) (branch : String)
    (sd ed : Option Int) :
    ((statisticsPipeline ledger year branch sd ed).map (fun row => row._id)).Nodup := by
  rw [((pipeline_perm ledger year branch sd ed).map _).nodup_iff, groupByDate_ids]
  exact List.nodup_dedup _

theorem pipeline_ids_sorted (ledger : List Attendance) (year : Option Int) (branch : String)
    (sd ed : Option Int) :
    ((statisticsPipeline ledger year branch sd ed).map (fun row => row._id)).Sorted
      (fun a b => a > b) := by
  have hs : (statisticsPipeline ledger year branch sd ed).Sorted
      (fun a b => b._id ≤ a._id) := by
    haveI : IsTotal StatRow (fun a b => b._id ≤ a._id) := ⟨fun a b => le_total _ _⟩
    haveI : IsTrans StatRow (fun a b => b._id ≤ a._id) :=
      ⟨fun a b c hab hbc => le_trans hbc hab⟩
    exact List.sorted_insertionSort _ _
  have hge : ((statisticsPipeline ledger year branch sd ed).map (fun row => row._id)).Sorted
      (fun a b => a ≥ b) := by
    unfold List.Sorted at hs ⊢
    rw [List.pairwise_map]
    exact hs
  exact hge.gt_of_ge (pipeline_ids_nodup ledger year branch sd ed)

theorem pipeline_two_dates (ledger : List Attendance) (year : Option Int) (branch : String)
    (sd ed : Option Int) (d1 d2 : Int) (hne : d1 ≠ d2)
    (h1 : ∃ r ∈ matchingRecords ledger year branch sd ed, r.date = d1)
    (h2 : ∃ r ∈ matchingRecords ledger year branch sd ed, r.date = d2)
    (hall : ∀ r ∈ matchingRecords ledger year branch sd ed, r.date = d1 ∨ r.date = d2) :
    (statisticsPipeline ledger year branch sd ed).length = 2 := by
  have hp : List.Perm ((statisticsPipeline ledger year branch sd ed).map (fun row => row._id))
      [d1, d2] := by
    rw [List.perm_ext_iff_of_nodup (pipeline_ids_nodup ledger year branch sd ed)
      (by simp [hne])]
    intro d
    rw [pipeline_ids_mem]
    simp only [List.mem_cons, List.mem_singleton, List.not_mem_nil, or_false]
    constructor
    · rintro ⟨r, hr, hd⟩
      rcases hall r hr with h | h
      · exact Or.inl (hd ▸ h)
      · exact Or.inr (hd ▸ h)
    · rintro (h | h)
      · rw [h]; exact h1
      · rw [h]; exact h2
  have := hp.length_eq
  simpa using this

/-- C16: for every ledger, year and branch and every optional date range, the statistics
query (GET /attendance/statistics/:year/:branch, and `Attendance.getStatistics`) returns
rows whose dates are exactly the dates that occur among the records with that year
and uppercased branch (within the range); the rows are in strictly decreasing order
of date (newest first), so there is exactly one row per distinct date; and for records
on two distinct dates it returns exactly two rows. -/
theorem statistics_one_row_per_date (ledger : List Attendance) (branch : String)
    (startDate endDate : Option Int) :
    (∀ (year : String),
      ((statisticsRoute ledger year branch startDate endDate).map (fun row => row._id)).Sorted
          (fun a b => a > b) ∧
        (∀ d, d ∈ (statisticsRoute ledger year branch startDate endDate).map
            (fun row => row._id) ↔
          ∃ r ∈ matchingRecords ledger (parseIntStr year) (toUpperCase branch) startDate
            endDate, r.date = d) ∧
        (∀ d1 d2, d1 ≠ d2 →
          (∃ r ∈ matchingRecords ledger (parseIntStr year) (toUpperCase branch) startDate
            endDate, r.date = d1) →
          (∃ r ∈ matchingRecords ledger (parseIntStr year) (toUpperCase branch) startDate
            endDate, r.date = d2) →
          (∀ r ∈ matchingRecords ledger (parseIntStr year) (toUpperCase branch) startDate
            endDate, r.date = d1 ∨ r.date = d2) →
          (statisticsRoute ledger year branch startDate endDate).length = 2)) ∧
    (∀ (year : ReqVal),
      ((getStatistics ledger year branch startDate endDate).map (fun row => row._id)).Sorted
          (fun a b => a > b) ∧
        (∀ d, d ∈ (getStatistics ledger year branch startDate endDate).map
            (fun row => row._id) ↔
          ∃ r ∈ matchingRecords ledger (parseInt year) (toUpperCase branch) startDate
            endDate, r.date = d) ∧
        (∀ d1 d2, d1 ≠ d2 →
          (∃ r ∈ matchingRecords ledger (parseInt year) (toUpperCase branch) startDate
            endDate, r.date = d1) →
          (∃ r ∈ matchingRecords ledger (parseInt year) (toUpperCase branch) startDate
            endDate, r.date = d2) →
          (∀ r ∈ matchingRecords ledger (parseInt year) (toUpperCase branch) startDate
            endDate, r.date = d1 ∨ r.date = d2) →
          (getStatistics ledger year branch startDate endDate).length = 2)) := by
  constructor
  · intro year
    exact ⟨pipeline_ids_sorted _ _ _ _ _, pipeline_ids_mem _ _ _ _ _,
      fun d1 d2 hne h1 h2 hall => pipeline_two_dates _ _ _ _ _ d1 d2 hne h1 h2 hall⟩
  · intro year
    exact ⟨pipeline_ids_sorted _ _ _ _ _, pipeline_ids_mem _ _ _ _ _,
      fun d1 d2 hne h1 h2 hall => pipeline_two_dates _ _ _ _ _ d1 d2 hne h1 h2 hall⟩

theorem groupByDateStatus_filter (rs : List Attendance) (d : Int) :
    (groupByDateStatus rs).filter (fun g => g.1.1 == d) =
      (((rs.map (fun r => (r.date, r.status))).dedup).filter (fun k => k.1 == d)).map
        (fun k => (k, rs.countP (fun r => (r.date, r.status) = k))) := by
  unfold groupByDateStatus
  rw [List.filter_map]
  rfl

theorem countP_key_eq_count (rs : List Attendance) (k : Int × String) :
    rs.countP (fun r => decide ((r.date, r.status) = k)) =
      @List.count (Int × String) instBEqOfDecidableEq k
        (rs.map (fun r => (r.date, r.status))) := by
  show _ = List.countP (fun x => @BEq.beq (Int × String) instBEqOfDecidableEq x k)
    (rs.map (fun r => (r.date, r.status)))
  rw [List.countP_map]
  apply List.countP_congr
  intro r _
  simp only [decide_eq_true_eq, Function.comp_apply]
  exact ⟨fun h => decide_eq_true h, fun h => of_decide_eq_true h⟩

theorem group_total (rs : List Attendance) (d : Int) :
    (((groupByDateStatus rs).filter (fun g => g.1.1 == d)).map (fun g => g.2)).sum =
      rs.countP (fun r => r.date == d) := by
  rw [groupByDateStatus_filter, List.map_map]
  have h1 : ((fun g : (Int × String) × Nat => g.2) ∘
      fun k => (k, rs.countP (fun r => decide ((r.date, r.status) = k)))) =
      fun k => @List.count (Int × String) instBEqOfDecidableEq k
        (rs.map (fun r => (r.date, r.status))) := by
    funext k
    exact countP_key_eq_count rs k
  rw [h1, List.sum_map_count_dedup_filter_eq_countP, List.countP_map]
  rfl

theorem mem_groupByDate (gs : List ((Int × String) × Nat)) (row : StatRow)
    (h : row ∈ groupByDate gs) :
    row.statuses = (gs.filter (fun g => g.1.1 == row._id)).map (fun g => ⟨g.1.2, g.2⟩) ∧
      row.totalStudents = ((gs.filter (fun g => g.1.1 == row._id)).map (fun g => g.2)).sum := by
  unfold groupByDate at h
  obtain ⟨d, _, hd⟩ := List.mem_map.1 h
  rw [← hd]
  exact ⟨rfl, rfl⟩

theorem row_statuses_nodup (rs : List Attendance) (d : Int) :
    ((((groupByDateStatus rs).filter (fun g => g.1.1 == d)).map
      (fun g => (⟨g.1.2, g.2⟩ : StatusCount))).map (fun sc => sc.status)).Nodup := by
  rw [groupByDateStatus_filter, List.map_map, List.map_map]
  apply List.Nodup.map_on
  · intro a ha b hb hab
    have ha1 : a.1 = d := by simpa using (List.mem_filter.1 ha).2
    have hb1 : b.1 = d := by simpa using (List.mem_filter.1 hb).2
    simp only [Function.comp_apply] at hab
    exact Prod.ext (ha1.trans hb1.symm) hab
  · exact (List.nodup_dedup _).filter _

theorem row_status_count (rs : List Attendance) (d : Int) (sc : StatusCount)
    (h : sc ∈ ((groupByDateStatus rs).filter (fun g => g.1.1 == d)).map
      (fun g => (⟨g.1.2, g.2⟩ : StatusCount))) :
    sc.count = rs.countP (fun r => r.date == d && r.status == sc.status) := by
  rw [groupByDateStatus_filter, List.map_map] at h
  obtain ⟨k, hk, hsc⟩ := List.mem_map.1 h
  have hk1 : k.1 = d := by simpa using (List.mem_filter.1 hk).2
  rw [← hsc]
  simp only [Function.comp_apply]
  apply List.countP_congr
  intro r _
  simp only [decide_eq_true_eq, Bool.and_eq_true, beq_iff_eq]
  constructor
  · intro h; rw [← h] at hk1; exact ⟨hk1, by rw [← h]⟩
  · rintro ⟨h1, h2⟩; exact Prod.ext (h1.trans hk1.symm) h2

theorem rows_total_sum (rs : List Attendance) :
    ((groupByDate (groupByDateStatus rs)).map (fun row => row.totalStudents)).sum =
      rs.length := by
  unfold groupByDate
  rw [List.map_map]
  have h1 : ((fun row : StatRow => row.totalStudents) ∘ fun d =>
      ({ _id := d
         statuses := ((groupByDateStatus rs).filter (fun g => g.1.1 == d)).map
           (fun g => ⟨g.1.2, g.2⟩)
         totalStudents := (((groupByDateStatus rs).filter (fun g => g.1.1 == d)).map
           (fun g => g.2)).sum } : StatRow)) =
      fun d => @List.count Int instBEqOfDecidableEq d (rs.map (fun r => r.date)) := by
    funext d
    simp only [Function.comp_apply]
    rw [group_total]
    show _ = List.countP (fun x => @BEq.beq Int instBEqOfDecidableEq x d)
      (rs.map (fun r => r.date))
    rw [List.countP_map]
    apply List.countP_congr
    intro r _
    simp only [beq_iff_eq, Function.comp_apply]
  rw [h1]
  have hperm : List.Perm (((groupByDateStatus rs).map (fun g => g.1.1)).dedup)
      ((rs.map (fun r => r.date)).dedup) := by
    rw [List.perm_ext_iff_of_nodup (List.nodup_dedup _) (List.nodup_dedup _)]
    intro d
    rw [List.mem_dedup, List.mem_dedup, groupByDateStatus_dates]
    simp
  rw [(hperm.map _).sum_eq, List.sum_map_count_dedup_eq_length, List.length_map]

/-- C17: in every row returned by the statistics query (route and model method), each
status occurs at most once in `statuses`, the count listed for a status equals the
number of matching records that have the date of the row and that status, and the
counts of the row sum to its `totalStudents`, which equals the number of matching
records on that date; summed over all rows, `totalStudents` equals the number of
matching records. -/
theorem statistics_counts (ledger : List Attendance) (branch : String)
    (startDate endDate : Option Int) :
    (∀ (year : String),
      (∀ row ∈ statisticsRoute ledger year branch startDate endDate,
        (row.statuses.map (fun sc => sc.status)).Nodup ∧
        (∀ sc ∈ row.statuses, sc.count =
          (matchingRecords ledger (parseIntStr year) (toUpperCase branch) startDate
            endDate).countP (fun r => r.date == row._id && r.status == sc.status)) ∧
        (row.statuses.map (fun sc => sc.count)).sum = row.totalStudents ∧
        row.totalStudents =
          (matchingRecords ledger (parseIntStr year) (toUpperCase branch) startDate
            endDate).countP (fun r => r.date == row._id)) ∧
      ((statisticsRoute ledger year branch startDate endDate).map
          (fun row => row.totalStudents)).sum =
        (matchingRecords ledger (parseIntStr year) (toUpperCase branch) startDate
          endDate).length) ∧
    (∀ (year : ReqVal),
      (∀ row ∈ getStatistics ledger year branch startDate endDate,
        (row.statuses.map (fun sc => sc.status)).Nodup ∧
        (∀ sc ∈ row.statuses, sc.count =
          (matchingRecords ledger (parseInt year) (toUpperCase branch) startDate
            endDate).countP (fun r => r.date == row._id && r.status == sc.status)) ∧
        (row.statuses.map (fun sc => sc.count)).sum = row.totalStudents ∧
        row.totalStudents =
          (matchingRecords ledger (parseInt year) (toUpperCase branch) startDate
            endDate).countP (fun r => r.date == row._id)) ∧
      ((getStatistics ledger year branch startDate endDate).map
          (fun row => row.totalStudents)).sum =
        (matchingRecords ledger (parseInt year) (toUpperCase branch) startDate
          endDate).length) := by
  have key : ∀ (y : Option Int),
      (∀ row ∈ statisticsPipeline ledger y (toUpperCase branch) startDate endDate,
        (row.statuses.map (fun sc => sc.status)).Nodup ∧
        (∀ sc ∈ row.statuses, sc.count =
          (matchingRecords ledger y (toUpperCase branch) startDate
            endDate).countP (fun r => r.date == row._id && r.status == sc.status)) ∧
        (row.statuses.map (fun sc => sc.count)).sum = row.totalStudents ∧
        row.totalStudents =
          (matchingRecords ledger y (toUpperCase branch) startDate
            endDate).countP (fun r => r.date == row._id)) ∧
      ((statisticsPipeline ledger y (toUpperCase branch) startDate endDate).map
          (fun row => row.totalStudents)).sum =
        (matchingRecords ledger y (toUpperCase branch) startDate endDate).length := by
    intro y
    have hperm := pipeline_perm ledger y (toUpperCase branch) startDate endDate
    constructor
    · intro row hrow
      have hmem := hperm.mem_iff.1 hrow
      obtain ⟨hst, htot⟩ := mem_groupByDate _ row hmem
      refine ⟨?_, ?_, ?_, ?_⟩
      · rw [hst]; exact row_statuses_nodup _ _
      · intro sc hsc
        rw [hst] at hsc
        exact row_status_count _ _ sc hsc
      · rw [hst, htot, List.map_map]
        rfl
      · rw [htot]; exact group_total _ _
    · rw [(hperm.map _).sum_eq]
      exact rows_total_sum _
  exact ⟨fun year => key (parseIntStr year), fun year => key (parseInt year)⟩

/-! ## History of a student -/

theorem sortByDateDesc_perm (rs : List Attendance) : List.Perm (sortByDateDesc rs) rs :=
  List.perm_insertionSort _ _

theorem sortByDateDesc_sorted (rs : List Attendance) :
    (sortByDateDesc rs).Sorted (fun a b => a.date ≥ b.date) := by
  haveI : IsTotal Attendance (fun a b => b.date ≤ a.date) := ⟨fun a b => le_total _ _⟩
  haveI : IsTrans Attendance (fun a b => b.date ≤ a.date) :=
    ⟨fun a b c hab hbc => le_trans hbc hab⟩
  exact List.sorted_insertionSort _ _

theorem getStudentHistory_records (students : List Student) (ledger : List Attendance)
    (sid : Nat) (sd ed : Option Int) :
    List.Perm ((getStudentHistory students ledger sid sd ed).map Prod.fst)
        (ledger.filter (fun r => r.student == sid && inDateRange sd ed r)) ∧
      ((getStudentHistory students ledger sid sd ed).map Prod.fst).Sorted
        (fun a b => a.date ≥ b.date) := by
  unfold getStudentHistory
  rw [populate_map_fst]
  exact ⟨sortByDateDesc_perm _, sortByDateDesc_sorted _⟩

/-- C18: for every ledger, studentId, startDate and endDate, the history query
(GET /attendance/student/:studentId, and `Attendance.getStudentHistory`) returns exactly
the records of that student whose date d satisfies startDate <= d <= endDate, both
bounds included, and no record of any other student, ordered by date descending
(newest first); with no date range it returns all records of that student, newest
first. -/
theorem history_in_range_newest_first (students : List Student) (ledger : List Attendance)
    (sid : Nat) :
    (∀ (s e : Int),
      List.Perm ((historyRoute students ledger sid (some s) (some e)).data.map Prod.fst)
          (ledger.filter (fun r => r.student == sid && (decide (s ≤ r.date) &&
            decide (r.date ≤ e)))) ∧
        (∀ r, r ∈ (historyRoute students ledger sid (some s) (some e)).data.map Prod.fst ↔
          r ∈ ledger ∧ r.student = sid ∧ s ≤ r.date ∧ r.date ≤ e) ∧
        ((historyRoute students ledger sid (some s) (some e)).data.map Prod.fst).Sorted
          (fun a b => a.date ≥ b.date) ∧
        (historyRoute students ledger sid (some s) (some e)).data =
          getStudentHistory students ledger sid (some s) (some e)) ∧
    (List.Perm ((historyRoute students ledger sid none none).data.map Prod.fst)
        (ledger.filter (fun r => r.student == sid)) ∧
      (∀ r, r ∈ (historyRoute students ledger sid none none).data.map Prod.fst ↔
        r ∈ ledger ∧ r.student = sid) ∧
      ((historyRoute students ledger sid none none).data.map Prod.fst).Sorted
        (fun a b => a.date ≥ b.date) ∧
      (historyRoute students ledger sid none none).data =
        getStudentHistory students ledger sid none none) := by
  constructor
  · intro s e
    obtain ⟨hp, hs⟩ := getStudentHistory_records students ledger sid (some s) (some e)
    refine ⟨hp, ?_, hs, rfl⟩
    intro r
    show r ∈ (getStudentHistory students ledger sid (some s) (some e)).map Prod.fst ↔ _
    rw [hp.mem_iff]
    simp [inDateRange, and_assoc]
  · obtain ⟨hp, hs⟩ := getStudentHistory_records students ledger sid none none
    have hf : ledger.filter (fun r => r.student == sid && inDateRange none none r) =
        ledger.filter (fun r => r.student == sid) := by
      apply List.filter_congr
      intro r _
      simp [inDateRange]
    rw [hf] at hp
    refine ⟨hp, ?_, hs, rfl⟩
    intro r
    show r ∈ (getStudentHistory students ledger sid none none).map Prod.fst ↔ _
    rw [hp.mem_iff]
    simp

/-! ## Today's attendance -/

theorem insertionSort_todaySortLe (rs : List Attendance) :
    rs.insertionSort (fun a b => todaySortLe a b = true) = rs := by
  induction rs with
  | nil => rfl
  | cons a t ih =>
    rw [List.insertionSort, ih]
    cases t with
    | nil => rfl
    | cons b u => simp [List.orderedInsert, todaySortLe]

/-- The today query returns exactly the records whose date is the local midnight of the
current day, in the order of the ledger. -/
theorem getTodayAttendance_records (tz now : Int) (students : List Student)
    (ledger : List Attendance) :
    (getTodayAttendance tz now students ledger).map Prod.fst =
      ledger.filter (fun r => r.date == startOfDay tz now) := by
  unfold getTodayAttendance
  rw [populate_map_fst, insertionSort_todaySortLe]

/-- C19 (defect): two records of the current day are in the ledger, first the one of a
student of branch ECE, then the one of a student of branch CSE. The today query
(route and model method) returns both records, and no other, but in the order of
the ledger, ECE before CSE: the sort names paths of the populated student, which do
not exist in the stored documents, so it does not order by (branch, year, rollNo). -/
theorem today_not_sorted_by_student :
    (todayRoute 0 5000
        [⟨1, "Asha Rao", "1CSE2410", "CSE", 10, "9876543210", "9876543211", 1, 2024, true⟩,
         ⟨2, "Ravi Kumar", "1ECE2411", "ECE", 11, "9876543212", "9876543213", 1, 2024, true⟩]
        [⟨2, 1, "ECE", 0, "present", 9, none, none, 3600000, 3600000⟩,
         ⟨1, 1, "CSE", 0, "absent", 9, none, none, 3600000, 3600000⟩,
         ⟨1, 1, "CSE", -86400000, "absent", 9, none, none, -3600000, -3600000⟩]).data =
      [(⟨2, 1, "ECE", 0, "present", 9, none, none, 3600000, 3600000⟩,
          some ⟨2, "Ravi Kumar", "1ECE2411", "ECE", 11, "9876543212", "9876543213", 1, 2024,
            true⟩),
       (⟨1, 1, "CSE", 0, "absent", 9, none, none, 3600000, 3600000⟩,
          some ⟨1, "Asha Rao", "1CSE2410", "CSE", 10, "9876543210", "9876543211", 1, 2024,
            true⟩)] ∧
    (getTodayAttendance 0 5000
        [⟨1, "Asha Rao", "1CSE2410", "CSE", 10, "9876543210", "9876543211", 1, 2024, true⟩,
         ⟨2, "Ravi Kumar", "1ECE2411", "ECE", 11, "9876543212", "9876543213", 1, 2024, true⟩]
        [⟨2, 1, "ECE", 0, "present", 9, none, none, 3600000, 3600000⟩,
         ⟨1, 1, "CSE", 0, "absent", 9, none, none, 3600000, 3600000⟩,
         ⟨1, 1, "CSE", -86400000, "absent", 9, none, none, -3600000, -3600000⟩]).map
        (fun p => p.2.map (fun s => s.branch)) = [some "ECE", some "CSE"] ∧
    "CSE".data < "ECE".data := by
  decide

/-! ## Deleting students -/

theorem updateManyLoop_keep_uid (query : Student → Bool) (u : StudentUpdate)
    (hu : u.uid = none) (todo : List Student) :
    ∀ (done : List Student) (n : Nat),
      updateManyLoop query u done todo n =
        (some (n + todo.countP query),
          done ++ todo.map (fun s => if query s then u.apply s else s)) := by
  induction todo with
  | nil => intro done n; simp [updateManyLoop]
  | cons s rest ih =>
    intro done n
    unfold updateManyLoop
    by_cases hq : query s = true
    · have hsame : (u.apply s).uid = s.uid := by simp [StudentUpdate.apply, hu]
      simp only [hq, if_true, hsame, bne_self_eq_false, Bool.false_and, Bool.false_eq_true,
        if_false]
      rw [ih]
      simp [List.countP_cons, hq]
      omega
    · simp only [hq, Bool.false_eq_true, if_false]
      rw [ih]
      simp [List.countP_cons, hq]

theorem softDelete_store (query : Student → Bool) (db : List Student) :
    updateMany query { isActive := some false } db =
      (some (db.countP query),
        db.map (fun s => if query s then { s with isActive := false } else s)) := by
  unfold updateMany
  rw [updateManyLoop_keep_uid query _ rfl db [] 0]
  simp only [Nat.zero_add, List.nil_append]
  rfl

/-- The bulk deletes are soft deletes: DELETE /students/branch/:branch and
DELETE /students/year/:year keep every student in the store, in its place, and set
`isActive` to false on the students that the query matches. -/
theorem bulk_delete_is_soft (db : List Student) :
    (∀ (branch : String) (year : Option String),
      (deleteByBranch db branch year).2 = db ∨
        ∃ yq, (deleteByBranch db branch year).2 =
          db.map (fun s => if branchQuery branch yq s then { s with isActive := false }
            else s)) ∧
    (∀ (year : String) (branch : Option String),
      (deleteByYear db year branch).2 = db ∨
        ∃ y, (deleteByYear db year branch).2 =
          db.map (fun s => if yearQuery y branch s then { s with isActive := false }
            else s)) := by
  constructor
  · intro branch year
    unfold deleteByBranch
    simp only [softDelete_store]
    split
    · exact Or.inl rfl
    · rename_i yq _
      exact Or.inr ⟨yq, rfl⟩
  · intro year branch
    unfold deleteByYear
    simp only [softDelete_store]
    cases parseIntStr year with
    | none => exact Or.inl rfl
    | some y => exact Or.inr ⟨y, rfl⟩

/-- C20 (defect): DELETE /students/:uid on an existing uid is not a soft delete. The store
holds the students `1CSE2410` and `1ECE2411`; after DELETE /students/1CSE2410 the
store holds one student: the document of `1CSE2410` was removed with
`findByIdAndDelete` instead of getting `isActive = false`. The bulk routes
(DELETE /students/branch/CSE here) keep both students and clear `isActive`. -/
theorem delete_by_uid_removes_student :
    deleteStudent
        [⟨1, "Asha Rao", "1CSE2410", "CSE", 10, "9876543210", "9876543211", 1, 2024, true⟩,
         ⟨2, "Ravi Kumar", "1ECE2411", "ECE", 11, "9876543212", "9876543213", 1, 2024, true⟩]
        "1CSE2410" =
      (.ok,
        [⟨2, "Ravi Kumar", "1ECE2411", "ECE", 11, "9876543212", "9876543213", 1, 2024,
          true⟩]) ∧
    (deleteStudent
        [⟨1, "Asha Rao", "1CSE2410", "CSE", 10, "9876543210", "9876543211", 1, 2024, true⟩,
         ⟨2, "Ravi Kumar", "1ECE2411", "ECE", 11, "9876543212", "9876543213", 1, 2024, true⟩]
        "1CSE2410").2.length = 1 ∧
    deleteByBranch
        [⟨1, "Asha Rao", "1CSE2410", "CSE", 10, "9876543210", "9876543211", 1, 2024, true⟩,
         ⟨2, "Ravi Kumar", "1ECE2411", "ECE", 11, "9876543212", "9876543213", 1, 2024, true⟩]
        "CSE" none =
      (.ok 1,
        [⟨1, "Asha Rao", "1CSE2410", "CSE", 10, "9876543210", "9876543211", 1, 2024, false⟩,
         ⟨2, "Ravi Kumar", "1ECE2411", "ECE", 11, "9876543212", "9876543213", 1, 2024,
          true⟩]) := by
  decide

/-! ## Inactive students and the read routes -/

theorem mem_insertionSort_filter (r : Student → Student → Prop) [DecidableRel r]
    (p : Student → Bool) (db : List Student) (s : Student)
    (h : s ∈ (db.filter p).insertionSort r) : s ∈ db ∧ p s = true := by
  have := (List.perm_insertionSort r (db.filter p)).mem_iff.1 h
  exact List.mem_filter.1 this

theorem listQuery_active (branch : Option String) (year : Option Int) (s : Student)
    (h : listQuery branch year s = true) : s.isActive = true := by
  unfold listQuery at h
  simp only [Bool.and_eq_true] at h
  exact h.1.1

theorem branchQuery_active (branch : String) (year : Option Int) (s : Student)
    (h : branchQuery branch year s = true) : s.isActive = true := by
  unfold branchQuery at h
  simp only [Bool.and_eq_true] at h
  exact h.1.2

theorem yearQuery_active (year : Int) (branch : Option String) (s : Student)
    (h : yearQuery year branch s = true) : s.isActive = true := by
  unfold yearQuery at h
  simp only [Bool.and_eq_true] at h
  exact h.1.2

/-- The list routes return active students only: GET /students,
GET /students/branch/:branch, GET /students/year/:year and
GET /students/attendance/:year/:branch. -/
theorem list_routes_only_active (db : List Student) :
    (∀ branch year page limit resp, listStudents db branch year page limit = some resp →
      ∀ s ∈ resp.data, s ∈ db ∧ s.isActive = true) ∧
    (∀ branch year resp, studentsByBranch db branch year = some resp →
      ∀ s ∈ resp.data, s ∈ db ∧ s.isActive = true) ∧
    (∀ year branch resp, studentsByYear db year branch = some resp →
      ∀ s ∈ resp.data, s ∈ db ∧ s.isActive = true) ∧
    (∀ year branch resp, studentsForAttendance db year branch = some resp →
      ∀ s ∈ resp.data, s ∈ db ∧ s.isActive = true) := by
  refine ⟨?_, ?_, ?_, ?_⟩
  · intro branch year page limit resp h s hs
    unfold listStudents at h
    cases hy : optionalInt year with
    | none => simp [hy] at h
    | some yq =>
      simp only [hy] at h
      split at h
      · simp at h
      · simp only [Option.some.injEq] at h
        rw [← h] at hs
        simp only at hs
        have hmem : s ∈ sortedMatching db branch yq := by
          split at hs
          · exact List.mem_of_mem_drop hs
          · exact List.mem_of_mem_drop (List.mem_of_mem_take hs)
        obtain ⟨h1, h2⟩ := mem_insertionSort_filter _ _ db s hmem
        exact ⟨h1, listQuery_active _ _ s h2⟩
  · intro branch year resp h s hs
    unfold studentsByBranch at h
    cases hy : optionalInt year with
    | none => simp [hy] at h
    | some yq =>
      simp only [hy, Option.some.injEq] at h
      rw [← h] at hs
      obtain ⟨h1, h2⟩ := mem_insertionSort_filter _ _ db s hs
      exact ⟨h1, branchQuery_active _ _ s h2⟩
  · intro year branch resp h s hs
    unfold studentsByYear at h
    cases hy : parseIntStr year with
    | none => simp [hy] at h
    | some y =>
      simp only [hy, Option.some.injEq] at h
      rw [← h] at hs
      obtain ⟨h1, h2⟩ := mem_insertionSort_filter _ _ db s hs
      exact ⟨h1, yearQuery_active _ _ s h2⟩
  · intro year branch resp h s hs
    unfold studentsForAttendance at h
    cases hy : parseIntStr year with
    | none => simp [hy] at h
    | some y =>
      simp only [hy, Option.some.injEq] at h
      rw [← h] at hs
      obtain ⟨h1, h2⟩ := mem_insertionSort_filter _ _ db s hs
      simp only [Bool.and_eq_true] at h2
      exact ⟨h1, h2.2⟩

/-- The statistics of the students list and count active students only. -/
theorem statistics_only_active (db : List Student) :
    (studentStatistics db).totalStudents = db.countP (fun s => s.isActive) ∧
    (∀ g ∈ (studentStatistics db).branchStats,
      (∀ s ∈ g.students, s ∈ db ∧ s.isActive = true) ∧
        g.count = db.countP (fun s => s.isActive && s.branch == g._id)) ∧
    (∀ g ∈ (studentStatistics db).yearStats,
      (∀ s ∈ g.students, s ∈ db ∧ s.isActive = true) ∧
        g.count = db.countP (fun s => s.isActive && s.year == g._id)) := by
  refine ⟨?_, ?_, ?_⟩
  · simp [studentStatistics, List.countP_eq_length_filter]
  · intro g hg
    unfold studentStatistics at hg
    simp only at hg
    have hg2 := (List.perm_insertionSort _ _).mem_iff.1 hg
    obtain ⟨b, _, hb⟩ := List.mem_map.1 hg2
    rw [← hb]
    refine ⟨?_, ?_⟩
    · intro s hs
      have := (List.mem_filter.1 (List.mem_filter.1 hs).1)
      exact ⟨this.1, this.2⟩
    · simp only [List.countP_filter]
      apply List.countP_congr
      intro s _
      simp [Bool.and_comm]
  · intro g hg
    unfold studentStatistics at hg
    simp only at hg
    have hg2 := (List.perm_insertionSort _ _).mem_iff.1 hg
    obtain ⟨y, _, hy⟩ := List.mem_map.1 hg2
    rw [← hy]
    refine ⟨?_, ?_⟩
    · intro s hs
      have := (List.mem_filter.1 (List.mem_filter.1 hs).1)
      exact ⟨this.1, this.2⟩
    · simp only [List.countP_filter]
      apply List.countP_congr
      intro s _
      simp [Bool.and_comm]

/-- C21 (defect): the store holds the student `1CSE2410` with `isActive = false`.
GET /students/search/1CSE2410 answers with this student: the route looks the student
up with `findOne({ uid })` and has no `isActive` condition, while GET /students (and
the other list routes and the statistics) leave the student out. -/
theorem search_returns_inactive_student :
    searchStudent
        [⟨1, "Asha Rao", "1CSE2410", "CSE", 10, "9876543210", "9876543211", 1, 2024, false⟩]
        "1CSE2410" =
      some ⟨1, "Asha Rao", "1CSE2410", "CSE", 10, "9876543210", "9876543211", 1, 2024, false⟩ ∧
    (listStudents
        [⟨1, "Asha Rao", "1CSE2410", "CSE", 10, "9876543210", "9876543211", 1, 2024, false⟩]
        none none none none).map (fun r => r.data) = some [] ∧
    (studentStatistics
        [⟨1, "Asha Rao", "1CSE2410", "CSE", 10, "9876543210", "9876543211", 1, 2024,
          false⟩]).totalStudents = 0 := by
  decide

/-! ## The duplicate check and soft-deleted students -/

/-- C26: the roll-number duplicate check of POST /students ignores the `isActive` flag.
For every store in which a student with the requested (branch, year, rollNo,
admissionYear) is inactive (also when it is the only student with this tuple), a valid
registration is rejected with 400 and 'Student with this roll number already exists in
this branch and year', and the store is unchanged; so the tuple of a soft-deleted
student cannot be registered again. -/
theorem post_rejects_inactive_duplicate (cy newId : Nat) (db : List Student) (b : StudentBody)
    (s : Student) (hv : validBody cy b) (hs : s ∈ db) (_hinactive : s.isActive = false)
    (hb : s.branch = b.branch) (hy : s.year = b.year) (hr : s.rollNo = b.rollNo)
    (ha : s.admissionYear = b.admissionYear) :
    postStudent cy newId db b = (.badRequest duplicateRollNumber, db) ∧
      (postStudent cy newId db b).1.status = 400 ∧
      duplicateRollNumber =
        "Student with this roll number already exists in this branch and year" := by
  have h := postStudent_dup_roll cy newId db b hv s hs (by simp [sameTuple, hb, hy, hr, ha])
  rw [h]
  exact ⟨rfl, rfl, rfl⟩

/-- Witness of C26: the student `1CSE2410` was soft-deleted with
DELETE /students/branch/CSE; the registration of the same tuple is rejected. -/
theorem post_rejects_inactive_duplicate_witness :
    postStudent 2026 2
        (deleteByBranch
          [⟨1, "Asha Rao", "1CSE2410", "CSE", 10, "9876543210", "9876543211", 1, 2024, true⟩]
          "CSE" none).2
        ⟨"Ravi Kumar", "CSE", 10, "9876543212", "9876543213", 1, 2024⟩ =
      (.badRequest duplicateRollNumber,
        (deleteByBranch
          [⟨1, "Asha Rao", "1CSE2410", "CSE", 10, "9876543210", "9876543211", 1, 2024, true⟩]
          "CSE" none).2) :=
  (post_rejects_inactive_duplicate 2026 2
    (deleteByBranch
      [⟨1, "Asha Rao", "1CSE2410", "CSE", 10, "9876543210", "9876543211", 1, 2024, true⟩]
      "CSE" none).2
    ⟨"Ravi Kumar", "CSE", 10, "9876543212", "9876543213", 1, 2024⟩
    ⟨1, "Asha Rao", "1CSE2410", "CSE", 10, "9876543210", "9876543211", 1, 2024, false⟩
    (by decide) (by decide) rfl rfl rfl rfl rfl).1

/-! ## A single date bound is ignored -/

/-- C28: the date-range filter of the statistics and history queries is applied only
when both bounds are given. For every ledger and every request that supplies exactly one
of startDate and endDate, GET /attendance/statistics/:year/:branch,
GET /attendance/student/:studentId, `Attendance.getStatistics` and
`Attendance.getStudentHistory` return the same result as the same request with no date
range. -/
theorem single_date_bound_ignored (students : List Student) (ledger : List Attendance)
    (bound : Int) :
    (∀ (year branch : String),
      statisticsRoute ledger year branch (some bound) none =
          statisticsRoute ledger year branch none none ∧
        statisticsRoute ledger year branch none (some bound) =
          statisticsRoute ledger year branch none none) ∧
    (∀ (year : ReqVal) (branch : String),
      getStatistics ledger year branch (some bound) none =
          getStatistics ledger year branch none none ∧
        getStatistics ledger year branch none (some bound) =
          getStatistics ledger year branch none none) ∧
    (∀ (studentId : Nat),
      (historyRoute students ledger studentId (some bound) none).data =
          (historyRoute students ledger studentId none none).data ∧
        (historyRoute students ledger studentId none (some bound)).data =
          (historyRoute students ledger studentId none none).data ∧
        (historyRoute students ledger studentId (some bound) none).count =
          (historyRoute students ledger studentId none none).count ∧
        (historyRoute students ledger studentId none (some bound)).count =
          (historyRoute students ledger studentId none none).count) ∧
    (∀ (studentId : Nat),
      getStudentHistory students ledger studentId (some bound) none =
          getStudentHistory students ledger studentId none none ∧
        getStudentHistory students ledger studentId none (some bound) =
          getStudentHistory students ledger studentId none none) := by
  exact ⟨fun _ _ => ⟨rfl, rfl⟩, fun _ _ => ⟨rfl, rfl⟩, fun _ => ⟨rfl, rfl, rfl, rfl⟩,
    fun _ => ⟨rfl, rfl⟩⟩

/-! ## Access to per-user reports -/

/-- C29: access to a per-user report is refused with 403 exactly on authorization
failure. For every authenticated requester and every :userId (and whatever the store
holds), GET /reports/user/:userId and GET /teams/member/:userId answer 403 if and only
if the requester's role is neither `admin` nor `manager` and the requester's id differs
from :userId; the answer is then the 'Not authorized ...' message without user or
attendance data, and it does not depend on the lookups, so such a requester gets 403
also when :userId does not exist. -/
theorem report_forbidden_iff {υ ρ : Type} (requester : Requester) (userId : String)
    (findAttendance : String → Except Unit (List ρ))
    (findUser : String → Except Unit (Option υ)) :
    ((userReport requester userId findAttendance findUser).status = 403 ↔
        requester.role ≠ "admin" ∧ requester.role ≠ "manager" ∧ requester.id ≠ userId) ∧
      ((teamMember requester userId findAttendance findUser).status = 403 ↔
        requester.role ≠ "admin" ∧ requester.role ≠ "manager" ∧ requester.id ≠ userId) ∧
      (requester.role ≠ "admin" ∧ requester.role ≠ "manager" ∧ requester.id ≠ userId →
        userReport requester userId findAttendance findUser =
            .forbidden "Not authorized to access this report" ∧
          teamMember requester userId findAttendance findUser =
            .forbidden "Not authorized to access this member") := by
  have hiff : notAuthorized requester userId = true ↔
      requester.role ≠ "admin" ∧ requester.role ≠ "manager" ∧ requester.id ≠ userId := by
    simp [notAuthorized, and_assoc]
  refine ⟨?_, ?_, ?_⟩
  · rw [← hiff]
    unfold userReport
    by_cases h : notAuthorized requester userId = true
    · simp [h, ReportResp.status]
    · simp only [h, if_false, false_iff]
      cases findAttendance userId with
      | error e => simp [ReportResp.status]
      | ok att =>
        cases findUser userId with
        | error e => simp [ReportResp.status]
        | ok u => cases u <;> simp [ReportResp.status]
  · rw [← hiff]
    unfold teamMember
    by_cases h : notAuthorized requester userId = true
    · simp [h, ReportResp.status]
    · simp only [h, if_false, false_iff]
      cases findUser userId with
      | error e => simp [ReportResp.status]
      | ok u =>
        cases u with
        | none => simp [ReportResp.status]
        | some user =>
          cases findAttendance userId <;> simp [ReportResp.status]
  · intro hc
    have h := hiff.2 hc
    simp [userReport, teamMember, h]

/-- Witness of C29: an employee asks for the report of another user id, which does not
exist in the store; both routes answer 403. -/
theorem report_forbidden_iff_witness :
    (userReport ⟨"u1", "employee"⟩ "u2" (fun _ => Except.ok ([] : List Nat))
        (fun _ => Except.ok (none : Option Nat))).status = 403 ∧
      userReport ⟨"u1", "employee"⟩ "u2" (fun _ => Except.ok ([] : List Nat))
          (fun _ => Except.ok (none : Option Nat)) =
        .forbidden "Not authorized to access this report" ∧
      teamMember ⟨"u1", "employee"⟩ "u2" (fun _ => Except.ok ([] : List Nat))
          (fun _ => Except.ok (none : Option Nat)) =
        .forbidden "Not authorized to access this member" :=
  ⟨(report_forbidden_iff ⟨"u1", "employee"⟩ "u2" (fun _ => Except.ok ([] : List Nat))
      (fun _ => Except.ok (none : Option Nat))).1.2 (by decide),
    (report_forbidden_iff ⟨"u1", "employee"⟩ "u2" (fun _ => Except.ok ([] : List Nat))
      (fun _ => Except.ok (none : Option Nat))).2.2 (by decide)⟩

/-! ## Validation and the data model -/

theorem matchItems_exact (cls : Char → Bool) (n : Nat) (cs : List Char) :
    matchItems [⟨cls, n, n⟩] cs = true ↔ cs.length = n ∧ ∀ c ∈ cs, cls c = true := by
  have hr : List.range 1 = [0] := rfl
  simp only [matchItems, Nat.sub_self, zero_add, hr, List.any_cons, List.any_nil,
    Bool.or_false, Nat.add_zero, Bool.and_eq_true, decide_eq_true_eq, List.all_eq_true,
    List.isEmpty_iff, List.drop_eq_nil_iff]
  constructor
  · rintro ⟨⟨h1, h2⟩, h3⟩
    have hl : cs.length = n := le_antisymm h3 h1
    refine ⟨hl, ?_⟩
    intro c hc
    apply h2
    rw [List.take_of_length_le (le_of_eq hl)]
    exact hc
  · rintro ⟨hl, h⟩
    exact ⟨⟨le_of_eq hl.symm, fun c hc => h c (List.mem_of_mem_take hc)⟩, le_of_eq hl⟩

theorem phoneValidator_iff (s : String) : phoneValidator s = true ↔ isPhone s := by
  unfold phoneValidator isPhone phoneRegex
  cases hs : s.data with
  | nil => simp [matchItems]
  | cons c rest =>
    have hr : List.range 1 = [0] := rfl
    have hstep : matchItems [⟨fun c => decide ('6' ≤ c) && decide (c ≤ '9'), 1, 1⟩,
        ⟨isDigitChar, 9, 9⟩] (c :: rest) =
        ((decide ('6' ≤ c) && decide (c ≤ '9')) && matchItems [⟨isDigitChar, 9, 9⟩] rest) := by
      rw [matchItems]
      simp [hr]
    rw [hstep]
    simp only [Bool.and_eq_true, decide_eq_true_eq, matchItems_exact, List.length_cons,
      List.mem_cons, forall_eq_or_imp, List.cons.injEq]
    constructor
    · rintro ⟨⟨h6, h9⟩, hl, hd⟩
      refine ⟨by omega, ⟨?_, hd⟩, c, rest, ⟨rfl, rfl⟩, h6, h9⟩
      simp only [isDigitChar, Bool.and_eq_true, decide_eq_true_eq]
      exact ⟨le_trans (by decide) h6, h9⟩
    · rintro ⟨hl, ⟨_, hd⟩, c1, rest1, ⟨hc, _⟩, h6, h9⟩
      subst hc
      exact ⟨⟨h6, h9⟩, by omega, hd⟩

theorem validBody_iff_meetsDataModel (cy : Nat) (b : StudentBody) :
    validBody cy b ↔ meetsDataModel cy b := by
  rw [validBody_iff]
  unfold meetsDataModel
  rw [phoneValidator_iff, phoneValidator_iff]
  have hy : b.year ∈ [1, 2, 3, 4] ↔ (b.year = 1 ∨ b.year = 2 ∨ b.year = 3 ∨ b.year = 4) := by
    simp
  rw [hy]
  constructor
  · rintro ⟨h1, h2, h3, h4, h5, h6, h7⟩
    exact ⟨h1, h2, h3, h6, h7, h4, h5⟩
  · rintro ⟨h1, h2, h3, h6, h7, h4, h5⟩
    exact ⟨h1, h2, h3, h4, h5, h6, h7⟩

/-- C22: validation is checked before any mutation and enforces the data model.
POST /students and PUT /students/:uid change the store only if the request meets the
data model (studentName of 2 to 50 characters after trimming, branch in the enumeration,
rollNo at least 1, year in 1..4, 2020 ≤ admissionYear ≤ current year, both phone numbers
of exactly 10 decimal digits the first of which is 6, 7, 8 or 9); a request that does not
meet it is answered with the 400 validation error, which carries at least one message,
and the store is unchanged. -/
theorem validation_before_mutation (cy newId : Nat) (db : List Student) (uid : String)
    (b : StudentBody) :
    ((postStudent cy newId db b).2 ≠ db → meetsDataModel cy b) ∧
    ((putStudent cy db uid b).2 ≠ db → meetsDataModel cy b) ∧
    (¬ meetsDataModel cy b →
      postStudent cy newId db b = (.validationFailed (validateStudent cy b), db) ∧
      putStudent cy db uid b = (.validationFailed (validateStudent cy b), db) ∧
      validateStudent cy b ≠ [] ∧
      (postStudent cy newId db b).1.status = 400 ∧
      (putStudent cy db uid b).1.status = 400) := by
  refine ⟨?_, ?_, ?_⟩
  · intro h
    rcases postStudent_store_valid cy newId db b with h1 | ⟨hv, _⟩
    · exact absurd h1 h
    · exact (validBody_iff_meetsDataModel cy b).1 hv
  · intro h
    rcases putStudent_store_valid cy db uid b with h1 | ⟨_, hv, _⟩
    · exact absurd h1 h
    · exact (validBody_iff_meetsDataModel cy b).1 hv
  · intro h
    have hv : validateStudent cy b ≠ [] := fun he => h ((validBody_iff_meetsDataModel cy b).1 he)
    rw [postStudent_invalid cy newId db b hv, putStudent_invalid cy db uid b hv]
    exact ⟨rfl, rfl, hv, rfl, rfl⟩

/-- Witness of C22: a registration changes the store and meets the data model; a
registration with a phone number of nine digits is answered with 400. -/
theorem validation_before_mutation_witness :
    (postStudent 2026 1 [] ⟨"Asha Rao", "CSE", 10, "9876543210", "9876543211", 1, 2024⟩).2 ≠ [] ∧
      meetsDataModel 2026 ⟨"Asha Rao", "CSE", 10, "9876543210", "9876543211", 1, 2024⟩ ∧
      postStudent 2026 1 [] ⟨"Asha Rao", "CSE", 10, "987654321", "9876543211", 1, 2024⟩ =
        (.validationFailed
          (validateStudent 2026 ⟨"Asha Rao", "CSE", 10, "987654321", "9876543211", 1, 2024⟩),
          []) :=
  ⟨by decide,
    (validation_before_mutation 2026 1 [] "1CSE2410"
      ⟨"Asha Rao", "CSE", 10, "9876543210", "9876543211", 1, 2024⟩).1 (by decide),
    ((validation_before_mutation 2026 1 [] "1CSE2410"
      ⟨"Asha Rao", "CSE", 10, "987654321", "9876543211", 1, 2024⟩).2.2
        (fun h => absurd ((validBody_iff_meetsDataModel 2026 _).2 h) (by decide))).1⟩

/-! ## The date sent by the mark page -/

theorem splitChars_no_sep (sep : Char) (cs : List Char) :
    ∀ cur : List Char, sep ∉ cs → splitChars sep cur cs = [cur.reverse ++ cs] := by
  induction cs with
  | nil => intro cur _; simp [splitChars]
  | cons c cs ih =>
    intro cur h
    have hc : (c == sep) = false := by
      simp only [beq_eq_false_iff_ne, ne_eq]
      intro he
      exact h (by simp [he])
    have hcs : sep ∉ cs := fun hm => h (List.mem_cons_of_mem _ hm)
    rw [splitChars]
    simp only [hc, Bool.false_eq_true, if_false]
    rw [ih (c :: cur) hcs]
    simp

theorem jsSplit_no_sep (s : String) (sep : Char) (h : sep ∉ s.data) : jsSplit s sep = [s] := by
  unfold jsSplit
  rw [splitChars_no_sep sep s.data [] h]
  simp

theorem padStart_digits (n k : Nat) :
    ∀ c ∈ (padStart (numToString n) k '0').data, isDigitChar c = true := by
  intro c hc
  unfold padStart at hc
  simp only [numToString_data, List.mem_append, List.mem_replicate] at hc
  rcases hc with ⟨_, rfl⟩ | hc
  · decide
  · exact List.all_eq_true.1 (decDigits_all_digit n) c hc

theorem numToString_digits (n : Nat) : ∀ c ∈ (numToString n).data, isDigitChar c = true := by
  intro c hc
  rw [numToString_data] at hc
  exact List.all_eq_true.1 (decDigits_all_digit n) c hc

theorem defaultSelectedDate_chars (d : Day) :
    ∀ c ∈ (defaultSelectedDate d).data, isDigitChar c = true ∨ c = '/' := by
  intro c hc
  unfold defaultSelectedDate at hc
  simp only [String.data_append, List.mem_append] at hc
  rcases hc with (((hc | hc) | hc) | hc) | hc
  · exact Or.inl (padStart_digits _ _ c hc)
  · right; simpa using hc
  · exact Or.inl (padStart_digits _ _ c hc)
  · right; simpa using hc
  · exact Or.inl (numToString_digits _ c hc)

theorem isoDate_chars (d : Day) :
    ∀ c ∈ (isoDate d).data, isDigitChar c = true ∨ c = '-' := by
  intro c hc
  unfold isoDate at hc
  simp only [String.data_append, List.mem_append] at hc
  rcases hc with (((hc | hc) | hc) | hc) | hc
  · exact Or.inl (padStart_digits _ _ c hc)
  · right; simpa using hc
  · exact Or.inl (padStart_digits _ _ c hc)
  · right; simpa using hc
  · exact Or.inl (padStart_digits _ _ c hc)

theorem formattedDate_no_underscore (s : String) (h : '_' ∉ s.data) :
    formattedDate s = "undefined-undefined-" ++ s := by
  unfold formattedDate
  rw [jsSplit_no_sep s '_' h]
  apply String.ext
  simp [templ]

/-- C25 (defect): for every calendar day the `date` of the payload that
`handleSaveAttendance` builds from the default `selectedDate` of the day is the string
`undefined-undefined-` followed by `selectedDate`, never the `YYYY-MM-DD` string of the
day: `selectedDate` is stored as `DD/MM/YYYY`, and the handler splits it at `_`. For
5 March 2024 the payload carries `undefined-undefined-05/03/2024`, from the default-date
effect and from `convertToDisplayDate` alike, where `2024-03-05` is meant;
`convertToInputDate`, which splits at `/`, yields `2024-03-05`. -/
theorem save_date_not_converted (d : Day) :
    formattedDate (defaultSelectedDate d) = "undefined-undefined-" ++ defaultSelectedDate d ∧
      formattedDate (defaultSelectedDate d) ≠ isoDate d ∧
      formattedDate (defaultSelectedDate ⟨2024, 3, 5⟩) = "undefined-undefined-05/03/2024" ∧
      formattedDate (convertToDisplayDate "2024-03-05") = "undefined-undefined-05/03/2024" ∧
      isoDate ⟨2024, 3, 5⟩ = "2024-03-05" ∧
      convertToInputDate (defaultSelectedDate ⟨2024, 3, 5⟩) = "2024-03-05" := by
  have hno : '_' ∉ (defaultSelectedDate d).data := by
    intro hm
    rcases defaultSelectedDate_chars d '_' hm with h | h
    · exact absurd h (by decide)
    · exact absurd h (by decide)
  have h1 := formattedDate_no_underscore (defaultSelectedDate d) hno
  refine ⟨h1, ?_, by decide, by decide, by decide, by decide⟩
  intro he
  have hu : 'u' ∈ (isoDate d).data := by
    rw [← he, h1]
    simp
  rcases isoDate_chars d 'u' hu with h | h
  · exact absurd h (by decide)
  · exact absurd h (by decide)

/-! ## The mark route and the model method -/

theorem filter_resolved (students : List Student) (entries : List Entry)
    (h : ∀ e ∈ entries, studentExists students e.studentId = true) :
    entries.filter (fun e => studentExists students e.studentId) = entries :=
  List.filter_eq_self.2 h

/-- C27 (counterexample): the request names year 0 and no entries (so every entry
resolves) and the ledger is empty. POST /attendance/mark rejects it with 400 'Year,
branch, date, and attendance data are required'; `Attendance.markAttendance` with the
same arguments rejects nothing and returns the empty list of created records. -/
theorem mark_route_rejects_model_accepts :
    markRoute 0 7200000 [] [] ⟨some (.num 0), some "CSE", .instant 5000, some []⟩ 9 =
        (.badRequest fieldsRequired, []) ∧
      markAttendance 0 7200000 [] (.num 0) "CSE" (.instant 5000) [] 9 = (.ok [], []) :=
  ⟨by decide, rfl⟩

/-- C27 (amended): when year, branch and date pass the required-fields check of the
route (year is truthy, branch is not the empty string, date is given) and every entry
names an existing student, POST /attendance/mark and `Attendance.markAttendance` have
the same outcome and leave the same ledger: both reject with 'Attendance for this date
already exists' in the same cases, both fail with another error in the same cases, and
otherwise both create the same sequence of records. -/
theorem mark_route_agrees_with_model (tz now : Int) (students : List Student)
    (ledger : List Attendance) (year : ReqVal) (branch : String) (date : DateParam)
    (entries : List Entry) (actor : Nat)
    (hres : ∀ e ∈ entries, studentExists students e.studentId = true)
    (hy : year.truthy = true) (hb : branch ≠ "") (hd : date ≠ DateParam.missing) :
    sameOutcome (markRoute tz now students ledger ⟨some year, some branch, date, some entries⟩
        actor).1 (markAttendance tz now ledger year branch date entries actor).1 ∧
      (markRoute tz now students ledger ⟨some year, some branch, date, some entries⟩ actor).2 =
        (markAttendance tz now ledger year branch date entries actor).2 := by
  have hcond : (!year.truthy || branch == "" || date == DateParam.missing) = false := by
    simp [hy, hb, hd]
  unfold markRoute markAttendance
  simp only [hcond, Bool.false_eq_true, if_false, filter_resolved students entries hres]
  cases hp : parseInt year with
  | none => exact ⟨trivial, rfl⟩
  | some y =>
    cases hdt : attendanceDate tz date with
    | none => exact ⟨trivial, rfl⟩
    | some dd =>
      simp only
      cases hf : ledger.find? (sameCohort y (toUpperCase branch) dd) with
      | some r => exact ⟨rfl, rfl⟩
      | none =>
        simp only
        cases hi : insertMany ledger
            (entries.map (markRecord now y (toUpperCase branch) dd actor)) with
        | mk res ledger1 =>
          cases res with
          | none => exact ⟨trivial, rfl⟩
          | some saved => exact ⟨rfl, rfl⟩

/-- Witness of C27 (amended): one entry for the stored student 1; the route answers 201
with the record that the model method returns. -/
theorem mark_route_agrees_with_model_witness :
    sameOutcome
        (markRoute 0 7200000
          [⟨1, "Asha Rao", "1CSE2410", "CSE", 10, "9876543210", "9876543211", 1, 2024, true⟩]
          [] ⟨some (.str "1"), some "cse", .instant 5000, some [⟨1, "present"⟩]⟩ 9).1
        (markAttendance 0 7200000 [] (.str "1") "cse" (.instant 5000) [⟨1, "present"⟩] 9).1 ∧
      (markRoute 0 7200000
          [⟨1, "Asha Rao", "1CSE2410", "CSE", 10, "9876543210", "9876543211", 1, 2024, true⟩]
          [] ⟨some (.str "1"), some "cse", .instant 5000, some [⟨1, "present"⟩]⟩ 9).2 =
        (markAttendance 0 7200000 [] (.str "1") "cse" (.instant 5000) [⟨1, "present"⟩] 9).2 ∧
      (markRoute 0 7200000
          [⟨1, "Asha Rao", "1CSE2410", "CSE", 10, "9876543210", "9876543211", 1, 2024, true⟩]
          [] ⟨some (.str "1"), some "cse", .instant 5000, some [⟨1, "present"⟩]⟩ 9).1 =
        .created [⟨1, 1, "CSE", 0, "present", 9, none, none, 7200000, 7200000⟩] :=
  ⟨(mark_route_agrees_with_model 0 7200000
      [⟨1, "Asha Rao", "1CSE2410", "CSE", 10, "9876543210", "9876543211", 1, 2024, true⟩]
      [] (.str "1") "cse" (.instant 5000) [⟨1, "present"⟩] 9
      (by decide) (by decide) (by decide) (by decide)).1,
    (mark_route_agrees_with_model 0 7200000
      [⟨1, "Asha Rao", "1CSE2410", "CSE", 10, "9876543210", "9876543211", 1, 2024, true⟩]
      [] (.str "1") "cse" (.instant 5000) [⟨1, "present"⟩] 9
      (by decide) (by decide) (by decide) (by decide)).2,
    by decide⟩

/-! ## Pagination of GET /students -/

theorem leYearBranchRoll_iff (a b : Student) :
    leYearBranchRoll a b = true ↔
      a.year < b.year ∨ (a.year = b.year ∧
        (a.branch.data < b.branch.data ∨ (a.branch = b.branch ∧ a.rollNo ≤ b.rollNo))) := by
  simp [leYearBranchRoll]

theorem leYearBranchRoll_total (a b : Student) :
    leYearBranchRoll a b = true ∨ leYearBranchRoll b a = true := by
  rw [leYearBranchRoll_iff, leYearBranchRoll_iff]
  rcases lt_trichotomy a.year b.year with h | h | h
  · exact Or.inl (Or.inl h)
  · rcases lt_trichotomy a.branch.data b.branch.data with hb | hb | hb
    · exact Or.inl (Or.inr ⟨h, Or.inl hb⟩)
    · have hbe : a.branch = b.branch := String.ext hb
      rcases le_total a.rollNo b.rollNo with hr | hr
      · exact Or.inl (Or.inr ⟨h, Or.inr ⟨hbe, hr⟩⟩)
      · exact Or.inr (Or.inr ⟨h.symm, Or.inr ⟨hbe.symm, hr⟩⟩)
    · exact Or.inr (Or.inr ⟨h.symm, Or.inl hb⟩)
  · exact Or.inr (Or.inl h)

theorem leYearBranchRoll_trans (a b c : Student) (h1 : leYearBranchRoll a b = true)
    (h2 : leYearBranchRoll b c = true) : leYearBranchRoll a c = true := by
  rw [leYearBranchRoll_iff] at h1 h2 ⊢
  rcases h1 with h1 | ⟨e1, h1⟩
  · rcases h2 with h2 | ⟨e2, _⟩
    · exact Or.inl (lt_trans h1 h2)
    · exact Or.inl (e2 ▸ h1)
  · rcases h2 with h2 | ⟨e2, h2⟩
    · exact Or.inl (e1 ▸ h2)
    · refine Or.inr ⟨e1.trans e2, ?_⟩
      rcases h1 with h1 | ⟨f1, h1⟩
      · rcases h2 with h2 | ⟨f2, _⟩
        · exact Or.inl (lt_trans h1 h2)
        · exact Or.inl (f2 ▸ h1)
      · rcases h2 with h2 | ⟨f2, h2⟩
        · exact Or.inl (f1 ▸ h2)
        · exact Or.inr ⟨f1.trans f2, le_trans h1 h2⟩

theorem sortedMatching_sorted (db : List Student) (branch : Option String) (year : Option Int) :
    List.Sorted (fun a b => leYearBranchRoll a b = true) (sortedMatching db branch year) := by
  haveI : IsTotal Student (fun a b => leYearBranchRoll a b = true) :=
    ⟨leYearBranchRoll_total⟩
  haveI : IsTrans Student (fun a b => leYearBranchRoll a b = true) :=
    ⟨leYearBranchRoll_trans⟩
  exact List.sorted_insertionSort _ _

theorem sortedMatching_perm (db : List Student) (branch : Option String) (year : Option Int) :
    List.Perm (sortedMatching db branch year) (db.filter (listQuery branch year)) :=
  List.perm_insertionSort _ _

theorem sortedMatching_length (db : List Student) (branch : Option String) (year : Option Int) :
    (sortedMatching db branch year).length = db.countP (listQuery branch year) := by
  rw [(sortedMatching_perm db branch year).length_eq, List.countP_eq_length_filter]

theorem pagesOf_le_iff (n limit k : Nat) (hl : 1 ≤ limit) :
    pagesOf n limit ≤ k ↔ n ≤ k * limit := by
  unfold pagesOf
  rw [← Nat.lt_succ_iff, Nat.div_lt_iff_lt_mul (by omega), Nat.succ_mul]
  omega

theorem pageOf_length (l : List Student) (limit page : Nat) :
    (pageOf l limit page).length = min limit (l.length - (page - 1) * limit) := by
  simp [pageOf]

theorem pageOf_getElem? (l : List Student) (limit page i : Nat) (hi : i < limit) :
    (pageOf l limit page)[i]? = l[(page - 1) * limit + i]? := by
  unfold pageOf
  rw [List.getElem?_take_of_lt hi, List.getElem?_drop]

theorem listStudents_page (db : List Student) (branch year : Option String)
    (yq : Option Int) (page limit : Nat) (hy : optionalInt year = some yq) (hp : 1 ≤ page)
    (hl : 1 ≤ limit) :
    listStudents db branch year (some page) (some limit) =
      some { count := (pageOf (sortedMatching db branch yq) limit page).length,
             total := db.countP (listQuery branch yq),
             totalPages := some (pagesOf (db.countP (listQuery branch yq)) limit),
             currentPage := page,
             data := pageOf (sortedMatching db branch yq) limit page } := by
  unfold listStudents
  have h1 : ¬ (page = 0 ∧ 0 < limit) := by omega
  have h2 : ¬ limit = 0 := by omega
  simp only [Option.getD_some, hy, h1, h2, if_false, pageOf, pagesOf,
    List.countP_eq_length_filter]

/-- C23: for every store, every filter that the route can read, page ≥ 1 and limit ≥ 1,
GET /students answers with the page `page` of the list `sortedMatching` (the active
students that match the filter, sorted ascending by (year, branch, rollNo)): the element
at position i < limit of the data is the element at position (page - 1) * limit + i of
this list, so the data has at most `limit` students; `count` is the length of the data,
`total` is the number of active students that match the filter, and `totalPages` is
ceil(total / limit), the least k with total ≤ k * limit. Without `page` and `limit`
the route answers as for page 1 and limit 10. -/
theorem list_students_pagination (db : List Student) (branch year : Option String)
    (yq : Option Int) (page limit : Nat) (hy : optionalInt year = some yq) (hp : 1 ≤ page)
    (hl : 1 ≤ limit) :
    ∃ resp, listStudents db branch year (some page) (some limit) = some resp ∧
      resp.data = pageOf (sortedMatching db branch yq) limit page ∧
      (∀ i, i < limit → resp.data[i]? = (sortedMatching db branch yq)[(page - 1) * limit + i]?) ∧
      resp.data.length ≤ limit ∧
      resp.count = resp.data.length ∧
      resp.total = db.countP (listQuery branch yq) ∧
      resp.total = (sortedMatching db branch yq).length ∧
      resp.totalPages = some (pagesOf resp.total limit) ∧
      (∀ k, pagesOf resp.total limit ≤ k ↔ resp.total ≤ k * limit) ∧
      List.Sorted (fun a b => leYearBranchRoll a b = true) (sortedMatching db branch yq) ∧
      List.Perm (sortedMatching db branch yq) (db.filter (listQuery branch yq)) ∧
      listStudents db branch year none none = listStudents db branch year (some 1) (some 10) := by
  refine ⟨_, listStudents_page db branch year yq page limit hy hp hl, rfl, ?_, ?_, rfl, rfl,
    (sortedMatching_length db branch yq).symm, rfl, ?_, sortedMatching_sorted db branch yq,
    sortedMatching_perm db branch yq, rfl⟩
  · intro i hi
    exact pageOf_getElem? _ limit page i hi
  · show (pageOf (sortedMatching db branch yq) limit page).length ≤ limit
    rw [pageOf_length]
    exact Nat.min_le_left _ _
  · intro k
    exact pagesOf_le_iff _ limit k hl

/-- Witness of C23: three active students and one inactive student, page 2 with limit 2
holds the third student of the sorted list; total is 3 and totalPages is 2. -/
theorem list_students_pagination_witness :
    ∃ resp,
      listStudents
          [⟨1, "Asha Rao", "2CSE2311", "CSE", 11, "9876543210", "9876543211", 2, 2023, true⟩,
           ⟨2, "Ravi Kumar", "1ECE2411", "ECE", 11, "9876543212", "9876543213", 1, 2024, true⟩,
           ⟨3, "Meera Nair", "1CSE2410", "CSE", 10, "9876543214", "9876543215", 1, 2024, false⟩,
           ⟨4, "Arun Das", "1CSE2411", "CSE", 11, "9876543216", "9876543217", 1, 2024, true⟩]
          none none (some 2) (some 2) = some resp ∧
        resp.data.map (fun s => s.uid) = ["2CSE2311"] ∧ resp.total = 3 ∧
        resp.totalPages = some 2 := by
  obtain ⟨resp, h1, h2, _, _, _, h6, _, h8, _⟩ := list_students_pagination
    [⟨1, "Asha Rao", "2CSE2311", "CSE", 11, "9876543210", "9876543211", 2, 2023, true⟩,
     ⟨2, "Ravi Kumar", "1ECE2411", "ECE", 11, "9876543212", "9876543213", 1, 2024, true⟩,
     ⟨3, "Meera Nair", "1CSE2410", "CSE", 10, "9876543214", "9876543215", 1, 2024, false⟩,
     ⟨4, "Arun Das", "1CSE2411", "CSE", 11, "9876543216", "9876543217", 1, 2024, true⟩]
    none none none 2 2 rfl (by decide) (by decide)
  refine ⟨resp, h1, ?_, ?_, ?_⟩
  · rw [h2]; decide
  · rw [h6]; decide
  · rw [h8, h6]; decide

/-! ## The pages partition the result -/

theorem pages_join_take (l : List Student) (limit : Nat) :
    ∀ k, ((List.range k).map (fun p => pageOf l limit (p + 1))).flatten = l.take (k * limit) := by
  intro k
  induction k with
  | zero => simp
  | succ k ih =>
    rw [List.range_succ, List.map_append, List.flatten_append, ih]
    simp only [List.map_cons, List.map_nil, List.flatten_cons, List.flatten_nil, List.append_nil,
      pageOf, Nat.add_sub_cancel]
    rw [Nat.succ_mul, List.take_add]

theorem pageOf_full (l : List Student) (limit p : Nat) (hl : 1 ≤ limit) (hp : 1 ≤ p)
    (hlt : p < pagesOf l.length limit) : (pageOf l limit p).length = limit := by
  have h : ¬ l.length ≤ p * limit := fun hc => by
    have := (pagesOf_le_iff l.length limit p hl).2 hc
    omega
  obtain ⟨q, rfl⟩ : ∃ q, p = q + 1 := ⟨p - 1, by omega⟩
  rw [pageOf_length, Nat.add_sub_cancel]
  rw [Nat.succ_mul] at h
  omega

theorem pageOf_last_nonempty (l : List Student) (limit : Nat) (hl : 1 ≤ limit) (hne : l ≠ []) :
    pageOf l limit (pagesOf l.length limit) ≠ [] := by
  have hpos : 0 < l.length := List.length_pos.2 hne
  have h1 : ¬ pagesOf l.length limit ≤ 0 := fun hc => by
    have := (pagesOf_le_iff l.length limit 0 hl).1 hc
    omega
  have h2 : ¬ l.length ≤ (pagesOf l.length limit - 1) * limit := fun hc => by
    have := (pagesOf_le_iff l.length limit (pagesOf l.length limit - 1) hl).2 hc
    omega
  intro he
  have hlen := pageOf_length l limit (pagesOf l.length limit)
  rw [he] at hlen
  simp only [List.length_nil] at hlen
  omega

theorem pageOf_beyond (l : List Student) (limit p : Nat) (hl : 1 ≤ limit)
    (hp : pagesOf l.length limit < p) : pageOf l limit p = [] := by
  have h1 : l.length ≤ pagesOf l.length limit * limit :=
    (pagesOf_le_iff l.length limit _ hl).1 (le_refl _)
  have h2 : pagesOf l.length limit * limit ≤ (p - 1) * limit :=
    Nat.mul_le_mul_right _ (by omega)
  apply List.eq_nil_of_length_eq_zero
  rw [pageOf_length]
  omega

/-- C30: the pages of GET /students partition the result. For every store, every filter
and limit ≥ 1, with L the list of the active students that match the filter sorted by
(year, branch, rollNo) and totalPages = ceil(|L| / limit): the concatenation of the pages
1, 2, ..., totalPages is L, every page before the last holds exactly `limit` students,
the last page is non-empty when L is non-empty, every page beyond totalPages is empty,
and the data that the route returns for a page ≥ 1 is this page. -/
theorem pages_partition_result (db : List Student) (branch : Option String)
    (yq : Option Int) (limit : Nat) (hl : 1 ≤ limit) :
    ((List.range (pagesOf (sortedMatching db branch yq).length limit)).map
        (fun p => pageOf (sortedMatching db branch yq) limit (p + 1))).flatten =
      sortedMatching db branch yq ∧
    (∀ p, 1 ≤ p → p < pagesOf (sortedMatching db branch yq).length limit →
      (pageOf (sortedMatching db branch yq) limit p).length = limit) ∧
    (sortedMatching db branch yq ≠ [] →
      pageOf (sortedMatching db branch yq) limit
        (pagesOf (sortedMatching db branch yq).length limit) ≠ []) ∧
    (∀ p, pagesOf (sortedMatching db branch yq).length limit < p →
      pageOf (sortedMatching db branch yq) limit p = []) ∧
    (∀ year page, optionalInt year = some yq → 1 ≤ page →
      (listStudents db branch year (some page) (some limit)).map (fun r => (r.data, r.totalPages)) =
        some (pageOf (sortedMatching db branch yq) limit page,
          some (pagesOf (sortedMatching db branch yq).length limit))) := by
  refine ⟨?_, ?_, ?_, ?_, ?_⟩
  · rw [pages_join_take]
    exact List.take_of_length_le ((pagesOf_le_iff _ limit _ hl).1 (le_refl _))
  · intro p hp hlt
    exact pageOf_full _ limit p hl hp hlt
  · exact pageOf_last_nonempty _ limit hl
  · intro p hp
    exact pageOf_beyond _ limit p hl hp
  · intro year page hy hp
    rw [listStudents_page db branch year yq page limit hy hp hl, sortedMatching_length]
    rfl

/-- Witness of C30: three active students and limit 2 give two pages, of two students
and of one student, whose concatenation is the sorted list. -/
theorem pages_partition_result_witness :
    ((List.range 2).map (fun p => pageOf (sortedMatching
        [⟨1, "Asha Rao", "2CSE2311", "CSE", 11, "9876543210", "9876543211", 2, 2023, true⟩,
         ⟨2, "Ravi Kumar", "1ECE2411", "ECE", 11, "9876543212", "9876543213", 1, 2024, true⟩,
         ⟨3, "Meera Nair", "1CSE2410", "CSE", 10, "9876543214", "9876543215", 1, 2024, false⟩,
         ⟨4, "Arun Das", "1CSE2411", "CSE", 11, "9876543216", "9876543217", 1, 2024, true⟩]
        none none) 2 (p + 1))).flatten =
      sortedMatching
        [⟨1, "Asha Rao", "2CSE2311", "CSE", 11, "9876543210", "9876543211", 2, 2023, true⟩,
         ⟨2, "Ravi Kumar", "1ECE2411", "ECE", 11, "9876543212", "9876543213", 1, 2024, true⟩,
         ⟨3, "Meera Nair", "1CSE2410", "CSE", 10, "9876543214", "9876543215", 1, 2024, false⟩,
         ⟨4, "Arun Das", "1CSE2411", "CSE", 11, "9876543216", "9876543217", 1, 2024, true⟩]
        none none :=
  (pages_partition_result
    [⟨1, "Asha Rao", "2CSE2311", "CSE", 11, "9876543210", "9876543211", 2, 2023, true⟩,
     ⟨2, "Ravi Kumar", "1ECE2411", "ECE", 11, "9876543212", "9876543213", 1, 2024, true⟩,
     ⟨3, "Meera Nair", "1CSE2410", "CSE", 10, "9876543214", "9876543215", 1, 2024, false⟩,
     ⟨4, "Arun Das", "1CSE2411", "CSE", 11, "9876543216", "9876543217", 1, 2024, true⟩]
    none none 2 (by decide)).1

/-! ## Injectivity of the uid derivation -/

theorem digitChar_value (k : Nat) (h : k < 10) : (Nat.digitChar k).toNat - '0'.toNat = k := by
  interval_cases k <;> rfl

theorem digitChar_inj (j k : Nat) (hj : j < 10) (hk : k < 10)
    (h : Nat.digitChar j = Nat.digitChar k) : j = k := by
  rw [← digitChar_value j hj, ← digitChar_value k hk, h]

theorem digitsValue_snoc (cs : List Char) (c : Char) :
    digitsValue (cs ++ [c]) = digitsValue cs * 10 + (c.toNat - '0'.toNat) := by
  simp [digitsValue, List.foldl_append]

theorem digitsValue_decDigits (n : Nat) : digitsValue (decDigits n) = n := by
  induction n using Nat.strong_induction_on with
  | _ n ih =>
    rw [decDigits]
    by_cases h : n < 10
    · simp only [h, if_true]
      have := digitsValue_snoc [] (Nat.digitChar n)
      simp only [List.nil_append] at this
      rw [this, digitChar_value n h]
      simp [digitsValue]
    · simp only [h, if_false]
      rw [digitsValue_snoc, ih (n / 10) (by omega), digitChar_value (n % 10) (by omega)]
      omega

theorem digitsValue_zeroPad2 (n : Nat) : digitsValue (zeroPad2 n).data = n := by
  unfold zeroPad2
  by_cases h : n < 10
  · simp only [h, if_true, String.data_append, numToString_data]
    have h0 : digitsValue ("0".data ++ decDigits n) = digitsValue (decDigits n) := by
      simp [digitsValue]
    rw [h0, digitsValue_decDigits]
  · simp only [h, if_false, numToString_data, digitsValue_decDigits]

theorem append_split_by_class (p : Char → Bool) :
    ∀ (l1 l2 x1 x2 : List Char), (∀ c ∈ l1, p c = true) → (∀ c ∈ l2, p c = true) →
      (∀ c ∈ x1, p c = false) → (∀ c ∈ x2, p c = false) → l1 ++ x1 = l2 ++ x2 →
      l1 = l2 ∧ x1 = x2 := by
  intro l1
  induction l1 with
  | nil =>
    intro l2 x1 x2 _ h2 h3 _ h
    cases l2 with
    | nil => exact ⟨rfl, by simpa using h⟩
    | cons c l2 =>
      exfalso
      simp only [List.nil_append, List.cons_append] at h
      have hc1 : p c = true := h2 c (List.mem_cons_self _ _)
      have hc2 : p c = false := h3 c (by rw [h]; exact List.mem_cons_self _ _)
      rw [hc1] at hc2
      exact Bool.noConfusion hc2
  | cons a l1 ih =>
    intro l2 x1 x2 h1 h2 h3 h4 h
    cases l2 with
    | nil =>
      exfalso
      simp only [List.nil_append, List.cons_append] at h
      have hc1 : p a = true := h1 a (List.mem_cons_self _ _)
      have hc2 : p a = false := h4 a (by rw [← h]; exact List.mem_cons_self _ _)
      rw [hc1] at hc2
      exact Bool.noConfusion hc2
    | cons c l2 =>
      simp only [List.cons_append, List.cons.injEq] at h
      obtain ⟨hac, ht⟩ := h
      obtain ⟨h5, h6⟩ := ih l2 x1 x2 (fun c hc => h1 c (List.mem_cons_of_mem _ hc))
        (fun c hc => h2 c (List.mem_cons_of_mem _ hc)) h3 h4 ht
      exact ⟨by rw [hac, h5], h6⟩

theorem digit_not_upper (c : Char) (h : isDigitChar c = true) : isUpperAZ c = false := by
  simp only [isDigitChar, Bool.and_eq_true, decide_eq_true_eq] at h
  simp only [isUpperAZ, Bool.and_eq_false_iff, decide_eq_false_iff_not, not_le]
  left
  exact lt_of_le_of_lt h.2 (by decide)

theorem uid_tail_digits (ay r : Nat) :
    ∀ c ∈ (last2digits ay).data ++ (zeroPad2 r).data, isUpperAZ c = false := by
  intro c hc
  apply digit_not_upper
  rcases List.mem_append.1 hc with h | h
  · simp only [last2digits, List.mem_cons, List.mem_singleton, List.not_mem_nil, or_false] at h
    rcases h with h | h
    · rw [h]; exact digitChar_isDigit _ (by omega)
    · rw [h]; exact digitChar_isDigit _ (by omega)
  · unfold zeroPad2 at h
    by_cases hr : r < 10
    · simp only [hr, if_true, String.data_append, List.mem_append] at h
      rcases h with h | h
      · have : c = '0' := by simpa using h
        rw [this]; decide
      · exact numToString_digits r c h
    · simp only [hr, if_false] at h
      exact numToString_digits r c h

theorem year_digit (y : Nat) (h : y ∈ [1, 2, 3, 4]) :
    (numToString y).data = [Nat.digitChar y] ∧ y < 10 := by
  simp only [List.mem_cons, List.mem_singleton, List.not_mem_nil, or_false] at h
  rcases h with rfl | rfl | rfl | rfl <;> exact ⟨by decide, by decide⟩

/-- C24: `Student.generateUID` is injective on validated inputs. For years in 1..4,
branches of the enumeration and admission years from 2020 to 2119, two tuples
(year, branch, admissionYear, rollNo) with the same generated uid are equal; this holds
for every roll number, in particular for the validated ones (rollNo ≥ 1). -/
theorem generateUID_injective (y y1 : Nat) (b b1 : String) (ay ay1 r r1 : Nat)
    (hy : y ∈ [1, 2, 3, 4]) (hy1 : y1 ∈ [1, 2, 3, 4])
    (hb : b ∈ branches) (hb1 : b1 ∈ branches)
    (ha : 2020 ≤ ay ∧ ay ≤ 2119) (ha1 : 2020 ≤ ay1 ∧ ay1 ≤ 2119)
    (_hr : 1 ≤ r) (_hr1 : 1 ≤ r1)
    (h : generateUID y b ay r = generateUID y1 b1 ay1 r1) :
    y = y1 ∧ b = b1 ∧ ay = ay1 ∧ r = r1 := by
  rw [generateUID_eq_deriveUID y b ay r (by omega),
    generateUID_eq_deriveUID y1 b1 ay1 r1 (by omega)] at h
  have hd := congrArg String.data h
  unfold deriveUID at hd
  obtain ⟨hyd, hy10⟩ := year_digit y hy
  obtain ⟨hyd1, hy110⟩ := year_digit y1 hy1
  simp only [String.data_append, hyd, hyd1, List.append_assoc, List.singleton_append,
    List.cons_append, List.nil_append,
    List.cons.injEq] at hd
  obtain ⟨hc, ht⟩ := hd
  have hyy : y = y1 := digitChar_inj y y1 hy10 hy110 hc
  obtain ⟨hbb, hx⟩ := append_split_by_class isUpperAZ b.data b1.data _ _
    (fun c hc => List.all_eq_true.1 (branch_shape b hb).2 c hc)
    (fun c hc => List.all_eq_true.1 (branch_shape b1 hb1).2 c hc)
    (uid_tail_digits ay r) (uid_tail_digits ay1 r1) ht
  simp only [last2digits, List.cons_append, List.nil_append, List.cons.injEq] at hx
  obtain ⟨hd1, hd2, hz⟩ := hx
  have e1 := digitChar_inj _ _ (by omega) (by omega) hd1
  have e2 := digitChar_inj _ _ (by omega) (by omega) hd2
  have hr : r = r1 := by
    rw [← digitsValue_zeroPad2 r, ← digitsValue_zeroPad2 r1, hz]
  exact ⟨hyy, String.ext hbb, by omega, hr⟩

/-- Witness of C24: the uid `1CSE2410` is generated by the tuple (1, CSE, 2024, 10)
only. -/
theorem generateUID_injective_witness :
    generateUID 1 "CSE" 2024 10 = "1CSE2410" ∧
      (1 = 1 ∧ "CSE" = "CSE" ∧ 2024 = 2024 ∧ 10 = 10) :=
  ⟨by decide, generateUID_injective 1 1 "CSE" "CSE" 2024 2024 10 10 (by decide) (by decide)
    (by decide) (by decide) (by decide) (by decide) (by decide) (by decide) rfl⟩

end AttendanceApp
